import Mathlib

/-!
# Granular voice of Dkash47GranularSynth

A shallow embedding of `GranularVoice` (Source/GranularEngine.h, GranularEngine.cpp).

* C++ `float`/`double` values are rationals; arithmetic is exact.
* C++ `int` values are integers; `(int) x` is truncation toward zero.
* The conversion of the source length to `float` is `floatOfInt`, with the rounding of
  a 24-bit significand: `getNumSamples ()` is an `int` that can exceed 2^24, and
  `(float) (getNumSamples () - 1)` is then not always `getNumSamples () - 1`. The other
  conversions of an `int` to `float` are exact in the model.
* The JUCE classes and the C math routines the voice calls (`juce::ADSR`,
  `juce::Random`, `juce::dsp::IIR::Filter`, `juce::dsp::DelayLine`, `std::sin`,
  `std::cos`, `std::exp`, `std::pow`, the constant pi) are not part of the
  repository; they are the fields of the parameter `Juce`.
* `std::vector<Grain>` is a `List Grain`, index 0 first.
* Integers are unbounded: a conversion `(int) x` of a value outside the range of `int`
  is undefined in C++ and is not modelled.
* A `while` or `for` loop is a recursive function with an iteration budget, called with
  a budget that the loop cannot exhaust (`spawnLoop_exit`, `unisonLoop_exit`).
* A dereference of `audioSource` after the null test of the caller is the argument
  `src`.
-/

namespace GranularSynth

/-! ## JUCE arithmetic helpers (juce_MathsFunctions.h) -/

/-- The C++ conversion `(int) x`: truncation toward zero. -/
def toInt (x : ℚ) : Int := if 0 ≤ x then ⌊x⌋ else ⌈x⌉

/-- The three-argument `juce::jmap (value0To1, targetRangeMin, targetRangeMax)`. -/
def jmap (value0To1 targetRangeMin targetRangeMax : ℚ) : ℚ :=
  targetRangeMin + value0To1 * (targetRangeMax - targetRangeMin)

/-- The five-argument `juce::jmap`. -/
def jmap5 (sourceValue sourceRangeMin sourceRangeMax targetRangeMin targetRangeMax : ℚ) : ℚ :=
  targetRangeMin + ((targetRangeMax - targetRangeMin) * (sourceValue - sourceRangeMin))
    / (sourceRangeMax - sourceRangeMin)

/-- The function `juce::jlimit (lowerLimit, upperLimit, valueToConstrain)`. -/
def jlimit (lowerLimit upperLimit valueToConstrain : ℚ) : ℚ :=
  if valueToConstrain < lowerLimit then lowerLimit
  else if upperLimit < valueToConstrain then upperLimit
  else valueToConstrain

/-- The function `juce::jmax (a, b)`. -/
def jmax (a b : ℚ) : ℚ := if a < b then b else a

/-- The function `juce::jmin (a, b)` at type `int`. -/
def jmin (a b : Int) : Int := if b < a then b else a

/-- The spacing of the `float` values around `n`: 1 below 2^24, doubling with every
further bit of `n`. The budget of 8 doublings covers every 32-bit `n`. -/
def floatStep : Nat → Nat → Nat
  | 0, _ => 1
  | fuel + 1, n => if n < 16777216 then 1 else 2 * floatStep fuel (n / 2)

/-- Rounding of `n` to a multiple of `step`, to nearest, ties to the even multiple. -/
def roundToStep (n step : Nat) : Nat :=
  if 2 * (n % step) < step then n / step * step
  else if step < 2 * (n % step) then (n / step + 1) * step
  else if n / step % 2 = 0 then n / step * step
  else (n / step + 1) * step

/-- The C++ conversion `(float) n` of an `int` (IEEE-754 binary32, round to nearest,
ties to even): exact up to 2^24, a multiple of the spacing above. -/
def floatOfInt (n : Int) : ℚ :=
  if 0 ≤ n then ((roundToStep n.toNat (floatStep 8 n.toNat) : Nat) : ℚ)
  else -((roundToStep (-n).toNat (floatStep 8 (-n).toNat) : Nat) : ℚ)

/-! ## External collaborators -/

/-- The library routines and JUCE objects used by the voice. Every field is an
operation the source calls on an object it does not define. -/
structure Juce where
  /-- The constant `juce::MathConstants<float>::pi`. -/
  pi : ℚ
  /-- The routine `std::sin`. -/
  sin : ℚ → ℚ
  /-- The routine `std::cos`. -/
  cos : ℚ → ℚ
  /-- The routine `std::exp`. -/
  exp : ℚ → ℚ
  /-- The routine `std::pow`. -/
  pow : ℚ → ℚ → ℚ
  /-- State of a `juce::Random`. -/
  Random : Type
  /-- The method `Random::nextFloat`: the draw and the advanced generator. -/
  nextFloat : Random → ℚ × Random
  /-- State of a `juce::ADSR`. -/
  ADSR : Type
  /-- The method `ADSR::setSampleRate`. -/
  adsrSetSampleRate : ADSR → ℚ → ADSR
  /-- The method `ADSR::setParameters` (attack, decay, sustain, release). -/
  adsrSetParameters : ADSR → ℚ → ℚ → ℚ → ℚ → ADSR
  /-- The method `ADSR::noteOn`. -/
  adsrNoteOn : ADSR → ADSR
  /-- The method `ADSR::noteOff`. -/
  adsrNoteOff : ADSR → ADSR
  /-- The method `ADSR::reset`. -/
  adsrReset : ADSR → ADSR
  /-- The method `ADSR::isActive`. -/
  adsrIsActive : ADSR → Bool
  /-- The method `ADSR::getNextSample`: the envelope value and the advanced state. -/
  adsrGetNextSample : ADSR → ℚ × ADSR
  /-- State of a `juce::dsp::IIR::Filter<float>` together with its coefficients. -/
  Filter : Type
  /-- The method `Filter::prepare` (sample rate, maximum block size). -/
  filterPrepare : Filter → ℚ → Int → Filter
  /-- Assigning `Coefficients::makeLowPass (sampleRate, cutoff, q)` to the filter. -/
  filterSetLowPass : Filter → ℚ → ℚ → ℚ → Filter
  /-- The method `Filter::processSample`. -/
  filterProcessSample : Filter → ℚ → ℚ × Filter
  /-- State of a `juce::dsp::DelayLine<float>`. -/
  DelayLine : Type
  /-- The method `DelayLine::reset`. -/
  delayReset : DelayLine → DelayLine
  /-- The method `DelayLine::setDelay`. -/
  delaySetDelay : DelayLine → ℚ → DelayLine
  /-- The method `DelayLine::popSample (0)`. -/
  delayPopSample : DelayLine → ℚ × DelayLine
  /-- The method `DelayLine::pushSample (0, x)`. -/
  delayPushSample : DelayLine → ℚ → DelayLine

/-- A `juce::AudioBuffer<float>`: channel count, length and the samples. -/
structure AudioBuffer where
  numChannels : Nat
  numSamples : Nat
  getSample : Nat → Nat → ℚ

/-- The method `AudioBuffer::addSample (channel, index, value)`. -/
def AudioBuffer.addSample (b : AudioBuffer) (channel index : Nat) (value : ℚ) : AudioBuffer :=
  { b with getSample := fun c i =>
      if c = channel ∧ i = index then b.getSample c i + value else b.getSample c i }

/-! ## Data model (GranularEngine.h) -/

/-- The struct `GranularVoice::GranularParams`, with the defaults of the header. -/
structure GranularParams where
  grainSize : ℚ := 100
  density : ℚ := 1 / 2
  texture : ℚ := 1 / 2
  pitch : ℚ := 0
  position : ℚ := 1 / 2
  reverse : ℚ := 0
  scan : ℚ := 0
  spray : ℚ := 1 / 2
  jitter : ℚ := 0
  pitchJitter : ℚ := 0
  grainShape : ℚ := 0
  loopMode : ℚ := 0
  glide : ℚ := 0
  stereoWidth : ℚ := 0
  grainPitch : ℚ := 0
  freeze : ℚ := 0
  filterCutoff : ℚ := 1
  filterRes : ℚ := 0
  filterType : ℚ := 0
  formantShift : ℚ := 0
  randomSpread : ℚ := 0
  grainAmp : ℚ := 0
  attack : ℚ := 10
  decay : ℚ := 50
  sustain : ℚ := 1
  release : ℚ := 200
  lfoRate : ℚ := 1
  lfoAmount : ℚ := 0
  lfoTarget : ℚ := 0
  lfoShape : ℚ := 0
  lfo2Rate : ℚ := 1 / 2
  lfo2Amount : ℚ := 0
  lfo2Target : ℚ := 1
  lfo2Shape : ℚ := 0
  chorusAmount : ℚ := 0
  unisonVoices : ℚ := 1

/-- The struct `GranularVoice::Grain`, with the defaults of the header. -/
structure Grain where
  position : ℚ := 0
  startPosition : ℚ := 0
  increment : ℚ := 1
  envelope : ℚ := 0
  envelopeInc : ℚ := 0
  samplesRemaining : Int := 0
  totalSamples : Int := 0
  panL : ℚ := 1
  panR : ℚ := 1
  reverse : Bool := false
  filterState1 : ℚ := 0
  filterState2 : ℚ := 0
  pitchOffset : ℚ := 0
  ampMultiplier : ℚ := 1
  jitterOffset : ℚ := 0
  shapeType : Int := 0
  formantShift : ℚ := 1
  stereoPosition : ℚ := 1 / 2

/-- The member variables of `GranularVoice`, and `currentlyPlayingNote` of its
base class `juce::SynthesiserVoice` (what `clearCurrentNote` resets). -/
structure Voice (X : Juce) where
  audioSource : Option AudioBuffer
  sourceSampleRate : ℚ
  currentSampleRate : ℚ
  parameters : GranularParams
  activeGrains : List Grain
  isActive : Bool
  velocity : ℚ
  midiNote : Int
  pitchBend : ℚ
  grainSpawnTimer : ℚ
  grainSpawnInterval : ℚ
  envelope : X.ADSR
  lfoPhase : ℚ
  lfo2Phase : ℚ
  filterL : X.Filter
  filterR : X.Filter
  scanPhase : ℚ
  scanDirection : ℚ
  currentPlayPosition : ℚ
  targetPlayPosition : ℚ
  jitterAccumulator : ℚ
  nextGrainTime : ℚ
  random : X.Random
  chorusDelayL : X.DelayLine
  chorusDelayR : X.DelayLine
  chorusLFOPhase : ℚ
  currentlyPlayingNote : Int

variable {X : Juce}

/-! ## Operations (GranularEngine.cpp) -/

/-- The method `GranularVoice::setAudioSource`. -/
def setAudioSource (v : Voice X) (source : Option AudioBuffer) (sourceRate : ℚ) : Voice X :=
  { v with audioSource := source, sourceSampleRate := sourceRate }

/-- The method `GranularVoice::updateInternalParams`. -/
def updateInternalParams (v : Voice X) : Voice X :=
  let env := X.adsrSetParameters v.envelope (v.parameters.attack / 1000)
    (v.parameters.decay / 1000) v.parameters.sustain (v.parameters.release / 1000)
  let cutoffHz := jmap5 v.parameters.filterCutoff 0 1 80 20000
  let resonance := jmap5 v.parameters.filterRes 0 1 (1 / 2) 10
  { v with
    envelope := env
    grainSpawnInterval := 1 / jmax (1 / 10) (v.parameters.density * 100)
    filterL := X.filterSetLowPass v.filterL v.currentSampleRate cutoffHz resonance
    filterR := X.filterSetLowPass v.filterR v.currentSampleRate cutoffHz resonance }

/-- The method `GranularVoice::setParameters` (GranularEngine.h). -/
def setParameters (v : Voice X) (params : GranularParams) : Voice X :=
  updateInternalParams { v with parameters := params }

/-- The method `GranularVoice::getInterpolatedSample`, reading the member `audioSource`. -/
def getInterpolatedSample (audioSource : Option AudioBuffer) (channel : Nat) (position : ℚ) : ℚ :=
  match audioSource with
  | none => 0
  | some src =>
    if src.numChannels ≤ channel ∨ src.numSamples = 0 then 0
    else
      let index0 : Int := toInt position
      let index1 : Int := jmin (index0 + 1) ((src.numSamples : Int) - 1)
      let fraction : ℚ := position - (index0 : ℚ)
      if index0 < 0 ∨ (src.numSamples : Int) ≤ index0 then 0
      else
        let sample0 := src.getSample channel index0.toNat
        let sample1 := src.getSample channel index1.toNat
        jmap5 fraction 0 1 sample0 sample1

/-- The method `GranularVoice::getLFOShape`; the Random shape draws from the generator. -/
def getLFOShape (v : Voice X) (phase : ℚ) (shapeType : Int) : ℚ × Voice X :=
  if shapeType = 0 then (X.sin phase, v)
  else if shapeType = 1 then (2 * (phase / (2 * X.pi)) - 1, v)
  else if shapeType = 2 then ((if phase < X.pi then 1 else -1), v)
  else if shapeType = 3 then (2 * (phase / (2 * X.pi)) - 1, v)
  else if shapeType = 4 then
    ((X.nextFloat v.random).1 * 2 - 1, { v with random := (X.nextFloat v.random).2 })
  else (X.sin phase, v)

/-- The method `GranularVoice::generateLFO`. -/
def generateLFO (v : Voice X) (lfoIndex : Int) : ℚ × Voice X :=
  let phase := if lfoIndex = 0 then v.lfoPhase else v.lfo2Phase
  let rate := if lfoIndex = 0 then v.parameters.lfoRate else v.parameters.lfo2Rate
  let shape := if lfoIndex = 0 then v.parameters.lfoShape else v.parameters.lfo2Shape
  let r := getLFOShape v phase (toInt shape)
  let lfoRateHz := jmap rate (1 / 10) 20
  let phaseIncrement := 2 * X.pi * lfoRateHz / v.currentSampleRate
  let phase1 := phase + phaseIncrement
  let phase2 := if phase1 > 2 * X.pi then phase1 - 2 * X.pi else phase1
  (r.1, if lfoIndex = 0 then { r.2 with lfoPhase := phase2 } else { r.2 with lfo2Phase := phase2 })

/-- The loop `while (scanPhase >= 1.0f) scanPhase -= 1.0f;` with an iteration budget. -/
def wrapDown : Nat → ℚ → ℚ
  | 0, x => x
  | fuel + 1, x => if 1 ≤ x then wrapDown fuel (x - 1) else x

/-- The loop `while (scanPhase < 0.0f) scanPhase += 1.0f;` with an iteration budget. -/
def wrapUp : Nat → ℚ → ℚ
  | 0, x => x
  | fuel + 1, x => if x < 0 then wrapUp fuel (x + 1) else x

/-- The method `GranularVoice::updateScanPosition`. The two wrap loops get as many
iterations as they can need: the integer part of the phase. -/
def updateScanPosition (v : Voice X) : Voice X :=
  if v.parameters.scan > 1 / 100 then
    let scanRate := v.parameters.scan * (1 / 2)
    let phase1 := v.scanPhase + scanRate / v.currentSampleRate
    let loopMode := toInt v.parameters.loopMode
    if loopMode = 2 then
      let dir := if 1 ≤ phase1 ∨ phase1 ≤ 0 then v.scanDirection * (-1) else v.scanDirection
      { v with scanPhase := jlimit 0 1 phase1, scanDirection := dir }
    else
      let phase2 := wrapDown ⌊phase1⌋.toNat phase1
      { v with scanPhase := wrapUp ⌈-phase2⌉.toNat phase2 }
  else v

/-- The method `GranularVoice::calculateGrainPosition`. -/
def calculateGrainPosition (v : Voice X) : ℚ × Voice X :=
  let position0 := v.parameters.position
  let position1 :=
    if v.parameters.freeze > 1 / 100 then jmap v.parameters.freeze position0 v.targetPlayPosition
    else position0
  if v.parameters.glide > 1 / 100 then
    let glideRate := 1 - v.parameters.glide * (99 / 100)
    let cur := v.currentPlayPosition + (position1 - v.currentPlayPosition) * glideRate
    (cur, { v with currentPlayPosition := cur })
  else (position1, v)

/-- The method `GranularVoice::calculateGrainPitch`. -/
def calculateGrainPitch (v : Voice X) (grain : Grain) : ℚ :=
  v.parameters.pitch + v.parameters.grainPitch + grain.pitchOffset

/-- The method `GranularVoice::calculateGrainEnvelope`. -/
def calculateGrainEnvelope (v : Voice X) (grain : Grain) : ℚ :=
  let envelopePhase : ℚ := 1 - (grain.samplesRemaining : ℚ) / (grain.totalSamples : ℚ)
  let hann : ℚ := 1 / 2 - 1 / 2 * X.cos (2 * X.pi * envelopePhase)
  let grainEnvelope : ℚ :=
    if grain.shapeType = 0 then hann
    else if grain.shapeType = 1 then
      (if envelopePhase < 1 / 2 then 2 * envelopePhase else 2 * (1 - envelopePhase))
    else if grain.shapeType = 2 then 1
    else if grain.shapeType = 3 then
      X.exp (-((envelopePhase - 1 / 2) * 4) * ((envelopePhase - 1 / 2) * 4))
    else hann
  if v.parameters.grainAmp > 1 / 100 then grainEnvelope * grain.ampMultiplier else grainEnvelope

/-- The method `GranularVoice::calculateJitteredTiming`. -/
def calculateJitteredTiming (v : Voice X) : ℚ × Voice X :=
  let d := X.nextFloat v.random
  let jitterAmount := (d.1 * 2 - 1) * v.parameters.jitter
  (1 + jitterAmount * (1 / 2), { v with random := d.2 })

/-- The method `GranularVoice::shouldSpawnGrain`. -/
def shouldSpawnGrain (v : Voice X) : Bool × Voice X :=
  if v.parameters.jitter > 1 / 100 then
    let t := calculateJitteredTiming v
    let next := v.nextGrainTime + t.1
    (decide (1 ≤ next), { t.2 with nextGrainTime := next })
  else (true, v)

/-- A call `random.nextFloat()` on the voice's generator. -/
def nextFloat (v : Voice X) : ℚ × Voice X :=
  ((X.nextFloat v.random).1, { v with random := (X.nextFloat v.random).2 })

/-- The part of `GranularVoice::spawnGrain` that builds `newGrain` (from the two LFO
calls to the stereo positioning), for the dereferenced source `src`: the grain and the
voice after the side effects on the LFO phases, scan phase, tracked position and
generator. The source length enters the `float` arithmetic converted: `numSamples` is
`(float) getNumSamples ()` and `lastIndex` is `(float) (getNumSamples () - 1)`. -/
def spawnMainGrain (src : AudioBuffer) (v : Voice X) : Grain × Voice X :=
  let p := v.parameters
  let numSamples : ℚ := floatOfInt (src.numSamples : Int)
  let lastIndex : ℚ := floatOfInt ((src.numSamples : Int) - 1)
  let lfo1 := generateLFO v 0
  let lfoValue := lfo1.1
  let lfo2 := generateLFO lfo1.2 1
  let vScan := updateScanPosition lfo2.2
  let size0 := jmap p.grainSize 10 2000
  let size1 :=
    if p.lfoTarget = 2 ∧ p.lfoAmount > 1 / 100 then
      jlimit 10 2000 (size0 * (1 + lfoValue * p.lfoAmount * (1 / 2)))
    else size0
  let jit := if p.jitter > 1 / 100 then nextFloat vScan else (0, vScan)
  let grainSizeMs :=
    if p.jitter > 1 / 100 then
      jlimit 10 2000 (size1 * (1 + (jit.1 * 2 - 1) * p.jitter * (3 / 10)))
    else size1
  let totalSamples := toInt (grainSizeMs * v.currentSampleRate / 1000)
  let shapeType := toInt p.grainShape
  let cp := calculateGrainPosition jit.2
  let base0 := cp.1 * lastIndex
  let base1 :=
    if p.lfoTarget = 0 ∧ p.lfoAmount > 1 / 100 then
      base0 + lfoValue * p.lfoAmount * numSamples * (3 / 10)
    else base0
  let base2 := if p.scan > 1 / 100 then base1 + cp.2.scanPhase * numSamples else base1
  let sprayAmount := jmax p.texture p.spray
  let spr := if sprayAmount > 1 / 100 then nextFloat cp.2 else (0, cp.2)
  let base3 :=
    if sprayAmount > 1 / 100 then base2 + (spr.1 * 2 - 1) * sprayAmount * numSamples * (2 / 10)
    else base2
  let pj := if p.pitchJitter > 1 / 100 then nextFloat spr.2 else (0, spr.2)
  let pitchOffset := if p.pitchJitter > 1 / 100 then (pj.1 * 2 - 1) * p.pitchJitter * 12 else 0
  let loopMode := toInt p.loopMode
  let base4 := if loopMode = 1 then lastIndex - base3 else base3
  let startPosition := jlimit 0 lastIndex base4
  let midiPitch : ℚ := ((v.midiNote - 60 : Int) : ℚ) / 12
  let totalPitch0 := p.pitch + p.grainPitch + midiPitch * 12
  let totalPitch1 :=
    if p.lfoTarget = 1 ∧ p.lfoAmount > 1 / 100 then totalPitch0 + lfoValue * p.lfoAmount * 12
    else totalPitch0
  let totalPitch := totalPitch1 + pitchOffset
  let increment0 := X.pow 2 (totalPitch / 12)
  let increment :=
    if v.sourceSampleRate ≠ v.currentSampleRate then
      increment0 * (v.sourceSampleRate / v.currentSampleRate)
    else increment0
  let rev := nextFloat pj.2
  let st := nextFloat rev.2
  let stereoPos := (st.1 * 2 - 1) * p.stereoWidth
  ({ position := startPosition
     startPosition := startPosition
     increment := increment
     samplesRemaining := totalSamples
     totalSamples := totalSamples
     panL := jlimit 0 1 (1 / 2 - stereoPos * (1 / 2))
     panR := jlimit 0 1 (1 / 2 + stereoPos * (1 / 2))
     reverse := decide (rev.1 < p.reverse)
     pitchOffset := pitchOffset
     shapeType := shapeType }, st.2)

/-- The unison loop of `spawnGrain`,
`for (int i = 1; i < numUnisonVoices && activeGrains.size() < 16; ++i)`, from index `i`
on, over the grain vector and the generator, with an iteration budget. The clamp bound
is `(float) (getNumSamples () - 1)` and the offset is scaled by `(float) getNumSamples ()`. -/
def unisonLoop (X : Juce) (numSamples : Nat) (stereoWidth : ℚ) (newGrain : Grain)
    (numUnisonVoices : Int) : Nat → Int → List Grain × X.Random → List Grain × X.Random
  | 0, _, s => s
  | fuel + 1, i, s =>
    if i < numUnisonVoices ∧ s.1.length < 16 then
      let detuneAmount : ℚ := ((i : ℚ) / ((numUnisonVoices - 1 : Int) : ℚ) - 1 / 2) * (1 / 10)
      let unisonStereoPos : ℚ :=
        ((i : ℚ) / ((numUnisonVoices - 1 : Int) : ℚ) - 1 / 2) * stereoWidth
      let d := X.nextFloat s.2
      let positionVariation : ℚ := (d.1 * 2 - 1) * (1 / 100)
      let unisonGrain : Grain :=
        { newGrain with
          increment := newGrain.increment * X.pow 2 (detuneAmount / 12)
          panL := jlimit 0 1 (1 / 2 - unisonStereoPos * (1 / 2))
          panR := jlimit 0 1 (1 / 2 + unisonStereoPos * (1 / 2))
          position := jlimit 0 (floatOfInt ((numSamples : Int) - 1))
            (newGrain.position + positionVariation * floatOfInt (numSamples : Int)) }
      unisonLoop X numSamples stereoWidth newGrain numUnisonVoices fuel (i + 1)
        (s.1 ++ [unisonGrain], d.2)
    else s

/-- The part of `GranularVoice::spawnGrain` that appends to the grain vector (the
`push_back` of the main grain and the unison block), for the main grain and voice `m`
built by `spawnMainGrain`: the vector and the generator before the eviction. The unison
loop appends a grain on every iteration and stops at 16 grains, so a budget of 16
iterations never runs out. -/
def spawnAppend (src : AudioBuffer) (v : Voice X) (m : Grain × Voice X) :
    List Grain × X.Random :=
  let grains1 := v.activeGrains ++ [m.1]
  let numUnisonVoices := toInt v.parameters.unisonVoices
  if numUnisonVoices > 1 ∧ grains1.length < 12 then
    unisonLoop X src.numSamples v.parameters.stereoWidth m.1 numUnisonVoices 16 1
      (grains1, m.2.random)
  else (grains1, m.2.random)

/-- The method `GranularVoice::spawnGrain`. -/
def spawnGrain (v : Voice X) : Voice X :=
  match v.audioSource with
  | none => v
  | some src =>
    if src.numSamples = 0 then v
    else
      let m := spawnMainGrain src v
      let u := spawnAppend src v m
      { m.2 with activeGrains := if u.1.length > 20 then u.1.tail else u.1, random := u.2 }

/-- The method `GranularVoice::startNote`. -/
def startNote (v : Voice X) (midiNoteNumber : Int) (noteVelocity : ℚ) : Voice X :=
  spawnGrain (spawnGrain
    { v with
      midiNote := midiNoteNumber
      velocity := noteVelocity
      isActive := true
      envelope := X.adsrNoteOn v.envelope
      activeGrains := []
      grainSpawnTimer := 0 })

/-- The method `GranularVoice::stopNote`. -/
def stopNote (v : Voice X) (allowTailOff : Bool) : Voice X :=
  if allowTailOff then { v with envelope := X.adsrNoteOff v.envelope }
  else { v with envelope := X.adsrReset v.envelope, isActive := false, activeGrains := [] }

/-- The loop `while (grainSpawnTimer >= 1.0f && isActive) { spawnGrain(); grainSpawnTimer -= 1.0f; }`
of `updateGrains`, with an iteration budget. -/
def spawnLoop : Nat → Voice X → Voice X
  | 0, v => v
  | fuel + 1, v =>
    if 1 ≤ v.grainSpawnTimer ∧ v.isActive = true then
      spawnLoop fuel
        { spawnGrain v with grainSpawnTimer := (spawnGrain v).grainSpawnTimer - 1 }
    else v

/-- The spawn block at the head of the sample loop of `updateGrains` (the `if` on
`activeGrains.size() < 16`). The timer loop gets as many iterations as it can need: the
integer part of the timer. -/
def spawnStep (spawnIncrement : ℚ) (v : Voice X) : Voice X :=
  if v.activeGrains.length < 16 then
    spawnLoop ⌊v.grainSpawnTimer + spawnIncrement⌋.toNat
      { v with grainSpawnTimer := v.grainSpawnTimer + spawnIncrement }
  else v

/-- What one iteration of the grain loop of `updateGrains` does with a grain. -/
inductive GrainStep where
  /-- The grain had `samplesRemaining <= 0` and was erased. -/
  | erased : GrainStep
  /-- The envelope was below the threshold: only `samplesRemaining` was decremented. -/
  | skipped (grain : Grain) : GrainStep
  /-- The grain was read: the updated grain and the enveloped samples before panning. -/
  | played (grain : Grain) (sampleL sampleR : ℚ) : GrainStep

/-- The body of the grain loop of `updateGrains` for one grain and the dereferenced
source `src`. The wrap compares the position with `(float) getNumSamples ()` and restarts
a reverse grain at `(float) (getNumSamples () - 1)`. -/
def processGrain (X : Juce) (src : AudioBuffer) (grain : Grain) : GrainStep :=
  if grain.samplesRemaining ≤ 0 then GrainStep.erased
  else
    let envelopePhase : ℚ := 1 - (grain.samplesRemaining : ℚ) / (grain.totalSamples : ℚ)
    let envelopeValue : ℚ := 1 / 2 - 1 / 2 * X.cos (2 * X.pi * envelopePhase)
    if envelopeValue < 2 / 100 then
      GrainStep.skipped { grain with samplesRemaining := grain.samplesRemaining - 1 }
    else
      let sampleL := getInterpolatedSample (some src) 0 grain.position
      let sampleR :=
        if src.numChannels > 1 then getInterpolatedSample (some src) 1 grain.position
        else sampleL
      let position1 :=
        if grain.reverse then grain.position - grain.increment
        else grain.position + grain.increment
      let position2 :=
        if floatOfInt (src.numSamples : Int) ≤ position1 then 0
        else if position1 < 0 then floatOfInt ((src.numSamples : Int) - 1)
        else position1
      GrainStep.played
        { grain with position := position2, samplesRemaining := grain.samplesRemaining - 1 }
        (sampleL * envelopeValue) (sampleR * envelopeValue)

/-- The grain loop of `updateGrains`, `for (int g = size - 1; g >= 0; --g)`: the grains
are visited from the last index down, so the tail of the list is processed before its
head; the result is the vector after the loop and the sums `(outputL, outputR)`. -/
def processGrains (X : Juce) (src : AudioBuffer) : List Grain → ℚ × ℚ → List Grain × (ℚ × ℚ)
  | [], out => ([], out)
  | grain :: rest, out =>
    let r := processGrains X src rest out
    match processGrain X src grain with
    | GrainStep.erased => r
    | GrainStep.skipped g => (g :: r.1, r.2)
    | GrainStep.played g sampleL sampleR =>
      (g :: r.1, (r.2.1 + sampleL * grain.panL, r.2.2 + sampleR * grain.panR))

/-- The method `GranularVoice::processFilter`. -/
def processFilter (v : Voice X) (sampleL sampleR : ℚ) : (ℚ × ℚ) × Voice X :=
  if v.parameters.filterCutoff < 1 then
    (((X.filterProcessSample v.filterL sampleL).1, (X.filterProcessSample v.filterR sampleR).1),
      { v with
        filterL := (X.filterProcessSample v.filterL sampleL).2
        filterR := (X.filterProcessSample v.filterR sampleR).2 })
  else ((sampleL, sampleR), v)

/-- The method `GranularVoice::processChorus`. -/
def processChorus (v : Voice X) (sampleL sampleR : ℚ) : (ℚ × ℚ) × Voice X :=
  if v.parameters.chorusAmount < 1 / 100 then ((sampleL, sampleR), v)
  else
    let phaseIncrement := 2 * X.pi * (1 / 2) / v.currentSampleRate
    let phase1 := v.chorusLFOPhase + phaseIncrement
    let phase2 := if phase1 > 2 * X.pi then phase1 - 2 * X.pi else phase1
    let leftModulation := X.sin phase2 * 5
    let rightModulation := X.sin (phase2 + X.pi * (1 / 2)) * 5
    let leftDelayTime := (8 + leftModulation) * v.currentSampleRate / 1000
    let rightDelayTime := (8 + rightModulation) * v.currentSampleRate / 1000
    let dL := X.delayPopSample (X.delaySetDelay v.chorusDelayL (jlimit 1 720 leftDelayTime))
    let dR := X.delayPopSample (X.delaySetDelay v.chorusDelayR (jlimit 1 720 rightDelayTime))
    let chorusMix := v.parameters.chorusAmount * (1 / 2)
    ((sampleL * (1 - chorusMix) + dL.1 * chorusMix, sampleR * (1 - chorusMix) + dR.1 * chorusMix),
      { v with
        chorusLFOPhase := phase2
        chorusDelayL := X.delayPushSample dL.2 sampleL
        chorusDelayR := X.delayPushSample dR.2 sampleR })

/-- One iteration of the sample loop of `updateGrains` (one render tick) up to the write
into the buffer: the voice after the tick and the pair `(outputL, outputR)`. -/
def updateGrainsSample (src : AudioBuffer) (v : Voice X) : Voice X × (ℚ × ℚ) :=
  let spawnIncrement := v.parameters.density * 50 / v.currentSampleRate
  let v1 := spawnStep spawnIncrement v
  let pg := processGrains X src v1.activeGrains (0, 0)
  let env := X.adsrGetNextSample v1.envelope
  let outputL := pg.2.1 * (env.1 * v1.velocity * (3 / 10))
  let outputR := pg.2.2 * (env.1 * v1.velocity * (3 / 10))
  let f := processFilter { v1 with activeGrains := pg.1, envelope := env.2 } outputL outputR
  let c := processChorus f.2 f.1.1 f.1.2
  (c.2, c.1)

/-- The write at the end of the sample loop of `updateGrains`. -/
def addToBuffer (buffer : AudioBuffer) (bufferIndex : Nat) (out : ℚ × ℚ) : AudioBuffer :=
  if bufferIndex < buffer.numSamples then
    let b := buffer.addSample 0 bufferIndex out.1
    if buffer.numChannels > 1 then b.addSample 1 bufferIndex out.2 else b
  else buffer

/-- The method `GranularVoice::updateGrains` for the dereferenced source `src`: the
sample loop runs `numSamples` ticks, the first at buffer index `startSample`. -/
def updateGrains (src : AudioBuffer) :
    Nat → Nat → Voice X × AudioBuffer → Voice X × AudioBuffer
  | _, 0, s => s
  | startSample, numSamples + 1, s =>
    let t := updateGrainsSample src s.1
    updateGrains src (startSample + 1) numSamples (t.1, addToBuffer s.2 startSample t.2)

/-- The method `SynthesiserVoice::clearCurrentNote` of the base class. -/
def clearCurrentNote (v : Voice X) : Voice X :=
  { v with currentlyPlayingNote := -1 }

/-- The method `GranularVoice::renderNextBlock`. -/
def renderNextBlock (v : Voice X) (outputBuffer : AudioBuffer) (startSample numSamples : Nat) :
    Voice X × AudioBuffer :=
  match v.audioSource with
  | none => (v, outputBuffer)
  | some src =>
    if v.isActive = false ∨ src.numSamples = 0 then (v, outputBuffer)
    else
      let r := updateGrains src startSample numSamples (v, outputBuffer)
      if X.adsrIsActive r.1.envelope = false ∧ r.1.activeGrains.isEmpty = true then
        (clearCurrentNote { r.1 with isActive := false }, r.2)
      else r

/-- The method `GranularVoice::isVoiceActive` (GranularEngine.h). -/
def isVoiceActive (v : Voice X) : Bool := v.isActive

/-! ## The members a spawn never writes -/

/-- The members of a voice other than the two LFO phases, the scan phase and
direction, the tracked play position and the generator. -/
structure VoiceCore (X : Juce) where
  audioSource : Option AudioBuffer
  sourceSampleRate : ℚ
  currentSampleRate : ℚ
  parameters : GranularParams
  activeGrains : List Grain
  isActive : Bool
  velocity : ℚ
  midiNote : Int
  pitchBend : ℚ
  grainSpawnTimer : ℚ
  grainSpawnInterval : ℚ
  envelope : X.ADSR
  filterL : X.Filter
  filterR : X.Filter
  targetPlayPosition : ℚ
  jitterAccumulator : ℚ
  nextGrainTime : ℚ
  chorusDelayL : X.DelayLine
  chorusDelayR : X.DelayLine
  chorusLFOPhase : ℚ
  currentlyPlayingNote : Int

/-- The projection of a voice onto the members of `VoiceCore`. -/
def Voice.core (v : Voice X) : VoiceCore X :=
  { audioSource := v.audioSource
    sourceSampleRate := v.sourceSampleRate
    currentSampleRate := v.currentSampleRate
    parameters := v.parameters
    activeGrains := v.activeGrains
    isActive := v.isActive
    velocity := v.velocity
    midiNote := v.midiNote
    pitchBend := v.pitchBend
    grainSpawnTimer := v.grainSpawnTimer
    grainSpawnInterval := v.grainSpawnInterval
    envelope := v.envelope
    filterL := v.filterL
    filterR := v.filterR
    targetPlayPosition := v.targetPlayPosition
    jitterAccumulator := v.jitterAccumulator
    nextGrainTime := v.nextGrainTime
    chorusDelayL := v.chorusDelayL
    chorusDelayR := v.chorusDelayR
    chorusLFOPhase := v.chorusLFOPhase
    currentlyPlayingNote := v.currentlyPlayingNote }

/-! ## Operation sequences -/

/-- The operations a host performs on a voice; `tick` is one iteration of the sample
loop of `updateGrains`. -/
inductive Op where
  | startNote (midiNoteNumber : Int) (noteVelocity : ℚ) : Op
  | stopNote (allowTailOff : Bool) : Op
  | tick (src : AudioBuffer) : Op
  | render (outputBuffer : AudioBuffer) (startSample numSamples : Nat) : Op
  | setParameters (params : GranularParams) : Op
  | setAudioSource (source : Option AudioBuffer) (sourceRate : ℚ) : Op

/-- The voice after one operation. -/
def applyOp (v : Voice X) : Op → Voice X
  | Op.startNote n vel => startNote v n vel
  | Op.stopNote tail => stopNote v tail
  | Op.tick src => (updateGrainsSample src v).1
  | Op.render buf start num => (renderNextBlock v buf start num).1
  | Op.setParameters p => setParameters v p
  | Op.setAudioSource src rate => setAudioSource v src rate

/-- The voice after a sequence of operations, first operation first. -/
def runOps (v : Voice X) (ops : List Op) : Voice X := ops.foldl applyOp v

/-! ## Projections, runs and predicates of the statements -/

/-- The members of a voice that neither a spawn nor a render tick writes. -/
structure VoiceConfig where
  audioSource : Option AudioBuffer
  sourceSampleRate : ℚ
  currentSampleRate : ℚ
  parameters : GranularParams
  isActive : Bool
  velocity : ℚ
  midiNote : Int
  pitchBend : ℚ
  grainSpawnInterval : ℚ
  targetPlayPosition : ℚ
  jitterAccumulator : ℚ
  nextGrainTime : ℚ
  currentlyPlayingNote : Int

/-- The projection of a voice onto the members of `VoiceConfig`. -/
def Voice.config (v : Voice X) : VoiceConfig :=
  { audioSource := v.audioSource
    sourceSampleRate := v.sourceSampleRate
    currentSampleRate := v.currentSampleRate
    parameters := v.parameters
    isActive := v.isActive
    velocity := v.velocity
    midiNote := v.midiNote
    pitchBend := v.pitchBend
    grainSpawnInterval := v.grainSpawnInterval
    targetPlayPosition := v.targetPlayPosition
    jitterAccumulator := v.jitterAccumulator
    nextGrainTime := v.nextGrainTime
    currentlyPlayingNote := v.currentlyPlayingNote }

/-- The voice after `n` render ticks on the source `src`. -/
def ticks (src : AudioBuffer) : Nat → Voice X → Voice X
  | 0, v => v
  | n + 1, v => ticks src n (updateGrainsSample src v).1

/-- The grain invariant of the data model: a positive length and a remaining count
between 0 and the length. -/
def Grain.CountsOk (g : Grain) : Prop :=
  0 < g.totalSamples ∧ 0 ≤ g.samplesRemaining ∧ g.samplesRemaining ≤ g.totalSamples

/-- An operation installs no parameter snapshot with `grainSize` outside `[0, 1]`. -/
def Op.GrainSizeOk : Op → Prop
  | Op.setParameters p => 0 ≤ p.grainSize ∧ p.grainSize ≤ 1
  | _ => True

/-! ## A concrete instance of the external collaborators -/

/-- Taylor polynomial of the cosine, degree 12. -/
def cosPoly (x : ℚ) : ℚ :=
  1 - x ^ 2 / 2 + x ^ 4 / 24 - x ^ 6 / 720 + x ^ 8 / 40320 - x ^ 10 / 3628800
    + x ^ 12 / 479001600

/-- Taylor polynomial of the sine, degree 11. -/
def sinPoly (x : ℚ) : ℚ :=
  x - x ^ 3 / 6 + x ^ 5 / 120 - x ^ 7 / 5040 + x ^ 9 / 362880 - x ^ 11 / 39916800

/-- Taylor polynomial of the exponential, degree 6. -/
def expPoly (x : ℚ) : ℚ :=
  1 + x + x ^ 2 / 2 + x ^ 3 / 6 + x ^ 4 / 24 + x ^ 5 / 120 + x ^ 6 / 720

/-- Powers with a rational exponent: exact at integer exponents, linear in between. -/
def powLin (b e : ℚ) : ℚ := b ^ ⌊e⌋ * (1 + (b - 1) * (e - ⌊e⌋))

/-- The generator of `juce::Random::nextFloat`: the 48-bit linear congruential step of
`nextInt` and the division of its 32 high bits by 2^32. -/
def lcgNextFloat (seed : Nat) : ℚ × Nat :=
  let s := (seed * 0x5DEECE66D + 11) % 2 ^ 48
  (((s / 2 ^ 16 % 2 ^ 32 : Nat) : ℚ) / 2 ^ 32, s)

/-- A concrete instance: polynomial approximations of the math routines with
pi = 355/113, the generator of `juce::Random`, an ADSR with zero attack, decay and
release times and sustain 1 (a gate: `true` while the note is held), a filter that
passes its input through and a delay line that is silent. -/
def stdJuce : Juce where
  pi := 355 / 113
  sin := sinPoly
  cos := cosPoly
  exp := expPoly
  pow := powLin
  Random := Nat
  nextFloat := lcgNextFloat
  ADSR := Bool
  adsrSetSampleRate := fun e _ => e
  adsrSetParameters := fun e _ _ _ _ => e
  adsrNoteOn := fun _ => true
  adsrNoteOff := fun _ => false
  adsrReset := fun _ => false
  adsrIsActive := fun e => e
  adsrGetNextSample := fun e => (if e then 1 else 0, e)
  Filter := Unit
  filterPrepare := fun f _ _ => f
  filterSetLowPass := fun f _ _ _ => f
  filterProcessSample := fun f x => (x, f)
  DelayLine := Unit
  delayReset := fun d => d
  delaySetDelay := fun d _ => d
  delayPopSample := fun d => (0, d)
  delayPushSample := fun d _ => d

/-- A mono source of `n` samples, sample `i` having the value `i`. -/
def rampSource (n : Nat) : AudioBuffer :=
  { numChannels := 1, numSamples := n, getSample := fun _ i => (i : ℚ) }

/-- A freshly constructed voice (the member initialisers of the header) over `stdJuce`,
with the given source, render sample rate and parameters. -/
def freshVoice (source : Option AudioBuffer) (sampleRate : ℚ) (params : GranularParams) :
    Voice stdJuce :=
  { audioSource := source
    sourceSampleRate := 44100
    currentSampleRate := sampleRate
    parameters := params
    activeGrains := []
    isActive := false
    velocity := 1
    midiNote := 60
    pitchBend := 0
    grainSpawnTimer := 0
    grainSpawnInterval := 1 / 10
    envelope := false
    lfoPhase := 0
    lfo2Phase := 0
    filterL := ()
    filterR := ()
    scanPhase := 0
    scanDirection := 1
    currentPlayPosition := 0
    targetPlayPosition := 0
    jitterAccumulator := 0
    nextGrainTime := 0
    random := (1 : Nat)
    chorusDelayL := ()
    chorusDelayR := ()
    chorusLFOPhase := 0
    currentlyPlayingNote := -1 }

/-- An empty stereo output buffer of `n` samples. -/
def silentBuffer (n : Nat) : AudioBuffer :=
  { numChannels := 2, numSamples := n, getSample := fun _ _ => 0 }

/-- The grain vector after `k` runs of the grain loop of `updateGrains` with no spawn in
between. -/
def ageGrains (X : Juce) (src : AudioBuffer) : Nat → List Grain → List Grain
  | 0, grains => grains
  | k + 1, grains => ageGrains X src k (processGrains X src grains (0, 0)).1

/-- The position of a grain lies in `[0, n)`. -/
def Grain.InSource (n : Nat) (g : Grain) : Prop := 0 ≤ g.position ∧ g.position < (n : ℚ)

/-- A voice whose first grains play forward at unit speed from position 1/2 of a
two-sample source: 1 kHz source and render rates, grain size 10 ms (10 samples), no
spawning after the note-on, no spray. -/
def halfStepVoice : Voice stdJuce :=
  { freshVoice (some (rampSource 2)) 1000
      { grainSize := 0, density := 0, texture := 0, spray := 0 } with
    sourceSampleRate := 1000 }

/-- The grain size in milliseconds that `spawnGrain` converts to `totalSamples` (the
lines from `jmap (parameters.grainSize, 10, 2000)` to the jitter clamp): the LFO value is
that of `generateLFO (0)` and the jitter draw is taken after the two LFO calls and the
scan update. -/
def spawnGrainSizeMs (v : Voice X) : ℚ :=
  let p := v.parameters
  let lfoValue := (generateLFO v 0).1
  let vScan := updateScanPosition (generateLFO (generateLFO v 0).2 1).2
  let size0 := jmap p.grainSize 10 2000
  let size1 :=
    if p.lfoTarget = 2 ∧ p.lfoAmount > 1 / 100 then
      jlimit 10 2000 (size0 * (1 + lfoValue * p.lfoAmount * (1 / 2)))
    else size0
  if p.jitter > 1 / 100 then
    jlimit 10 2000 (size1 * (1 + ((nextFloat vScan).1 * 2 - 1) * p.jitter * (3 / 10)))
  else size1

/-- The grain loop skipped the grain (envelope below the threshold). -/
def GrainStep.isSkipped : GrainStep → Bool
  | GrainStep.skipped _ => true
  | _ => false

/-- The enveloped left sample of a grain that the grain loop read. -/
def GrainStep.playedL : GrainStep → Option ℚ
  | GrainStep.played _ sampleL _ => some sampleL
  | _ => none

/-- A voice with the Square grain shape: 1 kHz source and render rates, grain size
10 ms (10 samples), no spawning after the note-on, no spray, a 100-sample source. -/
def squareVoice : Voice stdJuce :=
  { freshVoice (some (rampSource 100)) 1000
      { grainSize := 0, density := 0, texture := 0, spray := 0, grainShape := 2 } with
    sourceSampleRate := 1000 }

/-- The pair `(outputL, outputR)` that render tick `k` (counted from 0) of a voice adds to
the output buffer. -/
def voiceOutput (src : AudioBuffer) (v : Voice X) (k : Nat) : ℚ × ℚ :=
  (updateGrainsSample src (ticks src k v)).2

/-- What a block of `numSamples` ticks from `startSample` adds to sample `i` of channel
`channel` of a buffer with `numChannels` channels and `bufferSize` samples. -/
def blockContribution (src : AudioBuffer) (v : Voice X) (numChannels bufferSize : Nat)
    (startSample numSamples channel i : Nat) : ℚ :=
  if startSample ≤ i ∧ i < startSample + numSamples ∧ i < bufferSize then
    if channel = 0 then (voiceOutput src v (i - startSample)).1
    else if channel = 1 ∧ numChannels > 1 then (voiceOutput src v (i - startSample)).2
    else 0
  else 0

/-- The voice with the live `position` parameter of its snapshot replaced. -/
def Voice.withPosition (a : ℚ) (v : Voice X) : Voice X :=
  { v with parameters := { v.parameters with position := a } }

/-- One iteration of the sample loop of `updateGrains` up to the write into the buffer,
for the value `spawnIncrement` that `updateGrains` computes before the loop. -/
def updateGrainsSampleWith (src : AudioBuffer) (spawnIncrement : ℚ) (v : Voice X) :
    Voice X × (ℚ × ℚ) :=
  let v1 := spawnStep spawnIncrement v
  let pg := processGrains X src v1.activeGrains (0, 0)
  let env := X.adsrGetNextSample v1.envelope
  let outputL := pg.2.1 * (env.1 * v1.velocity * (3 / 10))
  let outputR := pg.2.2 * (env.1 * v1.velocity * (3 / 10))
  let f := processFilter { v1 with activeGrains := pg.1, envelope := env.2 } outputL outputR
  let c := processChorus f.2 f.1.1 f.1.2
  (c.2, c.1)

/-- The sample loop of `updateGrains` for the constant `spawnIncrement`. -/
def updateGrainsLoop (src : AudioBuffer) (spawnIncrement : ℚ) :
    Nat → Nat → Voice X × AudioBuffer → Voice X × AudioBuffer
  | _, 0, s => s
  | startSample, numSamples + 1, s =>
    let t := updateGrainsSampleWith src spawnIncrement s.1
    updateGrainsLoop src spawnIncrement (startSample + 1) numSamples
      (t.1, addToBuffer s.2 startSample t.2)

/-- The method `GranularVoice::updateGrains` as written: `spawnIncrement` is computed
once from the density and the sample rate at entry, then the sample loop runs. -/
def updateGrainsOnce (src : AudioBuffer) (startSample numSamples : Nat)
    (s : Voice X × AudioBuffer) : Voice X × AudioBuffer :=
  updateGrainsLoop src (s.1.parameters.density * 50 / s.1.currentSampleRate)
    startSample numSamples s

/-- Every draw of `Random::nextFloat` lies in `[0, 1)`. -/
def Juce.DrawsInUnit (X : Juce) : Prop :=
  ∀ r : X.Random, 0 ≤ (X.nextFloat r).1 ∧ (X.nextFloat r).1 < 1

/-- The routine `std::pow` with base 2 is monotone in its exponent. -/
def Juce.PowTwoMonotone (X : Juce) : Prop :=
  ∀ x y : ℚ, x ≤ y → X.pow 2 x ≤ X.pow 2 y

/-- The grain `g` is what iteration `i` of the unison loop of `spawnGrain` builds from
the main grain `main`, for `n` unison voices, a source of `numSamples` samples and the
generator state `r`. -/
def Grain.IsUnisonCopy (X : Juce) (numSamples : Nat) (stereoWidth : ℚ) (n : Int)
    (main g : Grain) (i : Int) (r : X.Random) : Prop :=
  g = { main with
    increment := main.increment *
      X.pow 2 (((i : ℚ) / ((n - 1 : Int) : ℚ) - 1 / 2) * (1 / 10) / 12)
    panL := jlimit 0 1 (1 / 2 - ((i : ℚ) / ((n - 1 : Int) : ℚ) - 1 / 2) * stereoWidth * (1 / 2))
    panR := jlimit 0 1 (1 / 2 + ((i : ℚ) / ((n - 1 : Int) : ℚ) - 1 / 2) * stereoWidth * (1 / 2))
    position := jlimit 0 (floatOfInt ((numSamples : Int) - 1))
      (main.position + ((X.nextFloat r).1 * 2 - 1) * (1 / 100) * floatOfInt (numSamples : Int)) }

/-- The voice with the `glide` parameter of its snapshot replaced. -/
def Voice.withGlide (a : ℚ) (v : Voice X) : Voice X :=
  { v with parameters := { v.parameters with glide := a } }

/-- The target that the glide of `calculateGrainPosition` approaches: the live
`position`, blended with the held target when `freeze` is above 0.01. -/
def glideTarget (v : Voice X) : ℚ :=
  if v.parameters.freeze > 1 / 100 then
    jmap v.parameters.freeze v.parameters.position v.targetPlayPosition
  else v.parameters.position

/-- The phase increment that one call of `generateLFO` adds for the normalized rate
`rate` at the sample rate `sampleRate`: `2 * pi * lfoRateHz / sampleRate` with
`lfoRateHz = jmap (rate, 0.1, 20)`. -/
def lfoPhaseIncrement (X : Juce) (rate sampleRate : ℚ) : ℚ :=
  2 * X.pi * jmap rate (1 / 10) 20 / sampleRate

/-- The position, increment and length of a grain. -/
def Grain.summary (g : Grain) : ℚ × ℚ × Int := (g.position, g.increment, g.totalSamples)

/-- A fresh voice at 44.1 kHz with grain size 1/2, no spray, and LFO 1 at full amount
with the Square shape (value 1 at phase 0) on the given target. -/
def lfo1Voice (target : ℚ) : Voice stdJuce :=
  freshVoice (some (rampSource 100)) 44100
    { grainSize := 1 / 2, texture := 0, spray := 0,
      lfoTarget := target, lfoAmount := 1, lfoShape := 2 }

/-- The same voice with LFO 1 off and LFO 2 at full amount with the Square shape on the
given target. -/
def lfo2Voice (target : ℚ) : Voice stdJuce :=
  freshVoice (some (rampSource 100)) 44100
    { grainSize := 1 / 2, texture := 0, spray := 0,
      lfo2Target := target, lfo2Amount := 1, lfo2Shape := 2 }

/-- A sounding voice at 44.1 kHz with the default density 1/2 (25 spawns per second). -/
def soundingVoice : Voice stdJuce :=
  startNote (freshVoice (some (rampSource 100)) 44100 { grainSize := 1 / 2 }) 60 1

/-- A voice in PingPong loop mode with scan 1 at 44.1 kHz, one scan step (1/88200) below
the upper bound of the scan phase. -/
def pingPongVoice : Voice stdJuce :=
  { freshVoice (some (rampSource 100)) 44100 { scan := 1, loopMode := 2 } with
    scanPhase := 88199 / 88200 }

/-- The member assignments of `GranularVoice::startNote` before its two `spawnGrain`
calls. -/
def startNoteReset (v : Voice X) (midiNoteNumber : Int) (noteVelocity : ℚ) : Voice X :=
  { v with
    midiNote := midiNoteNumber
    velocity := noteVelocity
    isActive := true
    envelope := X.adsrNoteOn v.envelope
    activeGrains := []
    grainSpawnTimer := 0 }

/-- Whether a call of `spawnGrain` on `v` executes the eviction
`if (activeGrains.size() > 20) activeGrains.erase (activeGrains.begin())`: the call gets
past the early return and the vector holds more than 20 grains after the appends. -/
def evictionTaken (v : Voice X) : Bool :=
  match v.audioSource with
  | none => false
  | some src =>
    decide (src.numSamples ≠ 0 ∧ (spawnAppend src v (spawnMainGrain src v)).1.length > 20)

/-- The voice as the timer loop of `updateGrains` first sees it on a tick: the timer
advanced by `spawnIncrement`. -/
def Voice.advanceTimer (spawnIncrement : ℚ) (v : Voice X) : Voice X :=
  { v with grainSpawnTimer := v.grainSpawnTimer + spawnIncrement }

/-- One iteration of the timer loop of `updateGrains`: `spawnGrain(); grainSpawnTimer -= 1.0f;`. -/
def spawnOnce (v : Voice X) : Voice X :=
  { spawnGrain v with grainSpawnTimer := (spawnGrain v).grainSpawnTimer - 1 }

/-- A sounding voice with 16 unison voices at 44.1 kHz and the default density 1/2. -/
def wideUnisonVoice : Voice stdJuce :=
  startNote (freshVoice (some (rampSource 100)) 44100 { unisonVoices := 16 }) 60 1

/-- A sounding voice with 2 unison voices, density 1 and a render rate of 50 Hz: the
spawn timer gains 1 on every tick. -/
def fastSpawnVoice : Voice stdJuce :=
  startNote (freshVoice (some (rampSource 100)) 50 { density := 1, unisonVoices := 2 }) 60 1

/-- The members of a voice that the spawn block and the grain loop of `updateGrains`
never read: the ADSR envelope, the two filters and the two chorus delay lines. -/
structure Effects (X : Juce) where
  envelope : X.ADSR
  filterL : X.Filter
  filterR : X.Filter
  chorusDelayL : X.DelayLine
  chorusDelayR : X.DelayLine

/-- The voice with its envelope, filters and chorus delay lines replaced. -/
def Voice.withEffects (x : Effects X) (v : Voice X) : Voice X :=
  { v with
    envelope := x.envelope
    filterL := x.filterL
    filterR := x.filterR
    chorusDelayL := x.chorusDelayL
    chorusDelayR := x.chorusDelayR }

/-- The envelope, filters and chorus delay lines of a voice. -/
def Voice.effects (v : Voice X) : Effects X :=
  { envelope := v.envelope
    filterL := v.filterL
    filterR := v.filterR
    chorusDelayL := v.chorusDelayL
    chorusDelayR := v.chorusDelayR }

/-- The sounding voice `fastSpawnVoice` (density 1 at 50 Hz, 2 unison voices) with an
envelope that has finished: the active flag is still set. -/
def finishedEnvelopeVoice : Voice stdJuce :=
  { fastSpawnVoice with envelope := false }

/-- A fresh voice at 44.1 kHz on a 101-sample source with freeze 1, a held target of 1/4
(sample 25), and glide, scan, spray, texture and LFO amount 0, for the given number of
unison voices and loop mode. -/
def frozenVoice (unisonVoices loopMode : ℚ) : Voice stdJuce :=
  { freshVoice (some (rampSource 101)) 44100
      { freeze := 1, texture := 0, spray := 0, position := 0,
        unisonVoices := unisonVoices, loopMode := loopMode } with
    targetPlayPosition := 1 / 4 }

/-- A fresh voice at 1 kHz on a source of 16777220 = 2^24 + 4 samples, with live position
1 (the end of the source), grains of 10 ms (10 samples), no spawning after the note-on
and no spray, for the given number of unison voices. Here `(float) (N - 1)` rounds to
`N`. -/
def longSourceVoice (unisonVoices : ℚ) : Voice stdJuce :=
  freshVoice (some (rampSource 16777220)) 1000
    { position := 1, grainSize := 0, density := 0, texture := 0, spray := 0,
      unisonVoices := unisonVoices }

/-! ## Frame lemmas: what the helpers of `spawnGrain` leave alone -/

theorem getLFOShape_core (v : Voice X) (phase : ℚ) (shapeType : Int) :
    (getLFOShape v phase shapeType).2.core = v.core := by
  unfold getLFOShape
  split_ifs <;> rfl

theorem generateLFO_core (v : Voice X) (lfoIndex : Int) :
    (generateLFO v lfoIndex).2.core = v.core := by
  have h := getLFOShape_core v (if lfoIndex = 0 then v.lfoPhase else v.lfo2Phase)
    (toInt (if lfoIndex = 0 then v.parameters.lfoShape else v.parameters.lfo2Shape))
  unfold generateLFO
  by_cases hi : lfoIndex = 0
  · simp only [hi, if_true] at h ⊢
    exact h
  · simp only [hi, if_false] at h ⊢
    exact h

theorem updateScanPosition_core (v : Voice X) : (updateScanPosition v).core = v.core := by
  unfold updateScanPosition
  dsimp only
  split_ifs <;> rfl

theorem nextFloat_core (v : Voice X) : (nextFloat v).2.core = v.core := rfl

theorem drawIf_core (c : Prop) [Decidable c] (v : Voice X) :
    (if c then nextFloat v else ((0 : ℚ), v)).2.core = v.core := by
  split_ifs <;> rfl

theorem calculateGrainPosition_core (v : Voice X) :
    (calculateGrainPosition v).2.core = v.core := by
  unfold calculateGrainPosition
  dsimp only
  split_ifs <;> rfl

theorem spawnMainGrain_core (src : AudioBuffer) (v : Voice X) :
    (spawnMainGrain src v).2.core = v.core := by
  unfold spawnMainGrain
  simp only [nextFloat_core, drawIf_core, calculateGrainPosition_core,
    updateScanPosition_core, generateLFO_core]

/-! ## Grain counts -/

theorem unisonLoop_length_le (numSamples : Nat) (stereoWidth : ℚ) (newGrain : Grain)
    (numUnisonVoices : Int) (fuel : Nat) (i : Int) (s : List Grain × X.Random)
    (h : s.1.length ≤ 16) :
    (unisonLoop X numSamples stereoWidth newGrain numUnisonVoices fuel i s).1.length ≤ 16 := by
  induction fuel generalizing i s with
  | zero => simpa [unisonLoop] using h
  | succ n ih =>
    unfold unisonLoop
    split_ifs with hc
    · apply ih
      simp only [List.length_append, List.length_singleton]
      omega
    · exact h

theorem unisonLoop_length_ge (numSamples : Nat) (stereoWidth : ℚ) (newGrain : Grain)
    (numUnisonVoices : Int) (fuel : Nat) (i : Int) (s : List Grain × X.Random) :
    s.1.length ≤
      (unisonLoop X numSamples stereoWidth newGrain numUnisonVoices fuel i s).1.length := by
  induction fuel generalizing i s with
  | zero => simp [unisonLoop]
  | succ n ih =>
    unfold unisonLoop
    split_ifs with hc
    · refine le_trans ?_ (ih _ _)
      simp
    · exact le_refl _

theorem spawnGrain_eq (v : Voice X) (src : AudioBuffer) (hsrc : v.audioSource = some src)
    (hn : src.numSamples ≠ 0) :
    spawnGrain v =
      { (spawnMainGrain src v).2 with
        activeGrains :=
          if (spawnAppend src v (spawnMainGrain src v)).1.length > 20 then
            (spawnAppend src v (spawnMainGrain src v)).1.tail
          else (spawnAppend src v (spawnMainGrain src v)).1
        random := (spawnAppend src v (spawnMainGrain src v)).2 } := by
  unfold spawnGrain
  rw [hsrc]
  simp only [hn, if_false]

theorem spawnGrain_of_none (v : Voice X) (h : v.audioSource = none) : spawnGrain v = v := by
  unfold spawnGrain
  rw [h]

theorem spawnGrain_of_empty (v : Voice X) (src : AudioBuffer) (h : v.audioSource = some src)
    (hn : src.numSamples = 0) : spawnGrain v = v := by
  unfold spawnGrain
  rw [h]
  simp only [hn, if_true]

theorem spawnAppend_length_le (src : AudioBuffer) (v : Voice X) (m : Grain × Voice X) :
    (spawnAppend src v m).1.length ≤ max (v.activeGrains.length + 1) 16 := by
  unfold spawnAppend
  dsimp only
  split_ifs with hc
  · refine le_trans (unisonLoop_length_le _ _ _ _ _ _ _ ?_) (le_max_right _ _)
    exact le_trans (le_of_lt hc.2) (by decide)
  · simp

theorem spawnAppend_length_ge (src : AudioBuffer) (v : Voice X) (m : Grain × Voice X) :
    v.activeGrains.length + 1 ≤ (spawnAppend src v m).1.length := by
  unfold spawnAppend
  dsimp only
  split_ifs with hc
  · refine le_trans ?_ (unisonLoop_length_ge _ _ _ _ _ _ _)
    simp
  · simp

theorem spawnGrain_length_le (v : Voice X) (h : v.activeGrains.length ≤ 20) :
    (spawnGrain v).activeGrains.length ≤ 20 := by
  cases hsrc : v.audioSource with
  | none => rw [spawnGrain_of_none v hsrc]; exact h
  | some src =>
    by_cases hn : src.numSamples = 0
    · rw [spawnGrain_of_empty v src hsrc hn]; exact h
    · rw [spawnGrain_eq v src hsrc hn]
      have hle := spawnAppend_length_le src v (spawnMainGrain src v)
      dsimp only
      split_ifs with h20
      · rw [List.length_tail]
        have : max (v.activeGrains.length + 1) 16 ≤ 21 := max_le (by omega) (by omega)
        omega
      · omega

/-! ## What a spawn and a tick leave alone -/

theorem spawnGrain_config (v : Voice X) : (spawnGrain v).config = v.config := by
  cases hsrc : v.audioSource with
  | none => rw [spawnGrain_of_none v hsrc]
  | some src =>
    by_cases hn : src.numSamples = 0
    · rw [spawnGrain_of_empty v src hsrc hn]
    · rw [spawnGrain_eq v src hsrc hn]
      have h := spawnMainGrain_core src v
      have h1 := congrArg VoiceCore.audioSource h
      have h2 := congrArg VoiceCore.sourceSampleRate h
      have h3 := congrArg VoiceCore.currentSampleRate h
      have h4 := congrArg VoiceCore.parameters h
      have h5 := congrArg VoiceCore.isActive h
      have h6 := congrArg VoiceCore.velocity h
      have h7 := congrArg VoiceCore.midiNote h
      have h8 := congrArg VoiceCore.pitchBend h
      have h9 := congrArg VoiceCore.grainSpawnInterval h
      have h10 := congrArg VoiceCore.targetPlayPosition h
      have h11 := congrArg VoiceCore.jitterAccumulator h
      have h12 := congrArg VoiceCore.nextGrainTime h
      have h13 := congrArg VoiceCore.currentlyPlayingNote h
      simp only [Voice.core] at h1 h2 h3 h4 h5 h6 h7 h8 h9 h10 h11 h12 h13
      simp only [Voice.config, h1, h2, h3, h4, h5, h6, h7, h8, h9, h10, h11, h12, h13]

theorem spawnGrain_grainSpawnTimer (v : Voice X) :
    (spawnGrain v).grainSpawnTimer = v.grainSpawnTimer := by
  cases hsrc : v.audioSource with
  | none => rw [spawnGrain_of_none v hsrc]
  | some src =>
    by_cases hn : src.numSamples = 0
    · rw [spawnGrain_of_empty v src hsrc hn]
    · rw [spawnGrain_eq v src hsrc hn]
      exact congrArg VoiceCore.grainSpawnTimer (spawnMainGrain_core src v)

theorem spawnGrain_envelope (v : Voice X) : (spawnGrain v).envelope = v.envelope := by
  cases hsrc : v.audioSource with
  | none => rw [spawnGrain_of_none v hsrc]
  | some src =>
    by_cases hn : src.numSamples = 0
    · rw [spawnGrain_of_empty v src hsrc hn]
    · rw [spawnGrain_eq v src hsrc hn]
      exact congrArg VoiceCore.envelope (spawnMainGrain_core src v)

theorem spawnLoop_config (fuel : Nat) (v : Voice X) : (spawnLoop fuel v).config = v.config := by
  induction fuel generalizing v with
  | zero => rfl
  | succ n ih =>
    unfold spawnLoop
    split_ifs with hc
    · rw [ih]
      exact spawnGrain_config v
    · rfl

theorem spawnStep_config (spawnIncrement : ℚ) (v : Voice X) :
    (spawnStep spawnIncrement v).config = v.config := by
  unfold spawnStep
  split_ifs with hc
  · rw [spawnLoop_config]
    rfl
  · rfl

theorem processFilter_config (v : Voice X) (l r : ℚ) : (processFilter v l r).2.config = v.config := by
  unfold processFilter
  split_ifs <;> rfl

theorem processChorus_config (v : Voice X) (l r : ℚ) : (processChorus v l r).2.config = v.config := by
  unfold processChorus
  split_ifs <;> rfl

theorem updateGrainsSample_config (src : AudioBuffer) (v : Voice X) :
    (updateGrainsSample src v).1.config = v.config := by
  unfold updateGrainsSample
  dsimp only
  rw [processChorus_config, processFilter_config, ← spawnStep_config
    (v.parameters.density * 50 / v.currentSampleRate) v]
  rfl

theorem updateGrains_config (src : AudioBuffer) (numSamples startSample : Nat)
    (s : Voice X × AudioBuffer) :
    (updateGrains src startSample numSamples s).1.config = s.1.config := by
  induction numSamples generalizing startSample s with
  | zero => rfl
  | succ n ih =>
    unfold updateGrains
    rw [ih]
    exact updateGrainsSample_config src s.1

/-! ## The loops run to completion within their budgets -/

theorem spawnLoop_exit (fuel : Nat) (v : Voice X) (h : ⌊v.grainSpawnTimer⌋.toNat ≤ fuel) :
    ¬ (1 ≤ (spawnLoop fuel v).grainSpawnTimer ∧ (spawnLoop fuel v).isActive = true) := by
  induction fuel generalizing v with
  | zero =>
    intro hc
    have h1 : (1 : Int) ≤ ⌊v.grainSpawnTimer⌋ := Int.le_floor.mpr (by exact_mod_cast hc.1)
    have h2 : ⌊v.grainSpawnTimer⌋.toNat = 0 := Nat.le_zero.mp h
    omega
  | succ n ih =>
    unfold spawnLoop
    split_ifs with hc
    · apply ih
      have h1 : ⌊v.grainSpawnTimer - 1⌋ = ⌊v.grainSpawnTimer⌋ - 1 := Int.floor_sub_one _
      simp only [spawnGrain_grainSpawnTimer, h1]
      omega
    · exact hc

theorem spawnStep_exit (spawnIncrement : ℚ) (v : Voice X) (h : v.activeGrains.length < 16) :
    ¬ (1 ≤ (spawnStep spawnIncrement v).grainSpawnTimer ∧
        (spawnStep spawnIncrement v).isActive = true) := by
  unfold spawnStep
  rw [if_pos h]
  exact spawnLoop_exit _ _ (le_refl _)

theorem unisonLoop_exit (numSamples : Nat) (stereoWidth : ℚ) (newGrain : Grain)
    (numUnisonVoices : Int) (fuel : Nat) (i : Int) (s : List Grain × X.Random)
    (h : 16 ≤ s.1.length + fuel) :
    16 ≤ (unisonLoop X numSamples stereoWidth newGrain numUnisonVoices fuel i s).1.length ∨
      ∃ j : Int, numUnisonVoices ≤ j ∧
        (unisonLoop X numSamples stereoWidth newGrain numUnisonVoices fuel i s).1.length + i =
          s.1.length + j := by
  induction fuel generalizing i s with
  | zero => left; simpa [unisonLoop] using h
  | succ n ih =>
    unfold unisonLoop
    split_ifs with hc
    · have key : ∀ (g : Grain) (r : X.Random), _ := fun g r =>
        ih (i + 1) (s.1 ++ [g], r)
          (by simp only [List.length_append, List.length_singleton]; omega)
      refine Or.elim (key _ _) (fun hh => Or.inl hh) (fun ⟨j, hj, hh⟩ => Or.inr ⟨j, hj, ?_⟩)
      simp only [List.length_append, List.length_singleton] at hh
      push_cast at hh ⊢
      omega
    · by_cases h16 : s.1.length < 16
      · right
        exact ⟨i, by
          by_contra hlt
          exact hc ⟨lt_of_not_le hlt, h16⟩, rfl⟩
      · left; omega

theorem spawnLoop_length_le (fuel : Nat) (v : Voice X) (h : v.activeGrains.length ≤ 20) :
    (spawnLoop fuel v).activeGrains.length ≤ 20 := by
  induction fuel generalizing v with
  | zero => exact h
  | succ n ih =>
    unfold spawnLoop
    split_ifs with hc
    · exact ih _ (spawnGrain_length_le v h)
    · exact h

theorem spawnStep_length_le (spawnIncrement : ℚ) (v : Voice X)
    (h : v.activeGrains.length ≤ 20) :
    (spawnStep spawnIncrement v).activeGrains.length ≤ 20 := by
  unfold spawnStep
  split_ifs with hc
  · exact spawnLoop_length_le _ _ h
  · exact h

theorem processGrains_length_le (src : AudioBuffer) (grains : List Grain) (out : ℚ × ℚ) :
    (processGrains X src grains out).1.length ≤ grains.length := by
  induction grains with
  | nil => simp [processGrains]
  | cons g rest ih =>
    unfold processGrains
    dsimp only
    split
    · exact le_trans ih (Nat.le_succ _)
    · simpa using ih
    · simpa using ih

theorem processFilter_activeGrains (v : Voice X) (l r : ℚ) :
    (processFilter v l r).2.activeGrains = v.activeGrains := by
  unfold processFilter
  split_ifs <;> rfl

theorem processChorus_activeGrains (v : Voice X) (l r : ℚ) :
    (processChorus v l r).2.activeGrains = v.activeGrains := by
  unfold processChorus
  split_ifs <;> rfl

theorem updateGrainsSample_activeGrains (src : AudioBuffer) (v : Voice X) :
    (updateGrainsSample src v).1.activeGrains =
      (processGrains X src
        (spawnStep (v.parameters.density * 50 / v.currentSampleRate) v).activeGrains (0, 0)).1 := by
  unfold updateGrainsSample
  dsimp only
  rw [processChorus_activeGrains, processFilter_activeGrains]

theorem updateGrainsSample_length_le (src : AudioBuffer) (v : Voice X)
    (h : v.activeGrains.length ≤ 20) :
    (updateGrainsSample src v).1.activeGrains.length ≤ 20 := by
  rw [updateGrainsSample_activeGrains]
  exact le_trans (processGrains_length_le _ _ _) (spawnStep_length_le _ _ h)

theorem updateGrains_length_le (src : AudioBuffer) (numSamples startSample : Nat)
    (s : Voice X × AudioBuffer) (h : s.1.activeGrains.length ≤ 20) :
    (updateGrains src startSample numSamples s).1.activeGrains.length ≤ 20 := by
  induction numSamples generalizing startSample s with
  | zero => simpa [updateGrains] using h
  | succ n ih =>
    unfold updateGrains
    exact ih _ _ (updateGrainsSample_length_le src s.1 h)

theorem renderNextBlock_length_le (v : Voice X) (buf : AudioBuffer) (startSample numSamples : Nat)
    (h : v.activeGrains.length ≤ 20) :
    (renderNextBlock v buf startSample numSamples).1.activeGrains.length ≤ 20 := by
  unfold renderNextBlock
  split
  · exact h
  · dsimp only
    split_ifs with h1 h2
    · exact h
    · exact updateGrains_length_le _ _ _ _ h
    · exact updateGrains_length_le _ _ _ _ h

theorem startNote_length_le (v : Voice X) (midiNoteNumber : Int) (noteVelocity : ℚ) :
    (startNote v midiNoteNumber noteVelocity).activeGrains.length ≤ 20 := by
  unfold startNote
  apply spawnGrain_length_le
  apply spawnGrain_length_le
  simp

theorem stopNote_length_le (v : Voice X) (allowTailOff : Bool)
    (h : v.activeGrains.length ≤ 20) : (stopNote v allowTailOff).activeGrains.length ≤ 20 := by
  unfold stopNote
  split_ifs
  · exact h
  · simp

theorem applyOp_length_le (v : Voice X) (op : Op) (h : v.activeGrains.length ≤ 20) :
    (applyOp v op).activeGrains.length ≤ 20 := by
  cases op with
  | startNote n vel => exact startNote_length_le v n vel
  | stopNote tail => exact stopNote_length_le v tail h
  | tick src => exact updateGrainsSample_length_le src v h
  | render buf start num => exact renderNextBlock_length_le v buf start num h
  | setParameters p => exact h
  | setAudioSource src rate => exact h

theorem runOps_length_le (ops : List Op) (v : Voice X) (h : v.activeGrains.length ≤ 20) :
    (runOps v ops).activeGrains.length ≤ 20 := by
  induction ops generalizing v with
  | nil => exact h
  | cons op rest ih => exact ih _ (applyOp_length_le v op h)

/-- C1: for every parameter snapshot, source and collaborators, a voice that holds at
most 20 grains holds at most 20 grains after every prefix of every sequence of
note-on, note-off, render tick, block render, parameter and source updates; a note-on
gives at most 20 grains from any state. -/
theorem C1_active_grains_at_most_20 (v : Voice X) (ops : List Op)
    (h : v.activeGrains.length ≤ 20) :
    (∀ k : Nat, (runOps v (ops.take k)).activeGrains.length ≤ 20) ∧
      ∀ (w : Voice X) (n : Int) (vel : ℚ), (startNote w n vel).activeGrains.length ≤ 20 :=
  ⟨fun k => runOps_length_le (ops.take k) v h, fun w n vel => startNote_length_le w n vel⟩

/-- C1 at a fresh voice with density 40 and 8 unison voices: note-on, 3 ticks, note-off. -/
theorem C1_active_grains_at_most_20_witness :
    (freshVoice (some (rampSource 100)) 44100
        { density := 40, unisonVoices := 8 }).activeGrains.length ≤ 20 ∧
      ((∀ k : Nat, (runOps (freshVoice (some (rampSource 100)) 44100
          { density := 40, unisonVoices := 8 })
        ([Op.startNote 60 1, Op.tick (rampSource 100), Op.tick (rampSource 100),
          Op.tick (rampSource 100), Op.stopNote true].take k)).activeGrains.length ≤ 20) ∧
        ∀ (w : Voice stdJuce) (n : Int) (vel : ℚ), (startNote w n vel).activeGrains.length ≤ 20) :=
  ⟨by decide, C1_active_grains_at_most_20 _ _ (by decide)⟩

/-! ## Arithmetic helpers -/

theorem jlimit_mem (lo hi x : ℚ) (h : lo ≤ hi) : lo ≤ jlimit lo hi x ∧ jlimit lo hi x ≤ hi := by
  unfold jlimit
  split_ifs with h1 h2
  · exact ⟨le_refl _, h⟩
  · exact ⟨h, le_refl _⟩
  · exact ⟨not_lt.mp h1, not_lt.mp h2⟩

theorem toInt_of_nonneg (x : ℚ) (h : 0 ≤ x) : toInt x = ⌊x⌋ := by
  unfold toInt
  rw [if_pos h]

theorem one_le_toInt (x : ℚ) (h : 1 ≤ x) : 1 ≤ toInt x := by
  rw [toInt_of_nonneg x (le_trans zero_le_one h)]
  exact Int.le_floor.mpr (by exact_mod_cast h)

/-! ## What a spawn builds -/

theorem spawnMainGrain_samplesRemaining (src : AudioBuffer) (v : Voice X) :
    (spawnMainGrain src v).1.samplesRemaining = (spawnMainGrain src v).1.totalSamples := rfl

/-- The length of a new grain is the truncation of a size in `[10, 2000]` ms times the
sample rate when `grainSize` is in `[0, 1]`. -/
theorem spawnMainGrain_totalSamples (src : AudioBuffer) (v : Voice X)
    (h0 : 0 ≤ v.parameters.grainSize) (h1 : v.parameters.grainSize ≤ 1) :
    ∃ grainSizeMs : ℚ, 10 ≤ grainSizeMs ∧ grainSizeMs ≤ 2000 ∧
      (spawnMainGrain src v).1.totalSamples = toInt (grainSizeMs * v.currentSampleRate / 1000) := by
  have hs : 10 ≤ jmap v.parameters.grainSize 10 2000 ∧ jmap v.parameters.grainSize 10 2000 ≤ 2000 := by
    unfold jmap
    constructor <;> nlinarith
  unfold spawnMainGrain
  dsimp only
  refine ⟨_, ?_, ?_, rfl⟩
  · split_ifs
    · exact (jlimit_mem _ _ _ (by norm_num)).1
    · exact (jlimit_mem _ _ _ (by norm_num)).1
    · exact (jlimit_mem _ _ _ (by norm_num)).1
    · exact hs.1
  · split_ifs
    · exact (jlimit_mem _ _ _ (by norm_num)).2
    · exact (jlimit_mem _ _ _ (by norm_num)).2
    · exact (jlimit_mem _ _ _ (by norm_num)).2
    · exact hs.2

theorem spawnMainGrain_countsOk (src : AudioBuffer) (v : Voice X)
    (h0 : 0 ≤ v.parameters.grainSize) (h1 : v.parameters.grainSize ≤ 1)
    (hr : 100 ≤ v.currentSampleRate) : (spawnMainGrain src v).1.CountsOk := by
  obtain ⟨ms, hlo, _, ht⟩ := spawnMainGrain_totalSamples src v h0 h1
  have hpos : 1 ≤ (spawnMainGrain src v).1.totalSamples := by
    rw [ht]
    apply one_le_toInt
    rw [le_div_iff₀ (by norm_num)]
    nlinarith
  refine ⟨by omega, ?_, ?_⟩
  · rw [spawnMainGrain_samplesRemaining]; omega
  · rw [spawnMainGrain_samplesRemaining]

/-- Every grain in the vector after the unison loop was there before or is a copy of
the main grain with a new increment, new pan gains and a position clamped to the source. -/
theorem unisonLoop_forall (P : Grain → Prop) (numSamples : Nat) (stereoWidth : ℚ)
    (newGrain : Grain) (numUnisonVoices : Int)
    (hnew : ∀ inc pl pr x : ℚ, P { newGrain with
      increment := inc, panL := pl, panR := pr,
      position := jlimit 0 (floatOfInt ((numSamples : Int) - 1)) x })
    (fuel : Nat) (i : Int) (s : List Grain × X.Random) (hs : ∀ g ∈ s.1, P g) :
    ∀ g ∈ (unisonLoop X numSamples stereoWidth newGrain numUnisonVoices fuel i s).1, P g := by
  induction fuel generalizing i s with
  | zero => simpa [unisonLoop] using hs
  | succ n ih =>
    unfold unisonLoop
    split_ifs with hc
    · apply ih
      intro g hg
      rcases List.mem_append.mp hg with hg | hg
      · exact hs g hg
      · rw [List.mem_singleton.mp hg]
        exact hnew _ _ _ _
    · exact hs

theorem spawnAppend_forall (P : Grain → Prop) (src : AudioBuffer) (v : Voice X)
    (m : Grain × Voice X) (hold : ∀ g ∈ v.activeGrains, P g) (hmain : P m.1)
    (hnew : ∀ inc pl pr x : ℚ, P { m.1 with
      increment := inc, panL := pl, panR := pr,
      position := jlimit 0 (floatOfInt ((src.numSamples : Int) - 1)) x }) :
    ∀ g ∈ (spawnAppend src v m).1, P g := by
  have h1 : ∀ g ∈ v.activeGrains ++ [m.1], P g := by
    intro g hg
    rcases List.mem_append.mp hg with hg | hg
    · exact hold g hg
    · rw [List.mem_singleton.mp hg]; exact hmain
  unfold spawnAppend
  dsimp only
  split_ifs with hc
  · exact unisonLoop_forall P _ _ _ _ hnew _ _ _ h1
  · exact h1

/-- A property of grains that holds for the old grains, for the main grain and for its
unison copies holds for every grain after `spawnGrain`. -/
theorem spawnGrain_forall (P : Grain → Prop) (v : Voice X)
    (hold : ∀ g ∈ v.activeGrains, P g)
    (hmain : ∀ src, v.audioSource = some src → src.numSamples ≠ 0 →
      P (spawnMainGrain src v).1 ∧
      ∀ inc pl pr x : ℚ, P { (spawnMainGrain src v).1 with
        increment := inc, panL := pl, panR := pr,
        position := jlimit 0 (floatOfInt ((src.numSamples : Int) - 1)) x }) :
    ∀ g ∈ (spawnGrain v).activeGrains, P g := by
  cases hsrc : v.audioSource with
  | none => rw [spawnGrain_of_none v hsrc]; exact hold
  | some src =>
    by_cases hn : src.numSamples = 0
    · rw [spawnGrain_of_empty v src hsrc hn]; exact hold
    · rw [spawnGrain_eq v src hsrc hn]
      have hall := spawnAppend_forall P src v (spawnMainGrain src v) hold
        (hmain src hsrc hn).1 (hmain src hsrc hn).2
      dsimp only
      split_ifs with h20
      · intro g hg
        exact hall g (List.mem_of_mem_tail hg)
      · exact hall

/-! ## The conversion of the source length to `float` -/

theorem roundToStep_exact (n : Nat) (h : n ≤ 16777216) : roundToStep n (floatStep 8 n) = n := by
  rcases Nat.lt_or_ge n 16777216 with hlt | hge
  · have hs : floatStep 8 n = 1 := by
      unfold floatStep
      rw [if_pos hlt]
    rw [hs]
    unfold roundToStep
    simp [Nat.mod_one]
  · have he : n = 16777216 := le_antisymm h hge
    subst he
    decide

/-- Up to 2^24 the conversion is exact. -/
theorem floatOfInt_natCast (n : Nat) (h : n ≤ 16777216) : floatOfInt (n : Int) = (n : ℚ) := by
  unfold floatOfInt
  rw [if_pos (Int.natCast_nonneg n), Int.toNat_natCast, roundToStep_exact n h]

theorem floatOfInt_pred (n : Nat) (h0 : 0 < n) (h : n ≤ 16777216) :
    floatOfInt ((n : Int) - 1) = (n : ℚ) - 1 := by
  have he : ((n : Int) - 1) = ((n - 1 : Nat) : Int) := by omega
  rw [he, floatOfInt_natCast (n - 1) (by omega)]
  have h1 : (1 : Nat) ≤ n := h0
  push_cast [Nat.cast_sub h1]
  rfl

theorem floatOfInt_nonneg (z : Int) (h : 0 ≤ z) : 0 ≤ floatOfInt z := by
  unfold floatOfInt
  rw [if_pos h]
  exact Nat.cast_nonneg _

theorem floatOfInt_pred_nonneg (n : Nat) (h0 : 0 < n) : 0 ≤ floatOfInt ((n : Int) - 1) :=
  floatOfInt_nonneg _ (by omega)

/-! ## What a tick does to a grain -/

theorem processGrain_skipped (src : AudioBuffer) (g g1 : Grain)
    (h : processGrain X src g = GrainStep.skipped g1) :
    0 < g.samplesRemaining ∧ g1 = { g with samplesRemaining := g.samplesRemaining - 1 } := by
  unfold processGrain at h
  dsimp only at h
  split_ifs at h with h1 h2
  · injection h with h
    exact ⟨not_le.mp h1, h.symm⟩

theorem processGrain_played (src : AudioBuffer) (g g1 : Grain) (l r : ℚ)
    (h : processGrain X src g = GrainStep.played g1 l r) :
    0 < g.samplesRemaining ∧
      ∃ x : ℚ, g1 = { g with position := x, samplesRemaining := g.samplesRemaining - 1 } ∧
        (0 < src.numSamples → src.numSamples ≤ 16777216 →
          0 ≤ x ∧ x < (src.numSamples : ℚ)) := by
  unfold processGrain at h
  dsimp only at h
  split_ifs at h with h1 h2 h3 h4 h5 h6 h7 h8 <;> injection h with h _ _ <;>
    refine ⟨not_le.mp h1, _, h.symm, fun hN h24 => ?_⟩
  all_goals
    simp only [floatOfInt_natCast src.numSamples h24, floatOfInt_pred src.numSamples hN h24] at *
    have hNq : (1 : ℚ) ≤ (src.numSamples : ℚ) := by exact_mod_cast hN
    first
    | exact ⟨le_refl _, by linarith⟩
    | (constructor <;> linarith)

/-- Every grain that survives the grain loop comes from a grain with a positive
remaining count, by a skip or by a read. -/
theorem processGrains_mem (src : AudioBuffer) (grains : List Grain) (out : ℚ × ℚ) (g1 : Grain)
    (h : g1 ∈ (processGrains X src grains out).1) :
    ∃ g ∈ grains, processGrain X src g = GrainStep.skipped g1 ∨
      ∃ l r, processGrain X src g = GrainStep.played g1 l r := by
  induction grains with
  | nil => simp [processGrains] at h
  | cons g rest ih =>
    unfold processGrains at h
    dsimp only at h
    split at h
    · obtain ⟨g0, hg0, hh⟩ := ih h
      exact ⟨g0, List.mem_cons_of_mem _ hg0, hh⟩
    · rename_i g2 heq
      rcases List.mem_cons.mp h with h | h
      · exact ⟨g, List.mem_cons_self _ _, Or.inl (by rw [heq, h])⟩
      · obtain ⟨g0, hg0, hh⟩ := ih h
        exact ⟨g0, List.mem_cons_of_mem _ hg0, hh⟩
    · rename_i g2 l r heq
      rcases List.mem_cons.mp h with h | h
      · exact ⟨g, List.mem_cons_self _ _, Or.inr ⟨l, r, by rw [heq, h]⟩⟩
      · obtain ⟨g0, hg0, hh⟩ := ih h
        exact ⟨g0, List.mem_cons_of_mem _ hg0, hh⟩

/-! ## C2: sample counts of a grain -/

theorem spawnGrain_countsOk (v : Voice X) (h0 : 0 ≤ v.parameters.grainSize)
    (h1 : v.parameters.grainSize ≤ 1) (hr : 100 ≤ v.currentSampleRate)
    (hold : ∀ g ∈ v.activeGrains, g.CountsOk) :
    ∀ g ∈ (spawnGrain v).activeGrains, g.CountsOk :=
  spawnGrain_forall Grain.CountsOk v hold
    (fun src _ _ => ⟨spawnMainGrain_countsOk src v h0 h1 hr,
      fun _ _ _ _ => spawnMainGrain_countsOk src v h0 h1 hr⟩)

theorem spawnLoop_countsOk (fuel : Nat) (v : Voice X) (h0 : 0 ≤ v.parameters.grainSize)
    (h1 : v.parameters.grainSize ≤ 1) (hr : 100 ≤ v.currentSampleRate)
    (hold : ∀ g ∈ v.activeGrains, g.CountsOk) :
    ∀ g ∈ (spawnLoop fuel v).activeGrains, g.CountsOk := by
  induction fuel generalizing v with
  | zero => exact hold
  | succ n ih =>
    unfold spawnLoop
    split_ifs with hc
    · have hp := congrArg VoiceConfig.parameters (spawnGrain_config v)
      have hs := congrArg VoiceConfig.currentSampleRate (spawnGrain_config v)
      simp only [Voice.config] at hp hs
      apply ih
      · show 0 ≤ (spawnGrain v).parameters.grainSize
        rw [hp]; exact h0
      · show (spawnGrain v).parameters.grainSize ≤ 1
        rw [hp]; exact h1
      · show 100 ≤ (spawnGrain v).currentSampleRate
        rw [hs]; exact hr
      · exact spawnGrain_countsOk v h0 h1 hr hold
    · exact hold

theorem spawnStep_countsOk (spawnIncrement : ℚ) (v : Voice X) (h0 : 0 ≤ v.parameters.grainSize)
    (h1 : v.parameters.grainSize ≤ 1) (hr : 100 ≤ v.currentSampleRate)
    (hold : ∀ g ∈ v.activeGrains, g.CountsOk) :
    ∀ g ∈ (spawnStep spawnIncrement v).activeGrains, g.CountsOk := by
  unfold spawnStep
  split_ifs with hc
  · exact spawnLoop_countsOk _ _ h0 h1 hr hold
  · exact hold

theorem processGrains_countsOk (src : AudioBuffer) (grains : List Grain) (out : ℚ × ℚ)
    (hold : ∀ g ∈ grains, g.CountsOk) :
    ∀ g ∈ (processGrains X src grains out).1, g.CountsOk := by
  intro g1 hg1
  obtain ⟨g, hg, hstep⟩ := processGrains_mem src grains out g1 hg1
  obtain ⟨ht, _, hle⟩ := hold g hg
  rcases hstep with hs | ⟨l, r, hp⟩
  · obtain ⟨hpos, rfl⟩ := processGrain_skipped src g g1 hs
    exact ⟨ht, by show 0 ≤ g.samplesRemaining - 1; omega,
      by show g.samplesRemaining - 1 ≤ g.totalSamples; omega⟩
  · obtain ⟨hpos, x, rfl, _⟩ := processGrain_played src g g1 l r hp
    exact ⟨ht, by show 0 ≤ g.samplesRemaining - 1; omega,
      by show g.samplesRemaining - 1 ≤ g.totalSamples; omega⟩

theorem updateGrainsSample_countsOk (src : AudioBuffer) (v : Voice X)
    (h0 : 0 ≤ v.parameters.grainSize) (h1 : v.parameters.grainSize ≤ 1)
    (hr : 100 ≤ v.currentSampleRate) (hold : ∀ g ∈ v.activeGrains, g.CountsOk) :
    ∀ g ∈ (updateGrainsSample src v).1.activeGrains, g.CountsOk := by
  rw [updateGrainsSample_activeGrains]
  exact processGrains_countsOk src _ _ (spawnStep_countsOk _ v h0 h1 hr hold)

/-- The invariant behind C2: the grains have sound counts and the voice has a grain size
in `[0, 1]` and a render rate of at least 100 Hz. -/
theorem updateGrains_countsOk (src : AudioBuffer) (numSamples startSample : Nat)
    (s : Voice X × AudioBuffer) (h0 : 0 ≤ s.1.parameters.grainSize)
    (h1 : s.1.parameters.grainSize ≤ 1) (hr : 100 ≤ s.1.currentSampleRate)
    (hold : ∀ g ∈ s.1.activeGrains, g.CountsOk) :
    ∀ g ∈ (updateGrains src startSample numSamples s).1.activeGrains, g.CountsOk := by
  induction numSamples generalizing startSample s with
  | zero => exact hold
  | succ n ih =>
    unfold updateGrains
    have hp := congrArg VoiceConfig.parameters (updateGrainsSample_config src s.1)
    have hs := congrArg VoiceConfig.currentSampleRate (updateGrainsSample_config src s.1)
    simp only [Voice.config] at hp hs
    apply ih
    · show 0 ≤ (updateGrainsSample src s.1).1.parameters.grainSize
      rw [hp]; exact h0
    · show (updateGrainsSample src s.1).1.parameters.grainSize ≤ 1
      rw [hp]; exact h1
    · show 100 ≤ (updateGrainsSample src s.1).1.currentSampleRate
      rw [hs]; exact hr
    · exact updateGrainsSample_countsOk src s.1 h0 h1 hr hold

theorem renderNextBlock_config_of (v : Voice X) (buf : AudioBuffer) (startSample numSamples : Nat) :
    (renderNextBlock v buf startSample numSamples).1.parameters = v.parameters ∧
      (renderNextBlock v buf startSample numSamples).1.currentSampleRate = v.currentSampleRate ∧
      (renderNextBlock v buf startSample numSamples).1.audioSource = v.audioSource := by
  unfold renderNextBlock
  split
  · exact ⟨rfl, rfl, rfl⟩
  · rename_i src hsrc
    have hc := updateGrains_config src numSamples startSample (v, buf)
    have hp := congrArg VoiceConfig.parameters hc
    have hs := congrArg VoiceConfig.currentSampleRate hc
    have ha := congrArg VoiceConfig.audioSource hc
    simp only [Voice.config] at hp hs ha
    dsimp only
    split_ifs
    · exact ⟨rfl, rfl, rfl⟩
    · exact ⟨hp, hs, ha⟩
    · exact ⟨hp, hs, ha⟩

theorem renderNextBlock_countsOk (v : Voice X) (buf : AudioBuffer) (startSample numSamples : Nat)
    (h0 : 0 ≤ v.parameters.grainSize) (h1 : v.parameters.grainSize ≤ 1)
    (hr : 100 ≤ v.currentSampleRate) (hold : ∀ g ∈ v.activeGrains, g.CountsOk) :
    ∀ g ∈ (renderNextBlock v buf startSample numSamples).1.activeGrains, g.CountsOk := by
  unfold renderNextBlock
  split
  · exact hold
  · dsimp only
    split_ifs
    · exact hold
    · exact updateGrains_countsOk _ _ _ (v, buf) h0 h1 hr hold
    · exact updateGrains_countsOk _ _ _ (v, buf) h0 h1 hr hold

theorem startNote_config_of (v : Voice X) (n : Int) (vel : ℚ) :
    (startNote v n vel).parameters = v.parameters ∧
      (startNote v n vel).currentSampleRate = v.currentSampleRate ∧
      (startNote v n vel).audioSource = v.audioSource ∧
      (startNote v n vel).isActive = true ∧
      (startNote v n vel).grainSpawnTimer = 0 := by
  unfold startNote
  have hc := (spawnGrain_config (spawnGrain _)).trans (spawnGrain_config
    { v with midiNote := n, velocity := vel, isActive := true,
             envelope := X.adsrNoteOn v.envelope, activeGrains := [], grainSpawnTimer := 0 })
  have hp := congrArg VoiceConfig.parameters hc
  have hs := congrArg VoiceConfig.currentSampleRate hc
  have ha := congrArg VoiceConfig.audioSource hc
  have hi := congrArg VoiceConfig.isActive hc
  simp only [Voice.config] at hp hs ha hi
  refine ⟨hp, hs, ha, hi, ?_⟩
  rw [spawnGrain_grainSpawnTimer, spawnGrain_grainSpawnTimer]

theorem startNote_countsOk (v : Voice X) (n : Int) (vel : ℚ)
    (h0 : 0 ≤ v.parameters.grainSize) (h1 : v.parameters.grainSize ≤ 1)
    (hr : 100 ≤ v.currentSampleRate) :
    ∀ g ∈ (startNote v n vel).activeGrains, g.CountsOk := by
  have key : ∀ w : Voice X, w.activeGrains = [] → 0 ≤ w.parameters.grainSize →
      w.parameters.grainSize ≤ 1 → 100 ≤ w.currentSampleRate →
      ∀ g ∈ (spawnGrain (spawnGrain w)).activeGrains, g.CountsOk := by
    intro w hw0 hw1 hw2 hw3
    have hp := congrArg VoiceConfig.parameters (spawnGrain_config w)
    have hs := congrArg VoiceConfig.currentSampleRate (spawnGrain_config w)
    simp only [Voice.config] at hp hs
    apply spawnGrain_countsOk
    · rw [hp]; exact hw1
    · rw [hp]; exact hw2
    · rw [hs]; exact hw3
    · apply spawnGrain_countsOk w hw1 hw2 hw3
      intro g hg
      rw [hw0] at hg
      exact absurd hg (List.not_mem_nil g)
  exact key _ rfl h0 h1 hr

theorem applyOp_countsOk (v : Voice X) (op : Op) (hop : op.GrainSizeOk)
    (h : (0 ≤ v.parameters.grainSize ∧ v.parameters.grainSize ≤ 1 ∧ 100 ≤ v.currentSampleRate) ∧
      ∀ g ∈ v.activeGrains, g.CountsOk) :
    (0 ≤ (applyOp v op).parameters.grainSize ∧ (applyOp v op).parameters.grainSize ≤ 1 ∧
        100 ≤ (applyOp v op).currentSampleRate) ∧
      ∀ g ∈ (applyOp v op).activeGrains, g.CountsOk := by
  obtain ⟨⟨h0, h1, hr⟩, hold⟩ := h
  cases op with
  | startNote n vel =>
    obtain ⟨hp, hs, _⟩ := startNote_config_of v n vel
    refine ⟨?_, startNote_countsOk v n vel h0 h1 hr⟩
    simp only [applyOp, hp, hs]
    exact ⟨h0, h1, hr⟩
  | stopNote tail =>
    simp only [applyOp, stopNote]
    split_ifs
    · exact ⟨⟨h0, h1, hr⟩, hold⟩
    · exact ⟨⟨h0, h1, hr⟩, fun g hg => absurd hg (List.not_mem_nil g)⟩
  | tick src =>
    have hp := congrArg VoiceConfig.parameters (updateGrainsSample_config src v)
    have hs := congrArg VoiceConfig.currentSampleRate (updateGrainsSample_config src v)
    simp only [Voice.config] at hp hs
    refine ⟨?_, updateGrainsSample_countsOk src v h0 h1 hr hold⟩
    simp only [applyOp, hp, hs]
    exact ⟨h0, h1, hr⟩
  | render buf start num =>
    obtain ⟨hp, hs, _⟩ := renderNextBlock_config_of v buf start num
    refine ⟨?_, renderNextBlock_countsOk v buf start num h0 h1 hr hold⟩
    simp only [applyOp, hp, hs]
    exact ⟨h0, h1, hr⟩
  | setParameters p => exact ⟨⟨hop.1, hop.2, hr⟩, hold⟩
  | setAudioSource src rate => exact ⟨⟨h0, h1, hr⟩, hold⟩

theorem runOps_countsOk (ops : List Op) (v : Voice X) (hops : ∀ op ∈ ops, op.GrainSizeOk)
    (h : (0 ≤ v.parameters.grainSize ∧ v.parameters.grainSize ≤ 1 ∧ 100 ≤ v.currentSampleRate) ∧
      ∀ g ∈ v.activeGrains, g.CountsOk) :
    ∀ g ∈ (runOps v ops).activeGrains, g.CountsOk := by
  induction ops generalizing v with
  | nil => exact h.2
  | cons op rest ih =>
    exact ih _ (fun o ho => hops o (List.mem_cons_of_mem _ ho))
      (applyOp_countsOk v op (hops op (List.mem_cons_self _ _)) h)

/-- C2: with `grainSize` in `[0, 1]` and a render rate of at least 100 Hz, `spawnGrain`
and a render tick keep `totalSamples > 0` and `0 <= samplesRemaining <= totalSamples`
on every grain of the active set, and from a note-on on (whatever the grains before
it) every grain satisfies them after every sequence of operations that installs only
snapshots with `grainSize` in `[0, 1]`. -/
theorem C2_grain_counts_invariant (v : Voice X) (h0 : 0 ≤ v.parameters.grainSize)
    (h1 : v.parameters.grainSize ≤ 1) (hr : 100 ≤ v.currentSampleRate) :
    ((∀ g ∈ v.activeGrains, g.CountsOk) → ∀ g ∈ (spawnGrain v).activeGrains, g.CountsOk) ∧
    (∀ src : AudioBuffer, (∀ g ∈ v.activeGrains, g.CountsOk) →
      ∀ g ∈ (updateGrainsSample src v).1.activeGrains, g.CountsOk) ∧
    (∀ (n : Int) (vel : ℚ) (ops : List Op), (∀ op ∈ ops, op.GrainSizeOk) →
      ∀ g ∈ (runOps (startNote v n vel) ops).activeGrains, g.CountsOk) := by
  refine ⟨spawnGrain_countsOk v h0 h1 hr, fun src => updateGrainsSample_countsOk src v h0 h1 hr,
    fun n vel ops hops => runOps_countsOk ops _ hops ⟨?_, startNote_countsOk v n vel h0 h1 hr⟩⟩
  obtain ⟨hp, hs, _⟩ := startNote_config_of v n vel
  rw [hp, hs]
  exact ⟨h0, h1, hr⟩

/-- C2 at a fresh voice with grain size 1/2 at 44.1 kHz. -/
theorem C2_grain_counts_invariant_witness :
    ((∀ g ∈ (freshVoice (some (rampSource 100)) 44100 { grainSize := 1 / 2 }).activeGrains,
        g.CountsOk) →
      ∀ g ∈ (spawnGrain
        (freshVoice (some (rampSource 100)) 44100 { grainSize := 1 / 2 })).activeGrains,
        g.CountsOk) ∧
    (∀ src : AudioBuffer,
      (∀ g ∈ (freshVoice (some (rampSource 100)) 44100 { grainSize := 1 / 2 }).activeGrains,
        g.CountsOk) →
      ∀ g ∈ (updateGrainsSample src
        (freshVoice (some (rampSource 100)) 44100 { grainSize := 1 / 2 })).1.activeGrains,
        g.CountsOk) ∧
    (∀ (n : Int) (vel : ℚ) (ops : List Op), (∀ op ∈ ops, op.GrainSizeOk) →
      ∀ g ∈ (runOps (startNote
        (freshVoice (some (rampSource 100)) 44100 { grainSize := 1 / 2 }) n vel)
        ops).activeGrains, g.CountsOk) :=
  C2_grain_counts_invariant (freshVoice (some (rampSource 100)) 44100 { grainSize := 1 / 2 })
    (by norm_num [freshVoice]) (by norm_num [freshVoice]) (by norm_num [freshVoice])

/-! ## C3: the position of a grain -/

theorem spawnMainGrain_position (src : AudioBuffer) (v : Voice X) :
    ∃ x : ℚ, (spawnMainGrain src v).1.position =
      jlimit 0 (floatOfInt ((src.numSamples : Int) - 1)) x :=
  ⟨_, rfl⟩

/-- Every grain after `spawnGrain` was there before or has a position between 0 and
`(float) (numSamples - 1)`. -/
theorem spawnGrain_position (v : Voice X) (src : AudioBuffer) (hsrc : v.audioSource = some src)
    (hN : 0 < src.numSamples) :
    ∀ g ∈ (spawnGrain v).activeGrains,
      g ∈ v.activeGrains ∨
        (0 ≤ g.position ∧ g.position ≤ floatOfInt ((src.numSamples : Int) - 1)) := by
  have hN1 : (0 : ℚ) ≤ floatOfInt ((src.numSamples : Int) - 1) :=
    floatOfInt_pred_nonneg src.numSamples hN
  apply spawnGrain_forall
    (fun g => g ∈ v.activeGrains ∨
      (0 ≤ g.position ∧ g.position ≤ floatOfInt ((src.numSamples : Int) - 1)))
  · exact fun g hg => Or.inl hg
  · intro src1 hsrc1 _
    have he : src1 = src := Option.some.inj (hsrc1.symm.trans hsrc)
    subst he
    constructor
    · right
      obtain ⟨x, hx⟩ := spawnMainGrain_position src1 v
      rw [hx]
      exact jlimit_mem _ _ _ hN1
    · intro inc pl pr x
      right
      exact jlimit_mem _ _ _ hN1

theorem spawnGrain_inSource (v : Voice X) (src : AudioBuffer) (hsrc : v.audioSource = some src)
    (hN : 0 < src.numSamples) (h24 : src.numSamples ≤ 16777216)
    (hold : ∀ g ∈ v.activeGrains, g.InSource src.numSamples) :
    ∀ g ∈ (spawnGrain v).activeGrains, g.InSource src.numSamples := by
  intro g hg
  rcases spawnGrain_position v src hsrc hN g hg with h | ⟨h1, h2⟩
  · exact hold g h
  · rw [floatOfInt_pred src.numSamples hN h24] at h2
    exact ⟨h1, by linarith⟩

theorem spawnGrain_audioSource (v : Voice X) : (spawnGrain v).audioSource = v.audioSource :=
  congrArg VoiceConfig.audioSource (spawnGrain_config v)

theorem spawnLoop_inSource (fuel : Nat) (v : Voice X) (src : AudioBuffer)
    (hsrc : v.audioSource = some src) (hN : 0 < src.numSamples)
    (h24 : src.numSamples ≤ 16777216)
    (hold : ∀ g ∈ v.activeGrains, g.InSource src.numSamples) :
    ∀ g ∈ (spawnLoop fuel v).activeGrains, g.InSource src.numSamples := by
  induction fuel generalizing v with
  | zero => exact hold
  | succ n ih =>
    unfold spawnLoop
    split_ifs with hc
    · apply ih
      · show (spawnGrain v).audioSource = some src
        rw [spawnGrain_audioSource]; exact hsrc
      · exact spawnGrain_inSource v src hsrc hN h24 hold
    · exact hold

theorem spawnStep_inSource (spawnIncrement : ℚ) (v : Voice X) (src : AudioBuffer)
    (hsrc : v.audioSource = some src) (hN : 0 < src.numSamples)
    (h24 : src.numSamples ≤ 16777216)
    (hold : ∀ g ∈ v.activeGrains, g.InSource src.numSamples) :
    ∀ g ∈ (spawnStep spawnIncrement v).activeGrains, g.InSource src.numSamples := by
  unfold spawnStep
  split_ifs with hc
  · exact spawnLoop_inSource _ _ src hsrc hN h24 hold
  · exact hold

theorem processGrains_inSource (src : AudioBuffer) (hN : 0 < src.numSamples)
    (h24 : src.numSamples ≤ 16777216) (grains : List Grain)
    (out : ℚ × ℚ) (hold : ∀ g ∈ grains, g.InSource src.numSamples) :
    ∀ g ∈ (processGrains X src grains out).1, g.InSource src.numSamples := by
  intro g1 hg1
  obtain ⟨g, hg, hstep⟩ := processGrains_mem src grains out g1 hg1
  rcases hstep with hs | ⟨l, r, hp⟩
  · obtain ⟨_, rfl⟩ := processGrain_skipped src g g1 hs
    exact hold g hg
  · obtain ⟨_, x, rfl, hx⟩ := processGrain_played src g g1 l r hp
    exact hx hN h24

theorem updateGrainsSample_inSource (v : Voice X) (src : AudioBuffer)
    (hsrc : v.audioSource = some src) (hN : 0 < src.numSamples)
    (h24 : src.numSamples ≤ 16777216)
    (hold : ∀ g ∈ v.activeGrains, g.InSource src.numSamples) :
    ∀ g ∈ (updateGrainsSample src v).1.activeGrains, g.InSource src.numSamples := by
  rw [updateGrainsSample_activeGrains]
  exact processGrains_inSource src hN h24 _ _ (spawnStep_inSource _ v src hsrc hN h24 hold)

theorem ticks_inSource (k : Nat) (v : Voice X) (src : AudioBuffer)
    (hsrc : v.audioSource = some src) (hN : 0 < src.numSamples)
    (h24 : src.numSamples ≤ 16777216)
    (hold : ∀ g ∈ v.activeGrains, g.InSource src.numSamples) :
    ∀ g ∈ (ticks src k v).activeGrains, g.InSource src.numSamples := by
  induction k generalizing v with
  | zero => exact hold
  | succ n ih =>
    unfold ticks
    apply ih
    · have h := congrArg VoiceConfig.audioSource (updateGrainsSample_config src v)
      simp only [Voice.config] at h
      rw [h]; exact hsrc
    · exact updateGrainsSample_inSource v src hsrc hN h24 hold

theorem startNote_inSource (v : Voice X) (n : Int) (vel : ℚ) (src : AudioBuffer)
    (hsrc : v.audioSource = some src) (hN : 0 < src.numSamples)
    (h24 : src.numSamples ≤ 16777216) :
    ∀ g ∈ (startNote v n vel).activeGrains, g.InSource src.numSamples := by
  have key : ∀ w : Voice X, w.activeGrains = [] → w.audioSource = some src →
      ∀ g ∈ (spawnGrain (spawnGrain w)).activeGrains, g.InSource src.numSamples := by
    intro w hw0 hw1
    apply spawnGrain_inSource _ src (by rw [spawnGrain_audioSource]; exact hw1) hN h24
    apply spawnGrain_inSource w src hw1 hN h24
    intro g hg
    rw [hw0] at hg
    exact absurd hg (List.not_mem_nil g)
  exact key _ rfl hsrc

/-- C3 as stated fails: after a note-on and two render ticks on a two-sample source
(so `sourceLength - 1 = 1`), the first grain of `halfStepVoice`, spawned at position
1/2 and advanced once by its increment 1, is at position 3/2. -/
theorem C3_position_above_last_index :
    ¬ ∀ g ∈ (ticks (rampSource 2) 2 (startNote halfStepVoice 60 1)).activeGrains,
      0 ≤ g.position ∧ g.position ≤ (((rampSource 2).numSamples : ℚ) - 1) := by
  have h : (ticks (rampSource 2) 2 (startNote halfStepVoice 60 1)).activeGrains.map
      (fun g => g.position) = [3 / 2, 3 / 2] := by decide!
  intro hall
  cases hg : (ticks (rampSource 2) 2 (startNote halfStepVoice 60 1)).activeGrains with
  | nil => rw [hg] at h; simp at h
  | cons g rest =>
    rw [hg] at h hall
    have h1 : g.position = 3 / 2 := by
      simp only [List.map_cons, List.cons.injEq] at h
      exact h.1
    have h2 := (hall g (List.mem_cons_self _ _)).2
    rw [h1] at h2
    norm_num [rampSource] at h2

/-- C3, amended: with a non-empty source, every grain `spawnGrain` adds has a position
between 0 and `(float) (sourceLength - 1)`, and a render tick leaves the position of a
skipped grain unchanged. For a source of at most 2^24 samples, where the conversions of
`sourceLength - 1` and `sourceLength` to `float` are exact: every grain `spawnGrain`
adds has a position in `[0, sourceLength - 1]`; a render tick puts the position of a
grain it advances into `[0, sourceLength)`, so positions in `[0, sourceLength)` stay
there; and from a note-on on, every grain has a position in `[0, sourceLength)` after
every number of render ticks. -/
theorem C3_position_in_source (v : Voice X) (src : AudioBuffer)
    (hsrc : v.audioSource = some src) (hN : 0 < src.numSamples) :
    (∀ g ∈ (spawnGrain v).activeGrains,
      g ∈ v.activeGrains ∨
        (0 ≤ g.position ∧ g.position ≤ floatOfInt ((src.numSamples : Int) - 1))) ∧
    (∀ g g1 : Grain, processGrain X src g = GrainStep.skipped g1 → g1.position = g.position) ∧
    (src.numSamples ≤ 16777216 →
      (∀ g ∈ (spawnGrain v).activeGrains,
        g ∈ v.activeGrains ∨ (0 ≤ g.position ∧ g.position ≤ (src.numSamples : ℚ) - 1)) ∧
      (∀ (g g1 : Grain) (l r : ℚ), processGrain X src g = GrainStep.played g1 l r →
        0 ≤ g1.position ∧ g1.position < (src.numSamples : ℚ)) ∧
      ((∀ g ∈ v.activeGrains, g.InSource src.numSamples) →
        ∀ g ∈ (updateGrainsSample src v).1.activeGrains, g.InSource src.numSamples) ∧
      (∀ (n : Int) (vel : ℚ) (k : Nat),
        ∀ g ∈ (ticks src k (startNote v n vel)).activeGrains, g.InSource src.numSamples)) := by
  refine ⟨spawnGrain_position v src hsrc hN, ?_, fun h24 => ⟨?_, ?_,
    updateGrainsSample_inSource v src hsrc hN h24, ?_⟩⟩
  · intro g g1 h
    obtain ⟨_, rfl⟩ := processGrain_skipped src g g1 h
    rfl
  · intro g hg
    rcases spawnGrain_position v src hsrc hN g hg with h | h
    · exact Or.inl h
    · rw [floatOfInt_pred src.numSamples hN h24] at h
      exact Or.inr h
  · intro g g1 l r h
    obtain ⟨_, x, rfl, hx⟩ := processGrain_played src g g1 l r h
    exact hx hN h24
  · intro n vel k
    exact ticks_inSource k _ src ((startNote_config_of v n vel).2.2.1.trans hsrc) hN h24
      (startNote_inSource v n vel src hsrc hN h24)

/-- C3, amended, at a fresh voice on a 100-sample source. -/
theorem C3_position_in_source_witness :
    (∀ g ∈ (spawnGrain (freshVoice (some (rampSource 100)) 44100 {})).activeGrains,
      g ∈ (freshVoice (some (rampSource 100)) 44100 {}).activeGrains ∨
        (0 ≤ g.position ∧ g.position ≤ ((rampSource 100).numSamples : ℚ) - 1)) ∧
    (∀ (g g1 : Grain) (l r : ℚ),
      processGrain stdJuce (rampSource 100) g = GrainStep.played g1 l r →
      0 ≤ g1.position ∧ g1.position < ((rampSource 100).numSamples : ℚ)) ∧
    ((∀ g ∈ (freshVoice (some (rampSource 100)) 44100 {}).activeGrains,
        g.InSource (rampSource 100).numSamples) →
      ∀ g ∈ (updateGrainsSample (rampSource 100)
        (freshVoice (some (rampSource 100)) 44100 {})).1.activeGrains,
        g.InSource (rampSource 100).numSamples) ∧
    (∀ (n : Int) (vel : ℚ) (k : Nat),
      ∀ g ∈ (ticks (rampSource 100) k
        (startNote (freshVoice (some (rampSource 100)) 44100 {}) n vel)).activeGrains,
        g.InSource (rampSource 100).numSamples) :=
  (C3_position_in_source (freshVoice (some (rampSource 100)) 44100 {}) (rampSource 100) rfl
    (by decide)).2.2 (by decide)

/-! ## C4: note-on -/

theorem spawnGrain_length_bounds (v : Voice X) (src : AudioBuffer)
    (hsrc : v.audioSource = some src) (hn : src.numSamples ≠ 0)
    (h : v.activeGrains.length < 20) :
    v.activeGrains.length + 1 ≤ (spawnGrain v).activeGrains.length ∧
      (spawnGrain v).activeGrains.length ≤ max (v.activeGrains.length + 1) 16 ∧
      (toInt v.parameters.unisonVoices ≤ 1 →
        (spawnGrain v).activeGrains.length = v.activeGrains.length + 1) := by
  have hle := spawnAppend_length_le src v (spawnMainGrain src v)
  have hge := spawnAppend_length_ge src v (spawnMainGrain src v)
  have h20 : ¬ (spawnAppend src v (spawnMainGrain src v)).1.length > 20 := by
    have : max (v.activeGrains.length + 1) 16 ≤ 20 := max_le (by omega) (by omega)
    omega
  rw [spawnGrain_eq v src hsrc hn]
  dsimp only
  rw [if_neg h20]
  refine ⟨hge, hle, fun hu => ?_⟩
  unfold spawnAppend
  dsimp only
  rw [if_neg (fun hc => absurd hc.1 (not_lt.mpr hu))]
  simp

theorem startNote_length_bounds (v : Voice X) (n : Int) (vel : ℚ) (src : AudioBuffer)
    (hsrc : v.audioSource = some src) (hn : src.numSamples ≠ 0) :
    2 ≤ (startNote v n vel).activeGrains.length ∧
      (startNote v n vel).activeGrains.length ≤ 17 ∧
      (toInt v.parameters.unisonVoices ≤ 1 → (startNote v n vel).activeGrains.length = 2) := by
  have key : ∀ w : Voice X, w.activeGrains = [] → w.audioSource = some src →
      2 ≤ (spawnGrain (spawnGrain w)).activeGrains.length ∧
      (spawnGrain (spawnGrain w)).activeGrains.length ≤ 17 ∧
      (toInt w.parameters.unisonVoices ≤ 1 →
        (spawnGrain (spawnGrain w)).activeGrains.length = 2) := by
    intro w hw hws
    have hl : w.activeGrains.length = 0 := by rw [hw]; rfl
    obtain ⟨a1, a2, a3⟩ := spawnGrain_length_bounds w src hws hn (by omega)
    have a2x : (spawnGrain w).activeGrains.length ≤ 16 :=
      le_trans a2 (max_le (by omega) (le_refl _))
    have hp : (spawnGrain w).parameters = w.parameters :=
      congrArg VoiceConfig.parameters (spawnGrain_config w)
    obtain ⟨b1, b2, b3⟩ := spawnGrain_length_bounds (spawnGrain w) src
      (by rw [spawnGrain_audioSource]; exact hws) hn (by omega)
    refine ⟨by omega, le_trans b2 (max_le (by omega) (by omega)), fun hu => ?_⟩
    rw [b3 (by rw [hp]; exact hu), a3 hu, hl]
  exact key _ rfl hsrc

/-- C4 as stated fails: with `unisonVoices = 4` each of the two spawns of a note-on adds
the main grain and three unison copies, so the note-on leaves 8 grains, not 2. -/
theorem C4_note_on_with_unison_leaves_8 :
    ¬ (startNote (freshVoice (some (rampSource 100)) 44100 { unisonVoices := 4 }) 60
      1).activeGrains.length = 2 := by
  have h : (startNote (freshVoice (some (rampSource 100)) 44100 { unisonVoices := 4 }) 60
      1).activeGrains.length = 8 := by decide!
  rw [h]
  decide

/-- C4, amended: with a non-empty source a note-on leaves the voice active with a spawn
timer of 0, its result does not depend on the grains that were active before, and it
leaves at least 2 and at most 17 grains: exactly 2 when `unisonVoices` is below 2. -/
theorem C4_note_on (v : Voice X) (midiNoteNumber : Int) (noteVelocity : ℚ) (src : AudioBuffer)
    (hsrc : v.audioSource = some src) (hn : src.numSamples ≠ 0) :
    (startNote v midiNoteNumber noteVelocity).isActive = true ∧
    (startNote v midiNoteNumber noteVelocity).grainSpawnTimer = 0 ∧
    (∀ grains : List Grain,
      startNote { v with activeGrains := grains } midiNoteNumber noteVelocity =
        startNote v midiNoteNumber noteVelocity) ∧
    2 ≤ (startNote v midiNoteNumber noteVelocity).activeGrains.length ∧
    (startNote v midiNoteNumber noteVelocity).activeGrains.length ≤ 17 ∧
    (toInt v.parameters.unisonVoices ≤ 1 →
      (startNote v midiNoteNumber noteVelocity).activeGrains.length = 2) := by
  obtain ⟨_, _, _, hact, htimer⟩ := startNote_config_of v midiNoteNumber noteVelocity
  obtain ⟨h2, h17, hex⟩ := startNote_length_bounds v midiNoteNumber noteVelocity src hsrc hn
  exact ⟨hact, htimer, fun _ => rfl, h2, h17, hex⟩

/-- C4, amended, at a fresh voice with the default single unison voice. -/
theorem C4_note_on_witness :
    (startNote (freshVoice (some (rampSource 100)) 44100 {}) 60 1).isActive = true ∧
    (startNote (freshVoice (some (rampSource 100)) 44100 {}) 60 1).grainSpawnTimer = 0 ∧
    (∀ grains : List Grain,
      startNote { freshVoice (some (rampSource 100)) 44100 {} with activeGrains := grains } 60 1 =
        startNote (freshVoice (some (rampSource 100)) 44100 {}) 60 1) ∧
    2 ≤ (startNote (freshVoice (some (rampSource 100)) 44100 {}) 60 1).activeGrains.length ∧
    (startNote (freshVoice (some (rampSource 100)) 44100 {}) 60 1).activeGrains.length ≤ 17 ∧
    (toInt (freshVoice (some (rampSource 100)) 44100 {}).parameters.unisonVoices ≤ 1 →
      (startNote (freshVoice (some (rampSource 100)) 44100 {}) 60 1).activeGrains.length = 2) :=
  C4_note_on (freshVoice (some (rampSource 100)) 44100 {}) 60 1 (rampSource 100) rfl (by decide)

/-! ## C5, C6, C7: note-off and the guards of the block render -/

/-- C5: a note-on followed by a note-off without tail-off leaves a voice that reports
inactive and holds no grain, and the next block render returns the voice and every
sample of the output buffer unchanged. -/
theorem C5_hard_stop_is_silent (v : Voice X) (midiNoteNumber : Int) (noteVelocity : ℚ)
    (outputBuffer : AudioBuffer) (startSample numSamples : Nat) :
    isVoiceActive (stopNote (startNote v midiNoteNumber noteVelocity) false) = false ∧
    (stopNote (startNote v midiNoteNumber noteVelocity) false).activeGrains = [] ∧
    renderNextBlock (stopNote (startNote v midiNoteNumber noteVelocity) false) outputBuffer
        startSample numSamples =
      (stopNote (startNote v midiNoteNumber noteVelocity) false, outputBuffer) := by
  refine ⟨rfl, rfl, ?_⟩
  unfold renderNextBlock
  split
  · rfl
  · have hi : (stopNote (startNote v midiNoteNumber noteVelocity) false).isActive = false := rfl
    dsimp only
    rw [if_pos (Or.inl hi)]

theorem updateGrains_isActive (src : AudioBuffer) (numSamples startSample : Nat)
    (s : Voice X × AudioBuffer) :
    (updateGrains src startSample numSamples s).1.isActive = s.1.isActive :=
  congrArg VoiceConfig.isActive (updateGrains_config src numSamples startSample s)

theorem updateGrains_currentlyPlayingNote (src : AudioBuffer) (numSamples startSample : Nat)
    (s : Voice X × AudioBuffer) :
    (updateGrains src startSample numSamples s).1.currentlyPlayingNote =
      s.1.currentlyPlayingNote :=
  congrArg VoiceConfig.currentlyPlayingNote (updateGrains_config src numSamples startSample s)

/-- C6: for an active voice with a non-empty source, the block render runs the sample
loop and then deactivates the voice (active flag false, current note cleared) exactly
when the envelope is no longer active and the grain vector is empty after the loop;
otherwise it returns the state after the loop, which is still active. -/
theorem C6_deactivation (v : Voice X) (src : AudioBuffer) (outputBuffer : AudioBuffer)
    (startSample numSamples : Nat) (hsrc : v.audioSource = some src)
    (hn : src.numSamples ≠ 0) (hact : v.isActive = true) :
    ((X.adsrIsActive (updateGrains src startSample numSamples (v, outputBuffer)).1.envelope = false ∧
        (updateGrains src startSample numSamples (v, outputBuffer)).1.activeGrains = []) →
      (renderNextBlock v outputBuffer startSample numSamples).1.isActive = false ∧
      (renderNextBlock v outputBuffer startSample numSamples).1.currentlyPlayingNote = -1 ∧
      (renderNextBlock v outputBuffer startSample numSamples).2 =
        (updateGrains src startSample numSamples (v, outputBuffer)).2) ∧
    (¬ (X.adsrIsActive (updateGrains src startSample numSamples (v, outputBuffer)).1.envelope = false ∧
        (updateGrains src startSample numSamples (v, outputBuffer)).1.activeGrains = []) →
      renderNextBlock v outputBuffer startSample numSamples =
        updateGrains src startSample numSamples (v, outputBuffer) ∧
      (renderNextBlock v outputBuffer startSample numSamples).1.isActive = true) ∧
    ((renderNextBlock v outputBuffer startSample numSamples).1.isActive = false ↔
      (X.adsrIsActive (updateGrains src startSample numSamples (v, outputBuffer)).1.envelope = false ∧
        (updateGrains src startSample numSamples (v, outputBuffer)).1.activeGrains = [])) := by
  have hguard : ¬ (v.isActive = false ∨ src.numSamples = 0) := by
    rintro (h | h)
    · rw [hact] at h; exact Bool.noConfusion h
    · exact hn h
  have hia : (updateGrains src startSample numSamples (v, outputBuffer)).1.isActive = true :=
    (updateGrains_isActive src numSamples startSample (v, outputBuffer)).trans hact
  have hr : renderNextBlock v outputBuffer startSample numSamples =
      if X.adsrIsActive (updateGrains src startSample numSamples (v, outputBuffer)).1.envelope = false ∧
          (updateGrains src startSample numSamples (v, outputBuffer)).1.activeGrains.isEmpty = true then
        (clearCurrentNote
          { (updateGrains src startSample numSamples (v, outputBuffer)).1 with isActive := false },
          (updateGrains src startSample numSamples (v, outputBuffer)).2)
      else updateGrains src startSample numSamples (v, outputBuffer) := by
    unfold renderNextBlock
    rw [hsrc]
    dsimp only
    rw [if_neg hguard]
  have hiff : ∀ l : List Grain, l.isEmpty = true ↔ l = [] := fun l => List.isEmpty_iff
  refine ⟨fun hc => ?_, fun hc => ?_, ?_⟩
  · rw [hr, if_pos ⟨hc.1, (hiff _).mpr hc.2⟩]
    exact ⟨rfl, rfl, rfl⟩
  · rw [hr, if_neg (fun h => hc ⟨h.1, (hiff _).mp h.2⟩)]
    exact ⟨rfl, hia⟩
  · constructor
    · intro h
      by_contra hc
      rw [hr, if_neg (fun h => hc ⟨h.1, (hiff _).mp h.2⟩), hia] at h
      exact Bool.noConfusion h
    · intro hc
      rw [hr, if_pos ⟨hc.1, (hiff _).mpr hc.2⟩]
      rfl

/-- C6 at a sounding voice: a note-on on a fresh voice, then a block of 4 samples. -/
theorem C6_deactivation_witness :
    ((stdJuce.adsrIsActive (updateGrains (rampSource 100) 0 4
          (startNote (freshVoice (some (rampSource 100)) 44100 {}) 60 1,
            silentBuffer 4)).1.envelope = false ∧
        (updateGrains (rampSource 100) 0 4
          (startNote (freshVoice (some (rampSource 100)) 44100 {}) 60 1,
            silentBuffer 4)).1.activeGrains = []) →
      (renderNextBlock (startNote (freshVoice (some (rampSource 100)) 44100 {}) 60 1)
        (silentBuffer 4) 0 4).1.isActive = false ∧
      (renderNextBlock (startNote (freshVoice (some (rampSource 100)) 44100 {}) 60 1)
        (silentBuffer 4) 0 4).1.currentlyPlayingNote = -1 ∧
      (renderNextBlock (startNote (freshVoice (some (rampSource 100)) 44100 {}) 60 1)
        (silentBuffer 4) 0 4).2 =
        (updateGrains (rampSource 100) 0 4
          (startNote (freshVoice (some (rampSource 100)) 44100 {}) 60 1, silentBuffer 4)).2) ∧
    (¬ (stdJuce.adsrIsActive (updateGrains (rampSource 100) 0 4
          (startNote (freshVoice (some (rampSource 100)) 44100 {}) 60 1,
            silentBuffer 4)).1.envelope = false ∧
        (updateGrains (rampSource 100) 0 4
          (startNote (freshVoice (some (rampSource 100)) 44100 {}) 60 1,
            silentBuffer 4)).1.activeGrains = []) →
      renderNextBlock (startNote (freshVoice (some (rampSource 100)) 44100 {}) 60 1)
          (silentBuffer 4) 0 4 =
        updateGrains (rampSource 100) 0 4
          (startNote (freshVoice (some (rampSource 100)) 44100 {}) 60 1, silentBuffer 4) ∧
      (renderNextBlock (startNote (freshVoice (some (rampSource 100)) 44100 {}) 60 1)
        (silentBuffer 4) 0 4).1.isActive = true) ∧
    ((renderNextBlock (startNote (freshVoice (some (rampSource 100)) 44100 {}) 60 1)
        (silentBuffer 4) 0 4).1.isActive = false ↔
      (stdJuce.adsrIsActive (updateGrains (rampSource 100) 0 4
          (startNote (freshVoice (some (rampSource 100)) 44100 {}) 60 1,
            silentBuffer 4)).1.envelope = false ∧
        (updateGrains (rampSource 100) 0 4
          (startNote (freshVoice (some (rampSource 100)) 44100 {}) 60 1,
            silentBuffer 4)).1.activeGrains = [])) :=
  C6_deactivation (startNote (freshVoice (some (rampSource 100)) 44100 {}) 60 1)
    (rampSource 100) (silentBuffer 4) 0 4
    ((startNote_config_of (freshVoice (some (rampSource 100)) 44100 {}) 60 1).2.2.1)
    (by decide)
    ((startNote_config_of (freshVoice (some (rampSource 100)) 44100 {}) 60 1).2.2.2.1)

/-- C7: when the source is missing or has no samples, the block render returns the
voice and the output buffer unchanged, for every voice, buffer and block, and
`spawnGrain` returns the voice unchanged (no grain added, no member written). -/
theorem C7_missing_source_is_noop (v : Voice X) (outputBuffer : AudioBuffer)
    (startSample numSamples : Nat)
    (h : v.audioSource = none ∨ ∃ src, v.audioSource = some src ∧ src.numSamples = 0) :
    renderNextBlock v outputBuffer startSample numSamples = (v, outputBuffer) ∧
      spawnGrain v = v := by
  rcases h with h | ⟨src, h, h0⟩
  · refine ⟨?_, spawnGrain_of_none v h⟩
    unfold renderNextBlock
    rw [h]
  · refine ⟨?_, spawnGrain_of_empty v src h h0⟩
    unfold renderNextBlock
    rw [h]
    dsimp only
    rw [if_pos (Or.inr h0)]

/-- C7 at an active voice whose source has been removed. -/
theorem C7_missing_source_is_noop_witness :
    renderNextBlock
        { startNote (freshVoice (some (rampSource 100)) 44100 {}) 60 1 with audioSource := none }
        (silentBuffer 4) 0 4 =
      ({ startNote (freshVoice (some (rampSource 100)) 44100 {}) 60 1 with audioSource := none },
        silentBuffer 4) ∧
    spawnGrain
        { startNote (freshVoice (some (rampSource 100)) 44100 {}) 60 1 with audioSource := none } =
      { startNote (freshVoice (some (rampSource 100)) 44100 {}) 60 1 with audioSource := none } :=
  C7_missing_source_is_noop
    { startNote (freshVoice (some (rampSource 100)) 44100 {}) 60 1 with audioSource := none }
    (silentBuffer 4) 0 4 (Or.inl rfl)

/-! ## C8, C9: when the spawn block does nothing -/

theorem spawnLoop_of_lt (fuel : Nat) (v : Voice X) (h : v.grainSpawnTimer < 1) :
    spawnLoop fuel v = v := by
  cases fuel with
  | zero => rfl
  | succ n =>
    unfold spawnLoop
    rw [if_neg (fun hc => absurd hc.1 (not_le.mpr h))]

theorem spawnStep_zero (v : Voice X) (h : v.grainSpawnTimer < 1) : spawnStep 0 v = v := by
  unfold spawnStep
  split_ifs with hc
  · rw [spawnLoop_of_lt _ _ (by show v.grainSpawnTimer + 0 < 1; rw [add_zero]; exact h)]
    simp only [add_zero]
  · rfl

theorem spawnStep_of_full (spawnIncrement : ℚ) (v : Voice X) (h : 16 ≤ v.activeGrains.length) :
    spawnStep spawnIncrement v = v := by
  unfold spawnStep
  rw [if_neg (not_lt.mpr h)]

theorem updateGrainsSample_grainSpawnTimer (src : AudioBuffer) (v : Voice X) :
    (updateGrainsSample src v).1.grainSpawnTimer =
      (spawnStep (v.parameters.density * 50 / v.currentSampleRate) v).grainSpawnTimer := by
  unfold updateGrainsSample processChorus processFilter
  dsimp only
  split_ifs <;> rfl

theorem updateGrainsSample_random (src : AudioBuffer) (v : Voice X) :
    (updateGrainsSample src v).1.random =
      (spawnStep (v.parameters.density * 50 / v.currentSampleRate) v).random := by
  unfold updateGrainsSample processChorus processFilter
  dsimp only
  split_ifs <;> rfl

theorem ageGrains_length_le (src : AudioBuffer) (k : Nat) (grains : List Grain) :
    (ageGrains X src k grains).length ≤ grains.length := by
  induction k generalizing grains with
  | zero => exact le_refl _
  | succ n ih =>
    unfold ageGrains
    exact le_trans (ih _) (processGrains_length_le src grains (0, 0))

theorem ticks_zero_density (src : AudioBuffer) (k : Nat) (w : Voice X)
    (hd : w.parameters.density = 0) (ht : w.grainSpawnTimer = 0) :
    (ticks src k w).grainSpawnTimer = 0 ∧
      (ticks src k w).parameters.density = 0 ∧
      (ticks src k w).activeGrains = ageGrains X src k w.activeGrains ∧
      (ticks src k w).random = w.random := by
  induction k generalizing w with
  | zero => exact ⟨ht, hd, rfl, rfl⟩
  | succ n ih =>
    have hinc : w.parameters.density * 50 / w.currentSampleRate = 0 := by rw [hd]; simp
    have hstep : spawnStep (w.parameters.density * 50 / w.currentSampleRate) w = w := by
      rw [hinc]
      exact spawnStep_zero w (by rw [ht]; norm_num)
    have h1 : (updateGrainsSample src w).1.grainSpawnTimer = 0 := by
      rw [updateGrainsSample_grainSpawnTimer, hstep]; exact ht
    have h2 : (updateGrainsSample src w).1.parameters.density = 0 := by
      have hp : (updateGrainsSample src w).1.parameters = w.parameters :=
        congrArg VoiceConfig.parameters (updateGrainsSample_config src w)
      rw [hp]; exact hd
    have h3 : (updateGrainsSample src w).1.activeGrains =
        (processGrains X src w.activeGrains (0, 0)).1 := by
      rw [updateGrainsSample_activeGrains, hstep]
    have h4 : (updateGrainsSample src w).1.random = w.random := by
      rw [updateGrainsSample_random, hstep]
    obtain ⟨a, b, c, d⟩ := ih (updateGrainsSample src w).1 h2 h1
    unfold ticks ageGrains
    exact ⟨a, b, by rw [c, h3], by rw [d, h4]⟩

/-- C8: with `density = 0`, after a note-on and every number `k` of render ticks the
spawn timer is 0, the spawn block of the next tick leaves the voice as it is (its loop
condition is false, so `spawnGrain` is not called), no random number has been drawn
since the note-on, and the grain vector is the vector of the note-on aged `k` times by
the grain loop alone, so it holds no more grains than the note-on left. -/
theorem C8_zero_density_never_spawns (v : Voice X) (src : AudioBuffer) (midiNoteNumber : Int)
    (noteVelocity : ℚ) (k : Nat) (hd : v.parameters.density = 0) :
    (ticks src k (startNote v midiNoteNumber noteVelocity)).grainSpawnTimer = 0 ∧
    spawnStep
        ((ticks src k (startNote v midiNoteNumber noteVelocity)).parameters.density * 50 /
          (ticks src k (startNote v midiNoteNumber noteVelocity)).currentSampleRate)
        (ticks src k (startNote v midiNoteNumber noteVelocity)) =
      ticks src k (startNote v midiNoteNumber noteVelocity) ∧
    (ticks src k (startNote v midiNoteNumber noteVelocity)).random =
      (startNote v midiNoteNumber noteVelocity).random ∧
    (ticks src k (startNote v midiNoteNumber noteVelocity)).activeGrains =
      ageGrains X src k (startNote v midiNoteNumber noteVelocity).activeGrains ∧
    (ticks src k (startNote v midiNoteNumber noteVelocity)).activeGrains.length ≤
      (startNote v midiNoteNumber noteVelocity).activeGrains.length := by
  obtain ⟨hp, _, _, _, htimer⟩ := startNote_config_of v midiNoteNumber noteVelocity
  obtain ⟨a, b, c, d⟩ := ticks_zero_density src k (startNote v midiNoteNumber noteVelocity)
    (by rw [hp]; exact hd) htimer
  refine ⟨a, ?_, d, c, ?_⟩
  · rw [b]
    simp only [zero_mul, zero_div]
    exact spawnStep_zero _ (by rw [a]; norm_num)
  · rw [c]
    exact ageGrains_length_le src k _

/-- C8 at `halfStepVoice` (density 0), 5 ticks after the note-on. -/
theorem C8_zero_density_never_spawns_witness :
    (ticks (rampSource 2) 5 (startNote halfStepVoice 60 1)).grainSpawnTimer = 0 ∧
    spawnStep
        ((ticks (rampSource 2) 5 (startNote halfStepVoice 60 1)).parameters.density * 50 /
          (ticks (rampSource 2) 5 (startNote halfStepVoice 60 1)).currentSampleRate)
        (ticks (rampSource 2) 5 (startNote halfStepVoice 60 1)) =
      ticks (rampSource 2) 5 (startNote halfStepVoice 60 1) ∧
    (ticks (rampSource 2) 5 (startNote halfStepVoice 60 1)).random =
      (startNote halfStepVoice 60 1).random ∧
    (ticks (rampSource 2) 5 (startNote halfStepVoice 60 1)).activeGrains =
      ageGrains stdJuce (rampSource 2) 5 (startNote halfStepVoice 60 1).activeGrains ∧
    (ticks (rampSource 2) 5 (startNote halfStepVoice 60 1)).activeGrains.length ≤
      (startNote halfStepVoice 60 1).activeGrains.length :=
  C8_zero_density_never_spawns halfStepVoice (rampSource 2) 60 1 5 rfl

/-- C9: a render tick that begins with 16 or more grains skips the spawn block, for
every density and sample rate: the spawn block leaves the voice as it is, the spawn
timer and the generator after the tick are those before it, and the grain vector after
the tick is the old one run through the grain loop, so no grain was added. -/
theorem C9_no_spawn_at_16_grains (v : Voice X) (src : AudioBuffer)
    (h : 16 ≤ v.activeGrains.length) :
    (∀ spawnIncrement : ℚ, spawnStep spawnIncrement v = v) ∧
    (updateGrainsSample src v).1.grainSpawnTimer = v.grainSpawnTimer ∧
    (updateGrainsSample src v).1.random = v.random ∧
    (updateGrainsSample src v).1.activeGrains = (processGrains X src v.activeGrains (0, 0)).1 ∧
    (updateGrainsSample src v).1.activeGrains.length ≤ v.activeGrains.length := by
  have hs := spawnStep_of_full (v.parameters.density * 50 / v.currentSampleRate) v h
  have ha : (updateGrainsSample src v).1.activeGrains =
      (processGrains X src v.activeGrains (0, 0)).1 := by
    rw [updateGrainsSample_activeGrains, hs]
  refine ⟨fun inc => spawnStep_of_full inc v h, ?_, ?_, ha, ?_⟩
  · rw [updateGrainsSample_grainSpawnTimer, hs]
  · rw [updateGrainsSample_random, hs]
  · rw [ha]
    exact processGrains_length_le src _ _

/-- C9 at a voice with 16 grains and a spawn timer of 3/4: a note-on with 8 unison
voices. -/
theorem C9_no_spawn_at_16_grains_witness :
    (∀ spawnIncrement : ℚ,
      spawnStep spawnIncrement
          { startNote (freshVoice (some (rampSource 100)) 44100 { unisonVoices := 8 }) 60 1 with
            grainSpawnTimer := 3 / 4 } =
        { startNote (freshVoice (some (rampSource 100)) 44100 { unisonVoices := 8 }) 60 1 with
          grainSpawnTimer := 3 / 4 }) ∧
    (updateGrainsSample (rampSource 100)
        { startNote (freshVoice (some (rampSource 100)) 44100 { unisonVoices := 8 }) 60 1 with
          grainSpawnTimer := 3 / 4 }).1.grainSpawnTimer = 3 / 4 ∧
    (updateGrainsSample (rampSource 100)
        { startNote (freshVoice (some (rampSource 100)) 44100 { unisonVoices := 8 }) 60 1 with
          grainSpawnTimer := 3 / 4 }).1.random =
      (startNote (freshVoice (some (rampSource 100)) 44100 { unisonVoices := 8 }) 60 1).random ∧
    (updateGrainsSample (rampSource 100)
        { startNote (freshVoice (some (rampSource 100)) 44100 { unisonVoices := 8 }) 60 1 with
          grainSpawnTimer := 3 / 4 }).1.activeGrains =
      (processGrains stdJuce (rampSource 100)
        (startNote (freshVoice (some (rampSource 100)) 44100 { unisonVoices := 8 }) 60
          1).activeGrains (0, 0)).1 ∧
    (updateGrainsSample (rampSource 100)
        { startNote (freshVoice (some (rampSource 100)) 44100 { unisonVoices := 8 }) 60 1 with
          grainSpawnTimer := 3 / 4 }).1.activeGrains.length ≤
      (startNote (freshVoice (some (rampSource 100)) 44100 { unisonVoices := 8 }) 60
        1).activeGrains.length :=
  C9_no_spawn_at_16_grains
    { startNote (freshVoice (some (rampSource 100)) 44100 { unisonVoices := 8 }) 60 1 with
      grainSpawnTimer := 3 / 4 }
    (rampSource 100) (by decide!)

/-! ## C10: grains of non-positive length -/

theorem unisonLoop_append (numSamples : Nat) (stereoWidth : ℚ) (newGrain : Grain)
    (numUnisonVoices : Int) (fuel : Nat) (i : Int) (s : List Grain × X.Random) :
    ∃ extra : List Grain,
      (unisonLoop X numSamples stereoWidth newGrain numUnisonVoices fuel i s).1 = s.1 ++ extra := by
  induction fuel generalizing i s with
  | zero => exact ⟨[], by simp [unisonLoop]⟩
  | succ n ih =>
    unfold unisonLoop
    split_ifs with hc
    · have key : ∀ (g : Grain) (r : X.Random), _ := fun g r => ih (i + 1) (s.1 ++ [g], r)
      obtain ⟨extra, he⟩ := key _ _
      exact ⟨_, he.trans (List.append_assoc _ _ _)⟩
    · exact ⟨[], by simp⟩

theorem spawnAppend_append (src : AudioBuffer) (v : Voice X) (m : Grain × Voice X) :
    ∃ extra : List Grain, (spawnAppend src v m).1 = v.activeGrains ++ m.1 :: extra := by
  unfold spawnAppend
  dsimp only
  split_ifs with hc
  · obtain ⟨extra, he⟩ := unisonLoop_append src.numSamples v.parameters.stereoWidth m.1
      (toInt v.parameters.unisonVoices) 16 1 (v.activeGrains ++ [m.1], m.2.random)
    exact ⟨extra, he.trans (List.append_assoc _ _ _)⟩
  · exact ⟨[], rfl⟩

/-- With a non-empty source the main grain is in the vector after `spawnGrain`. -/
theorem spawnGrain_mem (v : Voice X) (src : AudioBuffer) (hsrc : v.audioSource = some src)
    (hn : src.numSamples ≠ 0) : (spawnMainGrain src v).1 ∈ (spawnGrain v).activeGrains := by
  obtain ⟨extra, he⟩ := spawnAppend_append src v (spawnMainGrain src v)
  have hle := spawnAppend_length_le src v (spawnMainGrain src v)
  rw [spawnGrain_eq v src hsrc hn]
  dsimp only
  split_ifs with h20
  · rw [he]
    cases hv : v.activeGrains with
    | nil =>
      rw [hv] at hle
      simp only [List.length_nil, zero_add] at hle
      have : max 1 16 = 16 := rfl
      omega
    | cons g rest => simp
  · rw [he]; simp

theorem processGrain_erased (src : AudioBuffer) (g : Grain) (h : g.samplesRemaining ≤ 0) :
    processGrain X src g = GrainStep.erased := by
  unfold processGrain
  rw [if_pos h]

theorem processGrains_survivor_positive (src : AudioBuffer) (grains : List Grain) (out : ℚ × ℚ) :
    ∀ g1 ∈ (processGrains X src grains out).1,
      ∃ g ∈ grains, 0 < g.samplesRemaining ∧ g1.samplesRemaining = g.samplesRemaining - 1 ∧
        g1.totalSamples = g.totalSamples := by
  intro g1 hg1
  obtain ⟨g, hg, hstep⟩ := processGrains_mem src grains out g1 hg1
  rcases hstep with hs | ⟨l, r, hp⟩
  · obtain ⟨hpos, rfl⟩ := processGrain_skipped src g g1 hs
    exact ⟨g, hg, hpos, rfl, rfl⟩
  · obtain ⟨hpos, x, rfl, _⟩ := processGrain_played src g g1 l r hp
    exact ⟨g, hg, hpos, rfl, rfl⟩

/-- C10 as stated fails: at a render rate of 50 Hz and `grainSize = 0` (10 ms)
`spawnGrain` computes `totalSamples = 0` and still appends the grain to the empty
vector of a fresh voice. -/
theorem C10_zero_length_grain_is_added :
    ¬ ((spawnMainGrain (rampSource 100)
          (freshVoice (some (rampSource 100)) 50 { grainSize := 0 })).1.totalSamples ≤ 0 →
        (spawnGrain (freshVoice (some (rampSource 100)) 50 { grainSize := 0 })).activeGrains =
          (freshVoice (some (rampSource 100)) 50 { grainSize := 0 }).activeGrains) := by
  intro h
  have h0 : (spawnMainGrain (rampSource 100)
      (freshVoice (some (rampSource 100)) 50 { grainSize := 0 })).1.totalSamples ≤ 0 := by
    decide!
  have h1 : (spawnGrain
      (freshVoice (some (rampSource 100)) 50 { grainSize := 0 })).activeGrains.length = 1 := by
    decide!
  rw [h h0] at h1
  exact absurd h1 (by decide)

/-- C10, amended: `spawnGrain` has no guard on `totalSamples`. With a non-empty source it
always adds the main grain, whose `samplesRemaining` equals its `totalSamples`, also
when that is 0 or negative; the grain loop of a render tick erases a grain with
`samplesRemaining <= 0` before it computes an envelope or reads the source, and every
grain that survives the loop had `samplesRemaining > 0`. -/
theorem C10_degenerate_grain_removed_by_tick (v : Voice X) (src : AudioBuffer)
    (hsrc : v.audioSource = some src) (hn : src.numSamples ≠ 0) :
    (spawnMainGrain src v).1 ∈ (spawnGrain v).activeGrains ∧
    (spawnMainGrain src v).1.samplesRemaining = (spawnMainGrain src v).1.totalSamples ∧
    (∀ g : Grain, g.samplesRemaining ≤ 0 → processGrain X src g = GrainStep.erased) ∧
    (∀ (g : Grain) (rest : List Grain) (out : ℚ × ℚ), g.samplesRemaining ≤ 0 →
      processGrains X src (g :: rest) out = processGrains X src rest out) ∧
    (∀ (grains : List Grain) (out : ℚ × ℚ), ∀ g1 ∈ (processGrains X src grains out).1,
      ∃ g ∈ grains, 0 < g.samplesRemaining ∧ g1.samplesRemaining = g.samplesRemaining - 1 ∧
        g1.totalSamples = g.totalSamples) := by
  refine ⟨spawnGrain_mem v src hsrc hn, rfl, fun g hg => processGrain_erased src g hg, ?_,
    fun grains out => processGrains_survivor_positive src grains out⟩
  intro g rest out hg
  rw [processGrains, processGrain_erased src g hg]

/-- C10, amended, at the fresh voice of the counterexample (50 Hz, 10 ms). -/
theorem C10_degenerate_grain_removed_by_tick_witness :
    (spawnMainGrain (rampSource 100)
        (freshVoice (some (rampSource 100)) 50 { grainSize := 0 })).1 ∈
      (spawnGrain (freshVoice (some (rampSource 100)) 50 { grainSize := 0 })).activeGrains ∧
    (spawnMainGrain (rampSource 100)
        (freshVoice (some (rampSource 100)) 50 { grainSize := 0 })).1.samplesRemaining =
      (spawnMainGrain (rampSource 100)
        (freshVoice (some (rampSource 100)) 50 { grainSize := 0 })).1.totalSamples ∧
    (∀ g : Grain, g.samplesRemaining ≤ 0 →
      processGrain stdJuce (rampSource 100) g = GrainStep.erased) ∧
    (∀ (g : Grain) (rest : List Grain) (out : ℚ × ℚ), g.samplesRemaining ≤ 0 →
      processGrains stdJuce (rampSource 100) (g :: rest) out =
        processGrains stdJuce (rampSource 100) rest out) ∧
    (∀ (grains : List Grain) (out : ℚ × ℚ),
      ∀ g1 ∈ (processGrains stdJuce (rampSource 100) grains out).1,
      ∃ g ∈ grains, 0 < g.samplesRemaining ∧ g1.samplesRemaining = g.samplesRemaining - 1 ∧
        g1.totalSamples = g.totalSamples) :=
  C10_degenerate_grain_removed_by_tick (freshVoice (some (rampSource 100)) 50 { grainSize := 0 })
    (rampSource 100) rfl (by decide)

/-! ## C11: the grain size in milliseconds -/

theorem spawnMainGrain_totalSamples_eq (src : AudioBuffer) (v : Voice X) :
    (spawnMainGrain src v).1.totalSamples =
      toInt (spawnGrainSizeMs v * v.currentSampleRate / 1000) := by
  unfold spawnMainGrain spawnGrainSizeMs
  dsimp only
  by_cases hj : v.parameters.jitter > 1 / 100
  · simp only [hj, if_true]
  · simp only [hj, if_false]

/-- C11 as stated fails: for the snapshot with `grainSize = 2` (outside `[0, 1]`), no
size LFO and no jitter, `spawnGrain` uses a grain size of 3990 ms, above 2000. -/
theorem C11_grain_size_not_clamped :
    ¬ (10 ≤ spawnGrainSizeMs (freshVoice (some (rampSource 100)) 44100 { grainSize := 2 }) ∧
        spawnGrainSizeMs (freshVoice (some (rampSource 100)) 44100 { grainSize := 2 }) ≤ 2000) := by
  have h : spawnGrainSizeMs (freshVoice (some (rampSource 100)) 44100 { grainSize := 2 }) =
      3990 := by decide!
  rw [h]
  norm_num

/-- C11, amended: the grain size in milliseconds that `spawnGrain` converts to
`totalSamples` lies in `[10, 2000]` when `grainSize` is in `[0, 1]`, whatever the jitter
and LFO settings, and also when the size LFO or the jitter is on (each clamps its
result); with both off it is `10 + 1990 * grainSize`, unclamped, for every `grainSize`. -/
theorem C11_grain_size_ms (src : AudioBuffer) (v : Voice X) :
    (spawnMainGrain src v).1.totalSamples =
      toInt (spawnGrainSizeMs v * v.currentSampleRate / 1000) ∧
    (0 ≤ v.parameters.grainSize ∧ v.parameters.grainSize ≤ 1 →
      10 ≤ spawnGrainSizeMs v ∧ spawnGrainSizeMs v ≤ 2000) ∧
    (v.parameters.jitter > 1 / 100 ∨
        (v.parameters.lfoTarget = 2 ∧ v.parameters.lfoAmount > 1 / 100) →
      10 ≤ spawnGrainSizeMs v ∧ spawnGrainSizeMs v ≤ 2000) ∧
    (¬ v.parameters.jitter > 1 / 100 →
        ¬ (v.parameters.lfoTarget = 2 ∧ v.parameters.lfoAmount > 1 / 100) →
      spawnGrainSizeMs v = 10 + 1990 * v.parameters.grainSize) := by
  refine ⟨spawnMainGrain_totalSamples_eq src v, ?_, ?_, ?_⟩
  · rintro ⟨h0, h1⟩
    have hs : 10 ≤ jmap v.parameters.grainSize 10 2000 ∧
        jmap v.parameters.grainSize 10 2000 ≤ 2000 := by
      unfold jmap
      constructor <;> nlinarith
    unfold spawnGrainSizeMs
    dsimp only
    split_ifs
    · exact jlimit_mem _ _ _ (by norm_num)
    · exact jlimit_mem _ _ _ (by norm_num)
    · exact jlimit_mem _ _ _ (by norm_num)
    · exact hs
  · intro h
    unfold spawnGrainSizeMs
    dsimp only
    split_ifs with hj hl hl
    · exact jlimit_mem _ _ _ (by norm_num)
    · exact jlimit_mem _ _ _ (by norm_num)
    · exact jlimit_mem _ _ _ (by norm_num)
    · rcases h with h | h
      · exact absurd h hj
      · exact absurd h hl
  · intro hj hl
    unfold spawnGrainSizeMs
    dsimp only
    rw [if_neg hj, if_neg hl]
    unfold jmap
    ring

/-! ## C12: the playback increment -/

/-- C12: for a render rate other than 0, the increment of the main grain is
`pow (2, totalPitch / 12) * (sourceSampleRate / renderSampleRate)` with `totalPitch` the
sum of `pitch`, `grainPitch`, `midiNote - 60`, the pitch modulation of LFO 1 (when it
targets pitch with an amount above 0.01) and the grain's pitch jitter offset; when
`totalPitch` is 0 and `pow (2, 0) = 1` it is the ratio of the rates, and 1 for equal
rates. -/
theorem C12_increment (src : AudioBuffer) (v : Voice X) (hr : v.currentSampleRate ≠ 0) :
    (spawnMainGrain src v).1.increment =
      X.pow 2 ((v.parameters.pitch + v.parameters.grainPitch + ((v.midiNote - 60 : Int) : ℚ) +
          (if v.parameters.lfoTarget = 1 ∧ v.parameters.lfoAmount > 1 / 100 then
            (generateLFO v 0).1 * v.parameters.lfoAmount * 12 else 0) +
          (spawnMainGrain src v).1.pitchOffset) / 12) *
        (v.sourceSampleRate / v.currentSampleRate) ∧
    (X.pow 2 0 = 1 →
      v.parameters.pitch + v.parameters.grainPitch + ((v.midiNote - 60 : Int) : ℚ) +
          (if v.parameters.lfoTarget = 1 ∧ v.parameters.lfoAmount > 1 / 100 then
            (generateLFO v 0).1 * v.parameters.lfoAmount * 12 else 0) +
          (spawnMainGrain src v).1.pitchOffset = 0 →
      (spawnMainGrain src v).1.increment = v.sourceSampleRate / v.currentSampleRate ∧
      (v.sourceSampleRate = v.currentSampleRate → (spawnMainGrain src v).1.increment = 1)) := by
  have hmain : (spawnMainGrain src v).1.increment =
      X.pow 2 ((v.parameters.pitch + v.parameters.grainPitch + ((v.midiNote - 60 : Int) : ℚ) +
          (if v.parameters.lfoTarget = 1 ∧ v.parameters.lfoAmount > 1 / 100 then
            (generateLFO v 0).1 * v.parameters.lfoAmount * 12 else 0) +
          (spawnMainGrain src v).1.pitchOffset) / 12) *
        (v.sourceSampleRate / v.currentSampleRate) := by
    have hp : ∀ a b c d e : ℚ,
        a + b + c / 12 * 12 + d + e = a + b + c + d + e := by
      intro a b c d e; ring
    unfold spawnMainGrain
    dsimp only
    by_cases hl : v.parameters.lfoTarget = 1 ∧ v.parameters.lfoAmount > 1 / 100
    · by_cases hs : v.sourceSampleRate = v.currentSampleRate
      · simp only [hl, hs, and_self, if_true, ne_eq, not_true_eq_false, if_false,
          div_self hr, mul_one]
        congr 2
        ring
      · simp only [hl, and_self, if_true, ne_eq, hs, not_false_eq_true]
        congr 3
        ring
    · by_cases hs : v.sourceSampleRate = v.currentSampleRate
      · simp only [hl, hs, if_false, ne_eq, not_true_eq_false, div_self hr, mul_one]
        congr 2
        ring
      · simp only [hl, if_false, ne_eq, hs, not_false_eq_true, if_true]
        congr 3
        ring
  refine ⟨hmain, fun hpow h0 => ?_⟩
  rw [hmain, h0, zero_div, hpow, one_mul]
  exact ⟨rfl, fun hs => by rw [hs, div_self hr]⟩

/-- C12 at a fresh voice with middle C, no pitch offsets and equal rates. -/
theorem C12_increment_witness :
    (spawnMainGrain (rampSource 100)
      (freshVoice (some (rampSource 100)) 44100 { texture := 0, spray := 0 })).1.increment = 1 :=
  ((C12_increment (rampSource 100)
    (freshVoice (some (rampSource 100)) 44100 { texture := 0, spray := 0 })
    (by norm_num [freshVoice])).2 (by decide!) (by decide!)).2 (by decide!)

/-! ## C13: the window of a grain -/

/-- C13 fails on the code: the grain loop of `updateGrains` always applies the Hann
window. The two grains of a note-on with `grainShape = 2` (Square) have `shapeType = 2`
and `calculateGrainEnvelope` gives them the window value 1, yet the first render tick
skips both (Hann is 0 at phase 0), and the second tick, at phase 1/10, multiplies the
interpolated sample 99/2 by a Hann value below 1/10. -/
theorem C13_square_grain_gets_hann :
    (startNote squareVoice 60 1).activeGrains.map
        (fun g => (g.shapeType, g.samplesRemaining, g.totalSamples)) =
      [(2, 10, 10), (2, 10, 10)] ∧
    (startNote squareVoice 60 1).activeGrains.map
        (fun g => calculateGrainEnvelope (startNote squareVoice 60 1) g) = [1, 1] ∧
    (startNote squareVoice 60 1).activeGrains.map
        (fun g => (processGrain stdJuce (rampSource 100) g).isSkipped) = [true, true] ∧
    (ticks (rampSource 100) 1 (startNote squareVoice 60 1)).activeGrains.map
        (fun g => (g.shapeType, getInterpolatedSample (some (rampSource 100)) 0 g.position,
          calculateGrainEnvelope (startNote squareVoice 60 1) g)) =
      [(2, 99 / 2, 1), (2, 99 / 2, 1)] ∧
    (ticks (rampSource 100) 1 (startNote squareVoice 60 1)).activeGrains.all
        (fun g => match (processGrain stdJuce (rampSource 100) g).playedL with
          | some sampleL => decide (sampleL < 99 / 2 * (1 / 10))
          | none => false) = true := by
  refine ⟨by decide!, by decide!, by decide!, by decide!, by decide!⟩

/-! ## C14: the remaining count of a grain -/

theorem processGrains_map_samplesRemaining (src : AudioBuffer) (grains : List Grain)
    (out : ℚ × ℚ) :
    (processGrains X src grains out).1.map (fun g => g.samplesRemaining) =
      (grains.filter (fun g => decide (0 < g.samplesRemaining))).map
        (fun g => g.samplesRemaining - 1) := by
  induction grains with
  | nil => rfl
  | cons g rest ih =>
    unfold processGrains
    dsimp only
    split
    · rename_i heq
      have hle : g.samplesRemaining ≤ 0 := by
        by_contra hc
        unfold processGrain at heq
        rw [if_neg hc] at heq
        dsimp only at heq
        split_ifs at heq
      rw [List.filter_cons_of_neg (by simpa using hle)]
      exact ih
    · rename_i g1 heq
      obtain ⟨hpos, rfl⟩ := processGrain_skipped src g g1 heq
      rw [List.filter_cons_of_pos (by simpa using hpos)]
      simp only [List.map_cons, ih]
    · rename_i g1 l r heq
      obtain ⟨hpos, x, rfl, _⟩ := processGrain_played src g g1 l r heq
      rw [List.filter_cons_of_pos (by simpa using hpos)]
      simp only [List.map_cons, ih]

theorem processGrain_of_pos (src : AudioBuffer) (g : Grain) (h : 0 < g.samplesRemaining) :
    (1 / 2 - 1 / 2 * X.cos (2 * X.pi *
          (1 - (g.samplesRemaining : ℚ) / (g.totalSamples : ℚ))) < 2 / 100 ∧
        processGrain X src g =
          GrainStep.skipped { g with samplesRemaining := g.samplesRemaining - 1 }) ∨
      (¬ 1 / 2 - 1 / 2 * X.cos (2 * X.pi *
          (1 - (g.samplesRemaining : ℚ) / (g.totalSamples : ℚ))) < 2 / 100 ∧
        ∃ x l r : ℚ, processGrain X src g =
          GrainStep.played { g with position := x, samplesRemaining := g.samplesRemaining - 1 }
            l r) := by
  by_cases hc : 1 / 2 - 1 / 2 * X.cos (2 * X.pi *
      (1 - (g.samplesRemaining : ℚ) / (g.totalSamples : ℚ))) < 2 / 100
  · left
    refine ⟨hc, ?_⟩
    unfold processGrain
    rw [if_neg (not_le.mpr h)]
    dsimp only
    rw [if_pos hc]
  · right
    refine ⟨hc, ?_⟩
    unfold processGrain
    rw [if_neg (not_le.mpr h)]
    dsimp only
    rw [if_neg hc]
    exact ⟨_, _, _, rfl⟩

theorem ageGrains_single (src : AudioBuffer) (k : Nat) (g : Grain)
    (h : (k : Int) ≤ g.samplesRemaining) :
    ∃ g1 : Grain, ageGrains X src k [g] = [g1] ∧
      g1.samplesRemaining = g.samplesRemaining - k ∧ g1.totalSamples = g.totalSamples := by
  induction k generalizing g with
  | zero => exact ⟨g, rfl, by simp, rfl⟩
  | succ n ih =>
    have hpos : 0 < g.samplesRemaining := by push_cast at h; omega
    unfold ageGrains
    rcases processGrain_of_pos (X := X) src g hpos with ⟨_, hs⟩ | ⟨_, x, l, r, hp⟩
    · have hstep : (processGrains X src [g] (0, 0)).1 =
          [{ g with samplesRemaining := g.samplesRemaining - 1 }] := by
        simp only [processGrains, hs]
      rw [hstep]
      obtain ⟨g1, h1, h2, h3⟩ := ih { g with samplesRemaining := g.samplesRemaining - 1 }
        (by show (n : Int) ≤ g.samplesRemaining - 1; push_cast at h; omega)
      refine ⟨g1, h1, ?_, h3⟩
      rw [h2]
      show g.samplesRemaining - 1 - (n : Int) = g.samplesRemaining - ((n + 1 : Nat) : Int)
      push_cast
      ring
    · have hstep : (processGrains X src [g] (0, 0)).1 =
          [{ g with position := x, samplesRemaining := g.samplesRemaining - 1 }] := by
        simp only [processGrains, hp]
      rw [hstep]
      obtain ⟨g1, h1, h2, h3⟩ :=
        ih { g with position := x, samplesRemaining := g.samplesRemaining - 1 }
          (by show (n : Int) ≤ g.samplesRemaining - 1; push_cast at h; omega)
      refine ⟨g1, h1, ?_, h3⟩
      rw [h2]
      show g.samplesRemaining - 1 - (n : Int) = g.samplesRemaining - ((n + 1 : Nat) : Int)
      push_cast
      ring

theorem ageGrains_single_done (src : AudioBuffer) (g : Grain) (h : 0 ≤ g.samplesRemaining) :
    ageGrains X src (g.samplesRemaining.toNat + 1) [g] = [] := by
  have hk : ((g.samplesRemaining.toNat : Nat) : Int) ≤ g.samplesRemaining := by
    rw [Int.toNat_of_nonneg h]
  obtain ⟨g1, h1, h2, _⟩ := ageGrains_single (X := X) src g.samplesRemaining.toNat g hk
  have h0 : g1.samplesRemaining ≤ 0 := by
    rw [h2, Int.toNat_of_nonneg h]; omega
  have hsplit : ∀ (k : Nat) (l : List Grain),
      ageGrains X src (k + 1) l = (processGrains X src (ageGrains X src k l) (0, 0)).1 := by
    intro k
    induction k with
    | zero => intro l; rfl
    | succ n ih =>
      intro l
      show ageGrains X src (n + 1) (processGrains X src l (0, 0)).1 = _
      rw [ih]
      rfl
  rw [hsplit, h1]
  simp only [processGrains, processGrain_erased src g1 h0]

/-- C14: in the grain loop of a render tick every grain with `samplesRemaining > 0` is
kept with `samplesRemaining` one lower, whether its envelope is below 0.02 (then it is
skipped: nothing else of the grain changes, in particular not its position, and the
left/right sums are those of the grains after it) or not; the remaining counts after
the loop are those of the grains with a positive count, each minus 1; and a grain is
decremented on each of the next `samplesRemaining` ticks and erased on the tick after. -/
theorem C14_every_tick_decrements (src : AudioBuffer) (g : Grain)
    (h : 0 < g.samplesRemaining) :
    ((1 / 2 - 1 / 2 * X.cos (2 * X.pi *
          (1 - (g.samplesRemaining : ℚ) / (g.totalSamples : ℚ))) < 2 / 100 ∧
        processGrain X src g =
          GrainStep.skipped { g with samplesRemaining := g.samplesRemaining - 1 }) ∨
      (¬ 1 / 2 - 1 / 2 * X.cos (2 * X.pi *
          (1 - (g.samplesRemaining : ℚ) / (g.totalSamples : ℚ))) < 2 / 100 ∧
        ∃ x l r : ℚ, processGrain X src g =
          GrainStep.played { g with position := x, samplesRemaining := g.samplesRemaining - 1 }
            l r)) ∧
    (∀ (g1 : Grain) (rest : List Grain) (out : ℚ × ℚ),
      processGrain X src g = GrainStep.skipped g1 →
      processGrains X src (g :: rest) out =
        (g1 :: (processGrains X src rest out).1, (processGrains X src rest out).2)) ∧
    (∀ (grains : List Grain) (out : ℚ × ℚ),
      (processGrains X src grains out).1.map (fun g => g.samplesRemaining) =
        (grains.filter (fun g => decide (0 < g.samplesRemaining))).map
          (fun g => g.samplesRemaining - 1)) ∧
    (∀ k : Nat, (k : Int) ≤ g.samplesRemaining →
      ∃ g1 : Grain, ageGrains X src k [g] = [g1] ∧
        g1.samplesRemaining = g.samplesRemaining - k ∧ g1.totalSamples = g.totalSamples) ∧
    ageGrains X src (g.samplesRemaining.toNat + 1) [g] = [] := by
  refine ⟨processGrain_of_pos src g h, ?_, fun grains out =>
    processGrains_map_samplesRemaining src grains out,
    fun k hk => ageGrains_single src k g hk, ageGrains_single_done src g (le_of_lt h)⟩
  intro g1 rest out hs
  rw [processGrains, hs]

/-- C14 at a grain of 3 samples: present for 3 ticks, erased by the fourth. -/
theorem C14_every_tick_decrements_witness :
    (∃ g1 : Grain, ageGrains stdJuce (rampSource 100) 3
        [{ samplesRemaining := 3, totalSamples := 3 }] = [g1] ∧
        g1.samplesRemaining = 0 ∧ g1.totalSamples = 3) ∧
      ageGrains stdJuce (rampSource 100) 4 [{ samplesRemaining := 3, totalSamples := 3 }] = [] :=
  ⟨(C14_every_tick_decrements (X := stdJuce) (rampSource 100)
      { samplesRemaining := 3, totalSamples := 3 } (by decide)).2.2.2.1 3 (by decide),
    (C14_every_tick_decrements (X := stdJuce) (rampSource 100)
      { samplesRemaining := 3, totalSamples := 3 } (by decide)).2.2.2.2⟩

/-! ## C15: when a finished grain leaves the vector -/

/-- C15 as stated fails: 10 ticks after the note-on of `halfStepVoice` its two grains of
10 samples have `samplesRemaining = 0` and are still in the vector; the eleventh tick
erases them. -/
theorem C15_finished_grain_stays_one_tick :
    ¬ (∀ g ∈ (ticks (rampSource 2) 10 (startNote halfStepVoice 60 1)).activeGrains,
      ¬ g.samplesRemaining ≤ 0) := by
  have h : (ticks (rampSource 2) 10 (startNote halfStepVoice 60 1)).activeGrains.map
      (fun g => g.samplesRemaining) = [0, 0] := by decide!
  intro hall
  cases hg : (ticks (rampSource 2) 10 (startNote halfStepVoice 60 1)).activeGrains with
  | nil => rw [hg] at h; simp at h
  | cons g rest =>
    rw [hg] at h hall
    have h1 : g.samplesRemaining = 0 := by
      simp only [List.map_cons, List.cons.injEq] at h
      exact h.1
    exact hall g (List.mem_cons_self _ _) (le_of_eq h1)

/-- C15, amended: after every render tick no grain of the vector has a negative
`samplesRemaining`; a grain that enters the grain loop with `samplesRemaining = 1` leaves
it with `samplesRemaining = 0` and stays in the vector, and the grain loop of the next
tick erases every grain with `samplesRemaining <= 0` without reading it. -/
theorem C15_finished_grain_erased_next_tick (src : AudioBuffer) (v : Voice X) :
    (∀ g ∈ (updateGrainsSample src v).1.activeGrains, 0 ≤ g.samplesRemaining) ∧
    (∀ (g : Grain) (out : ℚ × ℚ), g.samplesRemaining = 1 →
      ∃ g1 : Grain, (processGrains X src [g] out).1 = [g1] ∧ g1.samplesRemaining = 0) ∧
    (∀ g : Grain, g.samplesRemaining ≤ 0 → processGrain X src g = GrainStep.erased) ∧
    (∀ (g : Grain) (rest : List Grain) (out : ℚ × ℚ), g.samplesRemaining ≤ 0 →
      processGrains X src (g :: rest) out = processGrains X src rest out) := by
  refine ⟨?_, ?_, fun g hg => processGrain_erased src g hg, ?_⟩
  · intro g1 hg1
    rw [updateGrainsSample_activeGrains] at hg1
    obtain ⟨g, _, hpos, hrem, _⟩ := processGrains_survivor_positive src _ _ g1 hg1
    omega
  · intro g out h1
    rcases processGrain_of_pos (X := X) src g (by omega) with ⟨_, hs⟩ | ⟨_, x, l, r, hp⟩
    · refine ⟨{ g with samplesRemaining := g.samplesRemaining - 1 },
        by simp only [processGrains, hs], ?_⟩
      show g.samplesRemaining - 1 = 0
      omega
    · refine ⟨{ g with position := x, samplesRemaining := g.samplesRemaining - 1 },
        by simp only [processGrains, hp], ?_⟩
      show g.samplesRemaining - 1 = 0
      omega
  · intro g rest out hg
    rw [processGrains, processGrain_erased src g hg]

/-! ## C16: additive mixing -/

theorem updateGrains_voice (src : AudioBuffer) (numSamples startSample : Nat)
    (s : Voice X × AudioBuffer) :
    (updateGrains src startSample numSamples s).1 = ticks src numSamples s.1 := by
  induction numSamples generalizing startSample s with
  | zero => rfl
  | succ n ih =>
    unfold updateGrains ticks
    exact ih _ _

theorem addToBuffer_shape (buffer : AudioBuffer) (bufferIndex : Nat) (out : ℚ × ℚ) :
    (addToBuffer buffer bufferIndex out).numChannels = buffer.numChannels ∧
      (addToBuffer buffer bufferIndex out).numSamples = buffer.numSamples := by
  unfold addToBuffer
  dsimp only
  split_ifs <;> exact ⟨rfl, rfl⟩

theorem addToBuffer_getSample (buffer : AudioBuffer) (bufferIndex : Nat) (out : ℚ × ℚ)
    (c i : Nat) :
    (addToBuffer buffer bufferIndex out).getSample c i =
      buffer.getSample c i +
        (if i = bufferIndex ∧ bufferIndex < buffer.numSamples then
          (if c = 0 then out.1 else if c = 1 ∧ buffer.numChannels > 1 then out.2 else 0)
        else 0) := by
  unfold addToBuffer AudioBuffer.addSample
  dsimp only
  by_cases hidx : bufferIndex < buffer.numSamples
  · by_cases hch : buffer.numChannels > 1
    · by_cases hi : i = bufferIndex
      · by_cases h0 : c = 0
        · simp [hidx, hch, hi, h0]
        · by_cases h1 : c = 1
          · simp [hidx, hch, hi, h1]
          · simp [hidx, hch, hi, h0, h1]
      · simp [hidx, hch, hi]
    · by_cases hi : i = bufferIndex
      · by_cases h0 : c = 0
        · simp [hidx, hch, hi, h0]
        · simp [hidx, hch, hi, h0]
      · simp [hidx, hch, hi]
  · simp [hidx]

theorem updateGrains_shape (src : AudioBuffer) (numSamples startSample : Nat)
    (s : Voice X × AudioBuffer) :
    (updateGrains src startSample numSamples s).2.numChannels = s.2.numChannels ∧
      (updateGrains src startSample numSamples s).2.numSamples = s.2.numSamples := by
  induction numSamples generalizing startSample s with
  | zero => exact ⟨rfl, rfl⟩
  | succ n ih =>
    unfold updateGrains
    obtain ⟨h1, h2⟩ := ih (startSample + 1)
      ((updateGrainsSample src s.1).1, addToBuffer s.2 startSample (updateGrainsSample src s.1).2)
    obtain ⟨h3, h4⟩ := addToBuffer_shape s.2 startSample (updateGrainsSample src s.1).2
    exact ⟨h1.trans h3, h2.trans h4⟩

theorem voiceOutput_succ (src : AudioBuffer) (v : Voice X) (k : Nat) :
    voiceOutput src (updateGrainsSample src v).1 k = voiceOutput src v (k + 1) := rfl

theorem updateGrains_getSample (src : AudioBuffer) (numSamples startSample : Nat)
    (v : Voice X) (buffer : AudioBuffer) (c i : Nat) :
    (updateGrains src startSample numSamples (v, buffer)).2.getSample c i =
      buffer.getSample c i +
        blockContribution src v buffer.numChannels buffer.numSamples startSample numSamples c i := by
  induction numSamples generalizing startSample v buffer with
  | zero =>
    have h0 : ¬ (startSample ≤ i ∧ i < startSample + 0 ∧ i < buffer.numSamples) := by omega
    show buffer.getSample c i = _
    unfold blockContribution
    rw [if_neg h0, add_zero]
  | succ n ih =>
    unfold updateGrains
    dsimp only
    rw [ih, addToBuffer_getSample, (addToBuffer_shape _ _ _).1, (addToBuffer_shape _ _ _).2]
    unfold blockContribution
    by_cases hi : i = startSample
    · subst hi
      have h1 : ¬ (i + 1 ≤ i ∧ i < i + 1 + n ∧ i < buffer.numSamples) := by omega
      by_cases hlt : i < buffer.numSamples
      · have h2 : i ≤ i ∧ i < i + (n + 1) ∧ i < buffer.numSamples := ⟨le_refl _, by omega, hlt⟩
        have h3 : i = i ∧ i < buffer.numSamples := ⟨rfl, hlt⟩
        rw [if_pos h3, if_neg h1, if_pos h2, add_zero, Nat.sub_self]
        rfl
      · have h2 : ¬ (i ≤ i ∧ i < i + (n + 1) ∧ i < buffer.numSamples) := fun h => hlt h.2.2
        have h3 : ¬ (i = i ∧ i < buffer.numSamples) := fun h => hlt h.2
        rw [if_neg h3, if_neg h1, if_neg h2, add_zero]
    · have h3 : ¬ (i = startSample ∧ startSample < buffer.numSamples) := fun h => hi h.1
      rw [if_neg h3, add_zero]
      by_cases hr : startSample + 1 ≤ i ∧ i < startSample + 1 + n ∧ i < buffer.numSamples
      · have hk : i - startSample = (i - (startSample + 1)) + 1 := by omega
        have h2 : startSample ≤ i ∧ i < startSample + (n + 1) ∧ i < buffer.numSamples := by
          omega
        rw [if_pos hr, if_pos h2, hk]
        rfl
      · have h2 : ¬ (startSample ≤ i ∧ i < startSample + (n + 1) ∧ i < buffer.numSamples) := by
          omega
        rw [if_neg hr, if_neg h2]

/-- C16: for an active voice with a non-empty source the block render adds, for every
index `i` of the block that lies inside the buffer, the left output of tick
`i - startSample` to channel 0 and, in a buffer with more than one channel, the right
output to channel 1; these outputs are those of the voice run tick by tick and do not
mention the buffer; every sample outside the block, and every channel above 1, is
unchanged, and the voice after the block is the same for every buffer. -/
theorem C16_additive_mix (v : Voice X) (src : AudioBuffer) (outputBuffer : AudioBuffer)
    (startSample numSamples : Nat) (hsrc : v.audioSource = some src)
    (hn : src.numSamples ≠ 0) (hact : v.isActive = true) :
    (∀ i : Nat, startSample ≤ i → i < startSample + numSamples → i < outputBuffer.numSamples →
      (renderNextBlock v outputBuffer startSample numSamples).2.getSample 0 i =
          outputBuffer.getSample 0 i + (voiceOutput src v (i - startSample)).1 ∧
      (1 < outputBuffer.numChannels →
        (renderNextBlock v outputBuffer startSample numSamples).2.getSample 1 i =
          outputBuffer.getSample 1 i + (voiceOutput src v (i - startSample)).2)) ∧
    (∀ c i : Nat, ¬ (startSample ≤ i ∧ i < startSample + numSamples) →
      (renderNextBlock v outputBuffer startSample numSamples).2.getSample c i =
        outputBuffer.getSample c i) ∧
    (∀ c i : Nat, 2 ≤ c →
      (renderNextBlock v outputBuffer startSample numSamples).2.getSample c i =
        outputBuffer.getSample c i) ∧
    (∀ c i : Nat,
      (renderNextBlock v outputBuffer startSample numSamples).2.getSample c i =
        outputBuffer.getSample c i +
          blockContribution src v outputBuffer.numChannels outputBuffer.numSamples
            startSample numSamples c i) ∧
    (renderNextBlock v outputBuffer startSample numSamples).2.numChannels =
      outputBuffer.numChannels ∧
    (renderNextBlock v outputBuffer startSample numSamples).2.numSamples =
      outputBuffer.numSamples ∧
    (∀ other : AudioBuffer,
      (renderNextBlock v other startSample numSamples).1 =
        (renderNextBlock v outputBuffer startSample numSamples).1) := by
  have hguard : ¬ (v.isActive = false ∨ src.numSamples = 0) := by
    rintro (h | h)
    · rw [hact] at h; exact Bool.noConfusion h
    · exact hn h
  have hbuf : ∀ b : AudioBuffer, (renderNextBlock v b startSample numSamples).2 =
      (updateGrains src startSample numSamples (v, b)).2 := by
    intro b
    unfold renderNextBlock
    rw [hsrc]
    dsimp only
    rw [if_neg hguard]
    split_ifs <;> rfl
  have hvoice : ∀ b : AudioBuffer, (renderNextBlock v b startSample numSamples).1 =
      if X.adsrIsActive (ticks src numSamples v).envelope = false ∧
          (ticks src numSamples v).activeGrains.isEmpty = true then
        clearCurrentNote { ticks src numSamples v with isActive := false }
      else ticks src numSamples v := by
    intro b
    unfold renderNextBlock
    rw [hsrc]
    dsimp only
    rw [if_neg hguard]
    simp only [updateGrains_voice]
    split_ifs
    · rfl
    · exact updateGrains_voice src numSamples startSample (v, b)
  have hall : ∀ c i : Nat,
      (renderNextBlock v outputBuffer startSample numSamples).2.getSample c i =
        outputBuffer.getSample c i +
          blockContribution src v outputBuffer.numChannels outputBuffer.numSamples
            startSample numSamples c i := by
    intro c i
    rw [hbuf, updateGrains_getSample]
  refine ⟨?_, ?_, ?_, hall, ?_, ?_, ?_⟩
  · intro i h1 h2 h3
    constructor
    · rw [hall]
      unfold blockContribution
      rw [if_pos ⟨h1, h2, h3⟩, if_pos rfl]
    · intro hch
      rw [hall]
      unfold blockContribution
      rw [if_pos ⟨h1, h2, h3⟩, if_neg (by decide), if_pos ⟨rfl, hch⟩]
  · intro c i hout
    rw [hall]
    unfold blockContribution
    rw [if_neg (fun h => hout ⟨h.1, h.2.1⟩), add_zero]
  · intro c i hc
    rw [hall]
    unfold blockContribution
    split_ifs with h1 h2 h3
    · omega
    · omega
    · exact add_zero _
    · exact add_zero _
  · rw [hbuf]; exact (updateGrains_shape src numSamples startSample (v, outputBuffer)).1
  · rw [hbuf]; exact (updateGrains_shape src numSamples startSample (v, outputBuffer)).2
  · intro other
    rw [hvoice, hvoice]

/-- C16 at a sounding voice: sample 1 of channel 0 after a block of 4 ticks from index 0
on a silent buffer is the left output of tick 1. -/
theorem C16_additive_mix_witness :
    (renderNextBlock (startNote (freshVoice (some (rampSource 100)) 44100 {}) 60 1)
        (silentBuffer 4) 0 4).2.getSample 0 1 =
      (silentBuffer 4).getSample 0 1 +
        (voiceOutput (rampSource 100)
          (startNote (freshVoice (some (rampSource 100)) 44100 {}) 60 1) (1 - 0)).1 :=
  ((C16_additive_mix (startNote (freshVoice (some (rampSource 100)) 44100 {}) 60 1)
    (rampSource 100) (silentBuffer 4) 0 4
    ((startNote_config_of (freshVoice (some (rampSource 100)) 44100 {}) 60 1).2.2.1)
    (by decide)
    ((startNote_config_of (freshVoice (some (rampSource 100)) 44100 {}) 60 1).2.2.2.1)).1
    1 (by decide) (by decide) (by decide)).1

/-! ## C17: freeze -/

theorem getLFOShape_withPosition (a : ℚ) (v : Voice X) (phase : ℚ) (shapeType : Int) :
    getLFOShape (v.withPosition a) phase shapeType =
      ((getLFOShape v phase shapeType).1, (getLFOShape v phase shapeType).2.withPosition a) := by
  unfold getLFOShape
  split_ifs <;> rfl

theorem generateLFO_withPosition (a : ℚ) (v : Voice X) (lfoIndex : Int) :
    generateLFO (v.withPosition a) lfoIndex =
      ((generateLFO v lfoIndex).1, (generateLFO v lfoIndex).2.withPosition a) := by
  unfold generateLFO
  dsimp only
  rw [show (v.withPosition a).lfoPhase = v.lfoPhase from rfl,
    show (v.withPosition a).lfo2Phase = v.lfo2Phase from rfl,
    show (v.withPosition a).parameters.lfoShape = v.parameters.lfoShape from rfl,
    show (v.withPosition a).parameters.lfo2Shape = v.parameters.lfo2Shape from rfl,
    getLFOShape_withPosition]
  by_cases hi : lfoIndex = 0
  · simp only [hi, if_true]
    rfl
  · simp only [hi, if_false]
    rfl

theorem updateScanPosition_withPosition (a : ℚ) (v : Voice X) :
    updateScanPosition (v.withPosition a) = (updateScanPosition v).withPosition a := by
  unfold updateScanPosition Voice.withPosition
  dsimp only
  split_ifs <;> rfl

theorem nextFloat_withPosition (a : ℚ) (v : Voice X) :
    nextFloat (v.withPosition a) = ((nextFloat v).1, (nextFloat v).2.withPosition a) := rfl

theorem drawIf_withPosition (c : Prop) [Decidable c] (a : ℚ) (v : Voice X) :
    (if c then ((nextFloat v).1, (nextFloat v).2.withPosition a)
      else ((0 : ℚ), v.withPosition a)) =
      ((if c then nextFloat v else ((0 : ℚ), v)).1,
        (if c then nextFloat v else ((0 : ℚ), v)).2.withPosition a) := by
  split_ifs <;> rfl

theorem calculateGrainPosition_withPosition (a : ℚ) (v : Voice X)
    (hf : v.parameters.freeze = 1) :
    calculateGrainPosition (v.withPosition a) =
      ((calculateGrainPosition v).1, (calculateGrainPosition v).2.withPosition a) := by
  have h1 : ∀ x : ℚ, jmap 1 x v.targetPlayPosition = v.targetPlayPosition := by
    intro x; unfold jmap; ring
  have hgt : v.parameters.freeze > 1 / 100 := by rw [hf]; norm_num
  unfold calculateGrainPosition
  dsimp only
  rw [show (v.withPosition a).parameters.freeze = v.parameters.freeze from rfl,
    show (v.withPosition a).parameters.glide = v.parameters.glide from rfl,
    show (v.withPosition a).targetPlayPosition = v.targetPlayPosition from rfl,
    show (v.withPosition a).currentPlayPosition = v.currentPlayPosition from rfl,
    if_pos hgt, if_pos hgt, hf, h1, h1]
  split_ifs <;> rfl

theorem withPosition_parameters (a : ℚ) (v : Voice X) :
    (v.withPosition a).parameters = { v.parameters with position := a } := rfl

theorem withPosition_currentSampleRate (a : ℚ) (v : Voice X) :
    (v.withPosition a).currentSampleRate = v.currentSampleRate := rfl

theorem withPosition_sourceSampleRate (a : ℚ) (v : Voice X) :
    (v.withPosition a).sourceSampleRate = v.sourceSampleRate := rfl

theorem withPosition_midiNote (a : ℚ) (v : Voice X) :
    (v.withPosition a).midiNote = v.midiNote := rfl

theorem withPosition_scanPhase (a : ℚ) (v : Voice X) :
    (v.withPosition a).scanPhase = v.scanPhase := rfl

theorem spawnMainGrain_withPosition (a : ℚ) (src : AudioBuffer) (v : Voice X)
    (hf : v.parameters.freeze = 1) :
    spawnMainGrain src (v.withPosition a) =
      ((spawnMainGrain src v).1, (spawnMainGrain src v).2.withPosition a) := by
  have hfreeze : ∀ w : Voice X, w.core = v.core → w.parameters.freeze = 1 := by
    intro w hw
    have := congrArg VoiceCore.parameters hw
    simp only [Voice.core] at this
    rw [this]; exact hf
  have hc : (if v.parameters.jitter > 1 / 100 then
        nextFloat (updateScanPosition (generateLFO (generateLFO v 0).2 1).2)
      else ((0 : ℚ), updateScanPosition (generateLFO (generateLFO v 0).2 1).2)).2.parameters.freeze
      = 1 := by
    apply hfreeze
    rw [drawIf_core, updateScanPosition_core, generateLFO_core, generateLFO_core]
  unfold spawnMainGrain
  simp only [generateLFO_withPosition, updateScanPosition_withPosition, withPosition_parameters,
    withPosition_currentSampleRate, withPosition_sourceSampleRate, withPosition_midiNote,
    drawIf_withPosition, calculateGrainPosition_withPosition _ _ hc, withPosition_scanPhase,
    nextFloat_withPosition]

theorem spawnGrain_withPosition (a : ℚ) (v : Voice X) (hf : v.parameters.freeze = 1) :
    spawnGrain (v.withPosition a) = (spawnGrain v).withPosition a := by
  cases hsrc : v.audioSource with
  | none =>
    rw [spawnGrain_of_none v hsrc, spawnGrain_of_none (v.withPosition a) hsrc]
  | some src =>
    by_cases hn : src.numSamples = 0
    · rw [spawnGrain_of_empty v src hsrc hn, spawnGrain_of_empty (v.withPosition a) src hsrc hn]
    · rw [spawnGrain_eq v src hsrc hn, spawnGrain_eq (v.withPosition a) src hsrc hn,
        spawnMainGrain_withPosition a src v hf]
      rfl

/-- With freeze 1 and glide, scan, spray, texture and LFO amount 0, the main grain starts
at the held target scaled to the source, mirrored in Backward mode, and clamped. -/
theorem spawnMainGrain_startPosition_frozen (src : AudioBuffer) (v : Voice X)
    (hf : v.parameters.freeze = 1) (hg : v.parameters.glide = 0) (hs : v.parameters.scan = 0)
    (hsp : v.parameters.spray = 0) (ht : v.parameters.texture = 0)
    (hl : v.parameters.lfoAmount = 0) :
    (spawnMainGrain src v).1.startPosition =
      jlimit 0 (floatOfInt ((src.numSamples : Int) - 1))
        (if toInt v.parameters.loopMode = 1 then
          floatOfInt ((src.numSamples : Int) - 1) -
            v.targetPlayPosition * floatOfInt ((src.numSamples : Int) - 1)
        else v.targetPlayPosition * floatOfInt ((src.numSamples : Int) - 1)) := by
  have hcp : ∀ w : Voice X, w.core = v.core →
      (calculateGrainPosition w).1 = v.targetPlayPosition := by
    intro w hw
    have hp := congrArg VoiceCore.parameters hw
    have htp := congrArg VoiceCore.targetPlayPosition hw
    simp only [Voice.core] at hp htp
    unfold calculateGrainPosition
    dsimp only
    rw [hp, htp, hf, hg]
    norm_num [jmap]
  unfold spawnMainGrain
  dsimp only
  rw [hcp _ (by rw [drawIf_core, updateScanPosition_core, generateLFO_core, generateLFO_core])]
  simp only [hs, hsp, ht, hl, jmax]
  norm_num

/-- Every grain in the vector after the unison loop was there before or is a copy of
the main grain with a new increment, new pan gains and the position of the main grain
moved by a draw and clamped. -/
theorem unisonLoop_forall_draw (P : Grain → Prop) (numSamples : Nat) (stereoWidth : ℚ)
    (newGrain : Grain) (numUnisonVoices : Int)
    (hnew : ∀ (inc pl pr : ℚ) (r : X.Random), P { newGrain with
      increment := inc, panL := pl, panR := pr,
      position := jlimit 0 (floatOfInt ((numSamples : Int) - 1))
        (newGrain.position +
          ((X.nextFloat r).1 * 2 - 1) * (1 / 100) * floatOfInt (numSamples : Int)) })
    (fuel : Nat) (i : Int) (s : List Grain × X.Random) (hs : ∀ g ∈ s.1, P g) :
    ∀ g ∈ (unisonLoop X numSamples stereoWidth newGrain numUnisonVoices fuel i s).1, P g := by
  induction fuel generalizing i s with
  | zero => simpa [unisonLoop] using hs
  | succ n ih =>
    unfold unisonLoop
    split_ifs with hc
    · apply ih
      intro g hg
      rcases List.mem_append.mp hg with hg | hg
      · exact hs g hg
      · rw [List.mem_singleton.mp hg]
        exact hnew _ _ _ _
    · exact hs

theorem spawnGrain_forall_draw (P : Grain → Prop) (v : Voice X)
    (hold : ∀ g ∈ v.activeGrains, P g)
    (hmain : ∀ src, v.audioSource = some src → src.numSamples ≠ 0 →
      P (spawnMainGrain src v).1 ∧
      ∀ (inc pl pr : ℚ) (r : X.Random), P { (spawnMainGrain src v).1 with
        increment := inc, panL := pl, panR := pr,
        position := jlimit 0 (floatOfInt ((src.numSamples : Int) - 1))
          ((spawnMainGrain src v).1.position +
            ((X.nextFloat r).1 * 2 - 1) * (1 / 100) * floatOfInt (src.numSamples : Int)) }) :
    ∀ g ∈ (spawnGrain v).activeGrains, P g := by
  cases hsrc : v.audioSource with
  | none => rw [spawnGrain_of_none v hsrc]; exact hold
  | some src =>
    by_cases hn : src.numSamples = 0
    · rw [spawnGrain_of_empty v src hsrc hn]; exact hold
    · have h1 : ∀ g ∈ v.activeGrains ++ [(spawnMainGrain src v).1], P g := by
        intro g hg
        rcases List.mem_append.mp hg with hg | hg
        · exact hold g hg
        · rw [List.mem_singleton.mp hg]; exact (hmain src hsrc hn).1
      have hall : ∀ g ∈ (spawnAppend src v (spawnMainGrain src v)).1, P g := by
        unfold spawnAppend
        dsimp only
        split_ifs with hc
        · exact unisonLoop_forall_draw P _ _ _ _ (hmain src hsrc hn).2 _ _ _ h1
        · exact h1
      rw [spawnGrain_eq v src hsrc hn]
      dsimp only
      split_ifs with h20
      · intro g hg
        exact hall g (List.mem_of_mem_tail hg)
      · exact hall

/-- C17 as stated fails. With freeze 1, a held target of 1/4 on a 101-sample source
(sample 25) and glide, scan, spray, texture and LFO amount 0: with 4 unison voices the
call adds four grains that start playing at about 25, 25.75, 24.75 and 25.59, not all
at the target; in Backward loop mode the one grain starts at 75, the mirrored
target. -/
theorem C17_unison_copies_leave_target :
    ¬ (∀ g ∈ (spawnGrain (frozenVoice 4 0)).activeGrains, g.position = 25) ∧
      (spawnGrain (frozenVoice 4 0)).activeGrains.map (fun g => g.position) =
        [25, 5530117199901 / 214748364800, 5314722902293 / 214748364800,
          2748188055103 / 107374182400] ∧
      (spawnGrain (frozenVoice 1 1)).activeGrains.map (fun g => g.startPosition) = [75] := by
  have h : (spawnGrain (frozenVoice 4 0)).activeGrains.map (fun g => g.position) =
      [25, 5530117199901 / 214748364800, 5314722902293 / 214748364800,
        2748188055103 / 107374182400] := by decide!
  refine ⟨?_, h, by decide!⟩
  intro hall
  have hm : ∀ x ∈ (spawnGrain (frozenVoice 4 0)).activeGrains.map (fun g => g.position),
      x = 25 := by
    intro x hx
    obtain ⟨g, hg, rfl⟩ := List.mem_map.mp hx
    exact hall g hg
  have h3 := hm (5530117199901 / 214748364800) (by rw [h]; simp)
  norm_num at h3

/-- C17, amended: with `freeze = 1`, `spawnGrain` on two voice states that differ only in
`parameters.position` gives the same grains (start positions, positions and all other
members) and states that again differ only in `parameters.position`. With glide, scan,
spray, texture and LFO amount 0 the main grain starts at the held target
`targetPlayPosition` scaled by `(float) (N - 1)`, mirrored in Backward loop mode, and
clamped to `[0, (float) (N - 1)]`; every grain the call adds carries that value in its
member `startPosition`, and it starts playing there (the main grain) or at that
position moved by `(draw * 2 - 1) * 0.01 * (float) N` and clamped (a unison copy). -/
theorem C17_freeze_ignores_position (v : Voice X) (src : AudioBuffer)
    (hf : v.parameters.freeze = 1) (hg : v.parameters.glide = 0) (hs : v.parameters.scan = 0)
    (hsp : v.parameters.spray = 0) (ht : v.parameters.texture = 0)
    (hl : v.parameters.lfoAmount = 0) :
    (∀ a : ℚ, spawnGrain (v.withPosition a) = (spawnGrain v).withPosition a) ∧
    (∀ a : ℚ, (spawnGrain (v.withPosition a)).activeGrains = (spawnGrain v).activeGrains) ∧
    (∀ a : ℚ, (spawnMainGrain src (v.withPosition a)).1 = (spawnMainGrain src v).1) ∧
    ((spawnMainGrain src v).1.startPosition =
        jlimit 0 (floatOfInt ((src.numSamples : Int) - 1))
          (if toInt v.parameters.loopMode = 1 then
            floatOfInt ((src.numSamples : Int) - 1) -
              v.targetPlayPosition * floatOfInt ((src.numSamples : Int) - 1)
          else v.targetPlayPosition * floatOfInt ((src.numSamples : Int) - 1)) ∧
      (spawnMainGrain src v).1.position = (spawnMainGrain src v).1.startPosition) ∧
    (v.audioSource = some src → src.numSamples ≠ 0 →
      ∀ g ∈ (spawnGrain v).activeGrains,
        g ∈ v.activeGrains ∨
          (g.startPosition = (spawnMainGrain src v).1.startPosition ∧
            (g.position = (spawnMainGrain src v).1.startPosition ∨
              ∃ r : X.Random, g.position =
                jlimit 0 (floatOfInt ((src.numSamples : Int) - 1))
                  ((spawnMainGrain src v).1.startPosition +
                    ((X.nextFloat r).1 * 2 - 1) * (1 / 100) *
                      floatOfInt (src.numSamples : Int))))) := by
  refine ⟨fun a => spawnGrain_withPosition a v hf,
    fun a => by rw [spawnGrain_withPosition a v hf]; rfl,
    fun a => by rw [spawnMainGrain_withPosition a src v hf],
    ⟨spawnMainGrain_startPosition_frozen src v hf hg hs hsp ht hl, rfl⟩, ?_⟩
  intro hsrc hn
  apply spawnGrain_forall_draw
    (fun g => g ∈ v.activeGrains ∨
      (g.startPosition = (spawnMainGrain src v).1.startPosition ∧
        (g.position = (spawnMainGrain src v).1.startPosition ∨
          ∃ r : X.Random, g.position =
            jlimit 0 (floatOfInt ((src.numSamples : Int) - 1))
              ((spawnMainGrain src v).1.startPosition +
                ((X.nextFloat r).1 * 2 - 1) * (1 / 100) *
                  floatOfInt (src.numSamples : Int)))))
  · exact fun g hg => Or.inl hg
  · intro src1 hsrc1 _
    have he : src1 = src := Option.some.inj (hsrc1.symm.trans hsrc)
    subst he
    exact ⟨Or.inr ⟨rfl, Or.inl rfl⟩, fun _ _ _ r => Or.inr ⟨rfl, Or.inr ⟨r, rfl⟩⟩⟩

/-- C17, amended, at a fresh voice with freeze 1 and a held target of 1/4 on a
101-sample source: the main grain starts at sample 25 for the live positions 0 and 9/10
alike. -/
theorem C17_freeze_ignores_position_witness :
    (spawnMainGrain (rampSource 101) (Voice.withPosition (9 / 10) (frozenVoice 1 0))).1 =
      (spawnMainGrain (rampSource 101) (frozenVoice 1 0)).1 ∧
    (spawnMainGrain (rampSource 101) (frozenVoice 1 0)).1.startPosition = 25 :=
  ⟨(C17_freeze_ignores_position (frozenVoice 1 0) (rampSource 101)
      rfl rfl rfl rfl rfl rfl).2.2.1 (9 / 10),
    ((C17_freeze_ignores_position (frozenVoice 1 0) (rampSource 101)
      rfl rfl rfl rfl rfl rfl).2.2.2.1.1).trans (by decide!)⟩

/-! ## C18: the envelope-phase division -/

theorem spawnLoop_forall (P : Grain → Prop)
    (hspawn : ∀ (w : Voice X) (src : AudioBuffer), P (spawnMainGrain src w).1 ∧
      ∀ inc pl pr x : ℚ, P { (spawnMainGrain src w).1 with
        increment := inc, panL := pl, panR := pr,
        position := jlimit 0 (floatOfInt ((src.numSamples : Int) - 1)) x })
    (fuel : Nat) (v : Voice X) (hold : ∀ g ∈ v.activeGrains, P g) :
    ∀ g ∈ (spawnLoop fuel v).activeGrains, P g := by
  induction fuel generalizing v with
  | zero => exact hold
  | succ n ih =>
    unfold spawnLoop
    split_ifs with hc
    · exact ih _ (spawnGrain_forall P v hold (fun src _ _ => hspawn v src))
    · exact hold

theorem spawnStep_forall (P : Grain → Prop)
    (hspawn : ∀ (w : Voice X) (src : AudioBuffer), P (spawnMainGrain src w).1 ∧
      ∀ inc pl pr x : ℚ, P { (spawnMainGrain src w).1 with
        increment := inc, panL := pl, panR := pr,
        position := jlimit 0 (floatOfInt ((src.numSamples : Int) - 1)) x })
    (spawnIncrement : ℚ) (v : Voice X) (hold : ∀ g ∈ v.activeGrains, P g) :
    ∀ g ∈ (spawnStep spawnIncrement v).activeGrains, P g := by
  unfold spawnStep
  split_ifs with hc
  · exact spawnLoop_forall P hspawn _ _ hold
  · exact hold

theorem updateGrainsSample_forall (P : Grain → Prop)
    (hspawn : ∀ (w : Voice X) (src : AudioBuffer), P (spawnMainGrain src w).1 ∧
      ∀ inc pl pr x : ℚ, P { (spawnMainGrain src w).1 with
        increment := inc, panL := pl, panR := pr,
        position := jlimit 0 (floatOfInt ((src.numSamples : Int) - 1)) x })
    (hstep : ∀ (src : AudioBuffer) (g g1 : Grain), P g →
      (processGrain X src g = GrainStep.skipped g1 ∨
        ∃ l r, processGrain X src g = GrainStep.played g1 l r) → P g1)
    (src : AudioBuffer) (v : Voice X) (hold : ∀ g ∈ v.activeGrains, P g) :
    ∀ g ∈ (updateGrainsSample src v).1.activeGrains, P g := by
  rw [updateGrainsSample_activeGrains]
  intro g1 hg1
  obtain ⟨g, hg, hs⟩ := processGrains_mem src _ _ g1 hg1
  exact hstep src g g1 (spawnStep_forall P hspawn _ v hold g hg) hs

theorem applyOp_forall (P : Grain → Prop)
    (hspawn : ∀ (w : Voice X) (src : AudioBuffer), P (spawnMainGrain src w).1 ∧
      ∀ inc pl pr x : ℚ, P { (spawnMainGrain src w).1 with
        increment := inc, panL := pl, panR := pr,
        position := jlimit 0 (floatOfInt ((src.numSamples : Int) - 1)) x })
    (hstep : ∀ (src : AudioBuffer) (g g1 : Grain), P g →
      (processGrain X src g = GrainStep.skipped g1 ∨
        ∃ l r, processGrain X src g = GrainStep.played g1 l r) → P g1)
    (v : Voice X) (op : Op) (hold : ∀ g ∈ v.activeGrains, P g) :
    ∀ g ∈ (applyOp v op).activeGrains, P g := by
  have hticks : ∀ (src : AudioBuffer) (n : Nat) (w : Voice X), (∀ g ∈ w.activeGrains, P g) →
      ∀ g ∈ (ticks src n w).activeGrains, P g := by
    intro src n
    induction n with
    | zero => exact fun w hw => hw
    | succ k ih =>
      intro w hw
      exact ih _ (updateGrainsSample_forall P hspawn hstep src w hw)
  cases op with
  | startNote n vel =>
    have key : ∀ w : Voice X, w.activeGrains = [] →
        ∀ g ∈ (spawnGrain (spawnGrain w)).activeGrains, P g := by
      intro w hw
      apply spawnGrain_forall P _ _ (fun src _ _ => hspawn _ src)
      apply spawnGrain_forall P w _ (fun src _ _ => hspawn w src)
      intro g hg
      rw [hw] at hg
      exact absurd hg (List.not_mem_nil g)
    exact key _ rfl
  | stopNote tail =>
    simp only [applyOp, stopNote]
    split_ifs
    · exact hold
    · exact fun g hg => absurd hg (List.not_mem_nil g)
  | tick src => exact updateGrainsSample_forall P hspawn hstep src v hold
  | render buf start num =>
    simp only [applyOp, renderNextBlock]
    split
    · exact hold
    · rename_i src _
      split_ifs
      · exact hold
      · rw [updateGrains_voice]
        exact hticks src num v hold
      · rw [updateGrains_voice]
        exact hticks src num v hold
  | setParameters p => exact hold
  | setAudioSource src rate => exact hold

theorem runOps_forall (P : Grain → Prop)
    (hspawn : ∀ (w : Voice X) (src : AudioBuffer), P (spawnMainGrain src w).1 ∧
      ∀ inc pl pr x : ℚ, P { (spawnMainGrain src w).1 with
        increment := inc, panL := pl, panR := pr,
        position := jlimit 0 (floatOfInt ((src.numSamples : Int) - 1)) x })
    (hstep : ∀ (src : AudioBuffer) (g g1 : Grain), P g →
      (processGrain X src g = GrainStep.skipped g1 ∨
        ∃ l r, processGrain X src g = GrainStep.played g1 l r) → P g1)
    (ops : List Op) (v : Voice X) (hold : ∀ g ∈ v.activeGrains, P g) :
    ∀ g ∈ (runOps v ops).activeGrains, P g := by
  induction ops generalizing v with
  | nil => exact hold
  | cons op rest ih => exact ih _ (applyOp_forall P hspawn hstep v op hold)

theorem remaining_le_total_spawn (w : Voice X) (src : AudioBuffer) :
    (spawnMainGrain src w).1.samplesRemaining ≤ (spawnMainGrain src w).1.totalSamples ∧
      ∀ inc pl pr x : ℚ,
        ({ (spawnMainGrain src w).1 with
            increment := inc, panL := pl, panR := pr,
            position := jlimit 0 (floatOfInt ((src.numSamples : Int) - 1)) x } : Grain).samplesRemaining ≤
          ({ (spawnMainGrain src w).1 with
            increment := inc, panL := pl, panR := pr,
            position := jlimit 0 (floatOfInt ((src.numSamples : Int) - 1)) x } : Grain).totalSamples :=
  ⟨le_of_eq rfl, fun _ _ _ _ => le_of_eq rfl⟩

theorem remaining_le_total_step (src : AudioBuffer) (g g1 : Grain)
    (h : g.samplesRemaining ≤ g.totalSamples)
    (hs : processGrain X src g = GrainStep.skipped g1 ∨
      ∃ l r, processGrain X src g = GrainStep.played g1 l r) :
    g1.samplesRemaining ≤ g1.totalSamples := by
  rcases hs with hs | ⟨l, r, hp⟩
  · obtain ⟨_, rfl⟩ := processGrain_skipped src g g1 hs
    show g.samplesRemaining - 1 ≤ g.totalSamples
    omega
  · obtain ⟨_, x, rfl, _⟩ := processGrain_played src g g1 l r hp
    show g.samplesRemaining - 1 ≤ g.totalSamples
    omega

theorem processGrain_ne_erased_iff (src : AudioBuffer) (g : Grain) :
    processGrain X src g ≠ GrainStep.erased ↔ 0 < g.samplesRemaining := by
  constructor
  · intro h
    by_contra hc
    exact h (processGrain_erased src g (not_lt.mp hc))
  · intro h he
    rcases processGrain_of_pos (X := X) src g h with ⟨_, hs⟩ | ⟨_, x, l, r, hp⟩
    · rw [hs] at he; exact GrainStep.noConfusion he
    · rw [hp] at he; exact GrainStep.noConfusion he

/-- C18: the grain loop reaches the division `samplesRemaining / totalSamples` exactly
for the grains it does not erase, those with `samplesRemaining > 0`. From a state whose
grains have `samplesRemaining <= totalSamples` (every grain is spawned with equality and
then only decremented), after every sequence of operations with any parameter
snapshots, every grain has `samplesRemaining <= totalSamples`, so every grain for which
the next tick reaches the division, grains spawned in that tick included, has
`totalSamples > 0`. -/
theorem C18_phase_division_has_positive_divisor (v : Voice X) (ops : List Op)
    (h : ∀ g ∈ v.activeGrains, g.samplesRemaining ≤ g.totalSamples) :
    (∀ (src : AudioBuffer) (g : Grain),
      processGrain X src g ≠ GrainStep.erased ↔ 0 < g.samplesRemaining) ∧
    (∀ g ∈ (runOps v ops).activeGrains, g.samplesRemaining ≤ g.totalSamples) ∧
    (∀ (src : AudioBuffer) (spawnIncrement : ℚ),
      ∀ g ∈ (spawnStep spawnIncrement (runOps v ops)).activeGrains,
        processGrain X src g ≠ GrainStep.erased → 0 < g.totalSamples) := by
  have hinv := runOps_forall (fun g => g.samplesRemaining ≤ g.totalSamples)
    remaining_le_total_spawn remaining_le_total_step ops v h
  refine ⟨processGrain_ne_erased_iff, hinv, ?_⟩
  intro src inc g hg hne
  have hpos := (processGrain_ne_erased_iff src g).mp hne
  have hle : g.samplesRemaining ≤ g.totalSamples :=
    spawnStep_forall (fun g => g.samplesRemaining ≤ g.totalSamples)
      remaining_le_total_spawn inc _ hinv g hg
  omega

/-- C18 at a fresh voice that receives a snapshot with `grainSize = -1` (negative grain
lengths), a note-on and two ticks. -/
theorem C18_phase_division_has_positive_divisor_witness :
    (∀ g ∈ (runOps (freshVoice (some (rampSource 100)) 44100 {})
        [Op.setParameters { grainSize := -1 }, Op.startNote 60 1, Op.tick (rampSource 100),
          Op.tick (rampSource 100)]).activeGrains, g.samplesRemaining ≤ g.totalSamples) ∧
    (∀ (src : AudioBuffer) (spawnIncrement : ℚ),
      ∀ g ∈ (spawnStep spawnIncrement
        (runOps (freshVoice (some (rampSource 100)) 44100 {})
          [Op.setParameters { grainSize := -1 }, Op.startNote 60 1, Op.tick (rampSource 100),
            Op.tick (rampSource 100)])).activeGrains,
        processGrain stdJuce src g ≠ GrainStep.erased → 0 < g.totalSamples) :=
  (C18_phase_division_has_positive_divisor (freshVoice (some (rampSource 100)) 44100 {})
    [Op.setParameters { grainSize := -1 }, Op.startNote 60 1, Op.tick (rampSource 100),
      Op.tick (rampSource 100)]
    (by simp [freshVoice])).2

/-! ## C19: block size -/

theorem updateGrainsLoop_eq (src : AudioBuffer) (numSamples startSample : Nat)
    (s : Voice X × AudioBuffer) (spawnIncrement : ℚ)
    (h : spawnIncrement = s.1.parameters.density * 50 / s.1.currentSampleRate) :
    updateGrainsLoop src spawnIncrement startSample numSamples s =
      updateGrains src startSample numSamples s := by
  induction numSamples generalizing startSample s with
  | zero => rfl
  | succ n ih =>
    unfold updateGrainsLoop updateGrains
    have ht : updateGrainsSampleWith src spawnIncrement s.1 = updateGrainsSample src s.1 := by
      rw [h]; rfl
    dsimp only
    rw [ht]
    apply ih
    have hp := congrArg VoiceConfig.parameters (updateGrainsSample_config src s.1)
    have hs := congrArg VoiceConfig.currentSampleRate (updateGrainsSample_config src s.1)
    simp only [Voice.config] at hp hs
    show spawnIncrement = (updateGrainsSample src s.1).1.parameters.density * 50 /
      (updateGrainsSample src s.1).1.currentSampleRate
    rw [hp, hs]
    exact h

theorem updateGrainsOnce_eq (src : AudioBuffer) (numSamples startSample : Nat)
    (s : Voice X × AudioBuffer) :
    updateGrainsOnce src startSample numSamples s = updateGrains src startSample numSamples s :=
  updateGrainsLoop_eq src numSamples startSample s _ rfl

theorem updateGrains_add (src : AudioBuffer) (a b startSample : Nat)
    (s : Voice X × AudioBuffer) :
    updateGrains src startSample (a + b) s =
      updateGrains src (startSample + a) b (updateGrains src startSample a s) := by
  induction a generalizing startSample s with
  | zero => simp only [Nat.zero_add, Nat.add_zero, updateGrains]
  | succ n ih =>
    have h1 : n + 1 + b = (n + b) + 1 := by omega
    have h2 : startSample + (n + 1) = startSample + 1 + n := by omega
    rw [h1, h2]
    show updateGrains src (startSample + 1) (n + b) _ =
      updateGrains src (startSample + 1 + n) b (updateGrains src (startSample + 1) n _)
    exact ih _ _

theorem ticks_add (src : AudioBuffer) (a b : Nat) (v : Voice X) :
    ticks src (a + b) v = ticks src b (ticks src a v) := by
  induction a generalizing v with
  | zero => simp only [Nat.zero_add, ticks]
  | succ n ih =>
    have h1 : n + 1 + b = (n + b) + 1 := by omega
    rw [h1]
    show ticks src (n + b) _ = ticks src b (ticks src n _)
    exact ih _

/-- C19: `updateGrains`, with its spawn increment computed once at entry, gives over
`a + b` samples from `startSample` the same voice state and the same buffer as over `a`
samples from `startSample` followed by `b` samples from `startSample + a`, for every
voice, generator state, source and buffer; the output of tick `a + j` of the long run is
the output of tick `j` of the second run. -/
theorem C19_block_split (src : AudioBuffer) (v : Voice X) (buffer : AudioBuffer)
    (startSample a b : Nat) :
    updateGrainsOnce src startSample (a + b) (v, buffer) =
      updateGrainsOnce src (startSample + a) b (updateGrainsOnce src startSample a (v, buffer)) ∧
    (∀ j : Nat, voiceOutput src v (a + j) =
      voiceOutput src (updateGrainsOnce src startSample a (v, buffer)).1 j) := by
  constructor
  · rw [updateGrainsOnce_eq, updateGrainsOnce_eq, updateGrainsOnce_eq]
    exact updateGrains_add src a b startSample (v, buffer)
  · intro j
    rw [updateGrainsOnce_eq, updateGrains_voice]
    unfold voiceOutput
    rw [ticks_add]

/-! ## C20: unison copies -/

theorem unisonLoop_extra (numSamples : Nat) (stereoWidth : ℚ) (newGrain : Grain)
    (numUnisonVoices : Int) (fuel : Nat) (i : Int) (s : List Grain × X.Random) (hi : 1 ≤ i) :
    ∃ extra : List Grain,
      (unisonLoop X numSamples stereoWidth newGrain numUnisonVoices fuel i s).1 = s.1 ++ extra ∧
      (extra.length : Int) ≤ max 0 (numUnisonVoices - i) ∧
      ∀ g ∈ extra, ∃ (j : Int) (r : X.Random), 1 ≤ j ∧ j < numUnisonVoices ∧
        Grain.IsUnisonCopy X numSamples stereoWidth numUnisonVoices newGrain g j r := by
  induction fuel generalizing i s with
  | zero =>
    exact ⟨[], by simp [unisonLoop], by simp, fun g hg => absurd hg (List.not_mem_nil g)⟩
  | succ n ih =>
    unfold unisonLoop
    split_ifs with hc
    · obtain ⟨extra, he, hlen, hall⟩ := ih (i + 1)
        (s.1 ++ [({ newGrain with
          increment := newGrain.increment *
            X.pow 2 (((i : ℚ) / ((numUnisonVoices - 1 : Int) : ℚ) - 1 / 2) * (1 / 10) / 12)
          panL := jlimit 0 1
            (1 / 2 - ((i : ℚ) / ((numUnisonVoices - 1 : Int) : ℚ) - 1 / 2) * stereoWidth * (1 / 2))
          panR := jlimit 0 1
            (1 / 2 + ((i : ℚ) / ((numUnisonVoices - 1 : Int) : ℚ) - 1 / 2) * stereoWidth * (1 / 2))
          position := jlimit 0 (floatOfInt ((numSamples : Int) - 1))
            (newGrain.position +
              ((X.nextFloat s.2).1 * 2 - 1) * (1 / 100) * floatOfInt (numSamples : Int)) } :
          Grain)], (X.nextFloat s.2).2) (by omega)
      refine ⟨_ :: extra, he.trans (List.append_assoc _ _ _), ?_, ?_⟩
      · rw [List.length_cons]
        have h2 := hc.1
        have h3 : max 0 (numUnisonVoices - i) = numUnisonVoices - i := max_eq_right (by omega)
        rw [h3]
        rcases le_total 0 (numUnisonVoices - (i + 1)) with h4 | h4
        · rw [max_eq_right h4] at hlen; push_cast; omega
        · rw [max_eq_left h4] at hlen; push_cast; omega
      · intro g hg
        rcases List.mem_cons.mp hg with hg | hg
        · rw [hg]
          exact ⟨i, s.2, hi, hc.1, rfl⟩
        · exact hall g hg
    · exact ⟨[], by simp, by simp, fun g hg => absurd hg (List.not_mem_nil g)⟩

theorem spawnAppend_extra (src : AudioBuffer) (v : Voice X) (m : Grain × Voice X) :
    ∃ extra : List Grain,
      (spawnAppend src v m).1 = v.activeGrains ++ m.1 :: extra ∧
      (extra.length : Int) ≤ max 0 (toInt v.parameters.unisonVoices - 1) ∧
      ∀ g ∈ extra, ∃ (j : Int) (r : X.Random), 1 ≤ j ∧ j < toInt v.parameters.unisonVoices ∧
        Grain.IsUnisonCopy X src.numSamples v.parameters.stereoWidth
          (toInt v.parameters.unisonVoices) m.1 g j r := by
  unfold spawnAppend
  dsimp only
  split_ifs with hc
  · obtain ⟨extra, he, hlen, hall⟩ := unisonLoop_extra (X := X) src.numSamples
      v.parameters.stereoWidth m.1 (toInt v.parameters.unisonVoices) 16 1
      (v.activeGrains ++ [m.1], m.2.random) (le_refl _)
    exact ⟨extra, he.trans (List.append_assoc _ _ _), hlen, hall⟩
  · exact ⟨[], rfl, by simp, fun g hg => absurd hg (List.not_mem_nil g)⟩

/-- The bounds on a unison copy: position, distance to the main grain, detune exponent,
pan gains. -/
theorem unisonCopy_bounds (numSamples : Nat) (stereoWidth : ℚ) (n : Int) (main g : Grain)
    (j : Int) (r : X.Random) (hdraw : X.DrawsInUnit) (hN : 0 < numSamples)
    (hmain : 0 ≤ main.position ∧ main.position ≤ floatOfInt ((numSamples : Int) - 1))
    (hj1 : 1 ≤ j) (hjn : j < n)
    (hg : Grain.IsUnisonCopy X numSamples stereoWidth n main g j r) :
    (0 ≤ g.position ∧ g.position ≤ floatOfInt ((numSamples : Int) - 1)) ∧
    |g.position - main.position| ≤ 1 / 100 * floatOfInt (numSamples : Int) ∧
    (∃ d : ℚ, -(1 / 20) ≤ d ∧ d ≤ 1 / 20 ∧ g.increment = main.increment * X.pow 2 (d / 12)) ∧
    (0 ≤ g.panL ∧ g.panL ≤ 1) ∧ (0 ≤ g.panR ∧ g.panR ≤ 1) := by
  have hNq : (0 : ℚ) ≤ floatOfInt (numSamples : Int) :=
    floatOfInt_nonneg _ (Int.natCast_nonneg numSamples)
  have hlohi : (0 : ℚ) ≤ floatOfInt ((numSamples : Int) - 1) :=
    floatOfInt_pred_nonneg numSamples hN
  obtain ⟨hd0, hd1⟩ := hdraw r
  unfold Grain.IsUnisonCopy at hg
  subst hg
  refine ⟨jlimit_mem _ _ _ hlohi, ?_, ?_, jlimit_mem _ _ _ (by norm_num),
    jlimit_mem _ _ _ (by norm_num)⟩
  · show |jlimit 0 (floatOfInt ((numSamples : Int) - 1))
        (main.position + ((X.nextFloat r).1 * 2 - 1) * (1 / 100) * floatOfInt (numSamples : Int)) -
        main.position| ≤ 1 / 100 * floatOfInt (numSamples : Int)
    generalize floatOfInt (numSamples : Int) = fn at hNq ⊢
    generalize floatOfInt ((numSamples : Int) - 1) = fl at hlohi hmain ⊢
    have hv1 : -(1 / 100 * fn) ≤ ((X.nextFloat r).1 * 2 - 1) * (1 / 100) * fn := by nlinarith
    have hv2 : ((X.nextFloat r).1 * 2 - 1) * (1 / 100) * fn ≤ 1 / 100 * fn := by nlinarith
    rw [abs_le]
    unfold jlimit
    split_ifs with h1 h2
    · constructor <;> linarith [hmain.1, hmain.2]
    · constructor <;> linarith [hmain.1, hmain.2]
    · constructor <;> linarith
  · have hn1 : (0 : ℚ) < ((n - 1 : Int) : ℚ) := by
      have : (0 : Int) < n - 1 := by omega
      exact_mod_cast this
    have hq0 : (0 : ℚ) ≤ (j : ℚ) / ((n - 1 : Int) : ℚ) :=
      div_nonneg (by exact_mod_cast (by omega : (0 : Int) ≤ j)) (le_of_lt hn1)
    have hq1 : (j : ℚ) / ((n - 1 : Int) : ℚ) ≤ 1 := by
      rw [div_le_one hn1]
      exact_mod_cast (by omega : j ≤ n - 1)
    exact ⟨_, by linarith, by linarith, rfl⟩

theorem lcgNextFloat_inUnit (seed : Nat) :
    0 ≤ (lcgNextFloat seed).1 ∧ (lcgNextFloat seed).1 < 1 := by
  unfold lcgNextFloat
  dsimp only
  constructor
  · positivity
  · rw [div_lt_one (by positivity)]
    have h : (seed * 0x5DEECE66D + 11) % 2 ^ 48 / 2 ^ 16 % 2 ^ 32 < 2 ^ 32 :=
      Nat.mod_lt _ (by positivity)
    exact_mod_cast h

theorem stdJuce_drawsInUnit : stdJuce.DrawsInUnit := fun r => lcgNextFloat_inUnit r

theorem powLin_two_monotone (x y : ℚ) (h : x ≤ y) : powLin 2 x ≤ powLin 2 y := by
  unfold powLin
  have hm : ⌊x⌋ ≤ ⌊y⌋ := Int.floor_mono h
  have hx0 : 0 ≤ x - ⌊x⌋ := sub_nonneg.mpr (Int.floor_le x)
  have hx1 : x - ⌊x⌋ < 1 := by linarith [Int.lt_floor_add_one x]
  have hy0 : 0 ≤ y - ⌊y⌋ := sub_nonneg.mpr (Int.floor_le y)
  have hpx : (0 : ℚ) < 2 ^ ⌊x⌋ := zpow_pos (by norm_num) _
  have hpy : (0 : ℚ) < 2 ^ ⌊y⌋ := zpow_pos (by norm_num) _
  rcases eq_or_lt_of_le hm with he | hlt
  · rw [← he] at hy0 ⊢
    apply mul_le_mul_of_nonneg_left _ (le_of_lt hpx)
    linarith
  · have h1 : (2 : ℚ) ^ (⌊x⌋ + 1) ≤ 2 ^ ⌊y⌋ := zpow_le_zpow_right₀ (by norm_num) (by omega)
    rw [zpow_add_one₀ (by norm_num)] at h1
    nlinarith

theorem stdJuce_powTwoMonotone : stdJuce.PowTwoMonotone := fun x y h => powLin_two_monotone x y h

/-- C20 as stated fails: on a source of N = 16777220 samples, where `(float) (N - 1)`
is N, a voice with live position 1 and 2 unison voices spawns the main grain and one
copy, both at position N, above N - 1. -/
theorem C20_unison_copy_above_last_index :
    (spawnGrain (longSourceVoice 2)).activeGrains.map (fun g => g.position) =
        [16777220, 16777220] ∧
      ¬ (∀ g ∈ (spawnGrain (longSourceVoice 2)).activeGrains,
        0 ≤ g.position ∧ g.position ≤ ((rampSource 16777220).numSamples : ℚ) - 1) := by
  have h : (spawnGrain (longSourceVoice 2)).activeGrains.map (fun g => g.position) =
      [16777220, 16777220] := by decide!
  refine ⟨h, ?_⟩
  intro hall
  have hm : ∀ x ∈ (spawnGrain (longSourceVoice 2)).activeGrains.map (fun g => g.position),
      x ≤ ((rampSource 16777220).numSamples : ℚ) - 1 := by
    intro x hx
    obtain ⟨g, hg, rfl⟩ := List.mem_map.mp hx
    exact (hall g hg).2
  have h3 := hm 16777220 (by rw [h]; simp)
  norm_num [rampSource] at h3

/-- C20, amended: with a non-empty source of `N` samples and `n = (int) unisonVoices > 1`,
`spawnGrain` appends after the main grain at most `n - 1` copies (then evicts the
oldest grain if more than 20 remain); when the generator draws in `[0, 1)`, each copy
has a position in `[0, (float) (N - 1)]` at most `0.01 * (float) N` from the main
grain's (for `N` up to 2^24, where both conversions are exact: in `[0, N - 1]` and at
most `0.01 * N` away), pan gains in `[0, 1]`, and the increment of the main grain times
`pow (2, d / 12)` for a detune `d` in `[-0.05, 0.05]`, which for a monotone `pow (2, .)`
lies between `pow (2, -0.05 / 12)` and `pow (2, 0.05 / 12)`. -/
theorem C20_unison_copies (v : Voice X) (src : AudioBuffer) (hsrc : v.audioSource = some src)
    (hn : src.numSamples ≠ 0) (hu : 1 < toInt v.parameters.unisonVoices)
    (hdraw : X.DrawsInUnit) (hpow : X.PowTwoMonotone) :
    ∃ extra : List Grain,
      (spawnGrain v).activeGrains =
        (if 20 < (v.activeGrains ++ (spawnMainGrain src v).1 :: extra).length then
          (v.activeGrains ++ (spawnMainGrain src v).1 :: extra).tail
        else v.activeGrains ++ (spawnMainGrain src v).1 :: extra) ∧
      (extra.length : Int) ≤ toInt v.parameters.unisonVoices - 1 ∧
      ∀ g ∈ extra,
        (0 ≤ g.position ∧ g.position ≤ floatOfInt ((src.numSamples : Int) - 1)) ∧
        |g.position - (spawnMainGrain src v).1.position| ≤
          1 / 100 * floatOfInt (src.numSamples : Int) ∧
        (src.numSamples ≤ 16777216 →
          g.position ≤ (src.numSamples : ℚ) - 1 ∧
          |g.position - (spawnMainGrain src v).1.position| ≤ 1 / 100 * (src.numSamples : ℚ)) ∧
        (∃ factor : ℚ, g.increment = (spawnMainGrain src v).1.increment * factor ∧
          X.pow 2 (-(1 / 20) / 12) ≤ factor ∧ factor ≤ X.pow 2 (1 / 20 / 12)) ∧
        (0 ≤ g.panL ∧ g.panL ≤ 1) ∧ (0 ≤ g.panR ∧ g.panR ≤ 1) := by
  have hN : 0 < src.numSamples := Nat.pos_of_ne_zero hn
  have hNq : (0 : ℚ) ≤ floatOfInt ((src.numSamples : Int) - 1) :=
    floatOfInt_pred_nonneg src.numSamples hN
  have hmain : 0 ≤ (spawnMainGrain src v).1.position ∧
      (spawnMainGrain src v).1.position ≤ floatOfInt ((src.numSamples : Int) - 1) := by
    obtain ⟨x, hx⟩ := spawnMainGrain_position src v
    rw [hx]
    exact jlimit_mem _ _ _ hNq
  obtain ⟨extra, he, hlen, hall⟩ := spawnAppend_extra src v (spawnMainGrain src v)
  refine ⟨extra, ?_, ?_, ?_⟩
  · rw [spawnGrain_eq v src hsrc hn]
    show (if (spawnAppend src v (spawnMainGrain src v)).1.length > 20 then _ else _) = _
    rw [he]
  · rw [max_eq_right (by omega)] at hlen
    exact hlen
  · intro g hg
    obtain ⟨j, r, hj1, hjn, hcopy⟩ := hall g hg
    obtain ⟨hp, hdist, ⟨d, hd0, hd1, hinc⟩, hl, hr⟩ :=
      unisonCopy_bounds src.numSamples v.parameters.stereoWidth _ _ g j r hdraw hN hmain hj1
        hjn hcopy
    refine ⟨hp, hdist, fun h24 => ?_, ⟨X.pow 2 (d / 12), hinc, hpow _ _ ?_, hpow _ _ ?_⟩, hl, hr⟩
    · have hp2 := hp.2
      have hdist2 := hdist
      rw [floatOfInt_pred src.numSamples hN h24] at hp2
      rw [floatOfInt_natCast src.numSamples h24] at hdist2
      exact ⟨hp2, hdist2⟩
    · linarith
    · linarith

/-- C20, amended, at a fresh voice with 4 unison voices on a 100-sample source. -/
theorem C20_unison_copies_witness :
    ∃ extra : List Grain,
      (spawnGrain (freshVoice (some (rampSource 100)) 44100 { unisonVoices := 4 })).activeGrains =
        (if 20 < ((freshVoice (some (rampSource 100)) 44100 { unisonVoices := 4 }).activeGrains ++
            (spawnMainGrain (rampSource 100)
              (freshVoice (some (rampSource 100)) 44100 { unisonVoices := 4 })).1 ::
              extra).length then
          ((freshVoice (some (rampSource 100)) 44100 { unisonVoices := 4 }).activeGrains ++
            (spawnMainGrain (rampSource 100)
              (freshVoice (some (rampSource 100)) 44100 { unisonVoices := 4 })).1 :: extra).tail
        else (freshVoice (some (rampSource 100)) 44100 { unisonVoices := 4 }).activeGrains ++
          (spawnMainGrain (rampSource 100)
            (freshVoice (some (rampSource 100)) 44100 { unisonVoices := 4 })).1 :: extra) ∧
      (extra.length : Int) ≤
        toInt (freshVoice (some (rampSource 100)) 44100 { unisonVoices := 4 }).parameters.unisonVoices
          - 1 ∧
      ∀ g ∈ extra,
        (0 ≤ g.position ∧ g.position ≤ ((rampSource 100).numSamples : ℚ) - 1) ∧
        |g.position - (spawnMainGrain (rampSource 100)
            (freshVoice (some (rampSource 100)) 44100 { unisonVoices := 4 })).1.position| ≤
          1 / 100 * ((rampSource 100).numSamples : ℚ) ∧
        (∃ factor : ℚ, g.increment = (spawnMainGrain (rampSource 100)
            (freshVoice (some (rampSource 100)) 44100 { unisonVoices := 4 })).1.increment * factor ∧
          stdJuce.pow 2 (-(1 / 20) / 12) ≤ factor ∧ factor ≤ stdJuce.pow 2 (1 / 20 / 12)) ∧
        (0 ≤ g.panL ∧ g.panL ≤ 1) ∧ (0 ≤ g.panR ∧ g.panR ≤ 1) := by
  obtain ⟨extra, h1, h2, h3⟩ :=
    C20_unison_copies (freshVoice (some (rampSource 100)) 44100 { unisonVoices := 4 })
      (rampSource 100) rfl (by decide) (by decide!) stdJuce_drawsInUnit stdJuce_powTwoMonotone
  exact ⟨extra, h1, h2, fun g hg =>
    ⟨⟨(h3 g hg).1.1, ((h3 g hg).2.2.1 (by decide)).1⟩, ((h3 g hg).2.2.1 (by decide)).2,
      (h3 g hg).2.2.2⟩⟩

/-! ## C30: the Triangle and Saw shapes of an LFO -/

/-- C30: for every phase `getLFOShape` gives the Triangle shape (1) and the Saw shape
(3) the same value `2 * (phase / (2 * pi)) - 1` and the same voice; for a positive
`pi` this value is -1 at phase 0, 1 at phase `2 * pi`, and increases with the phase. -/
theorem C30_triangle_is_saw (v : Voice X) (hpi : 0 < X.pi) :
    (∀ phase : ℚ, getLFOShape v phase 1 = getLFOShape v phase 3) ∧
    (∀ phase : ℚ, (getLFOShape v phase 1).1 = 2 * (phase / (2 * X.pi)) - 1) ∧
    (getLFOShape v 0 1).1 = -1 ∧
    (getLFOShape v (2 * X.pi) 1).1 = 1 ∧
    (∀ a b : ℚ, a < b → (getLFOShape v a 1).1 < (getLFOShape v b 1).1) := by
  have hval : ∀ phase : ℚ, (getLFOShape v phase 1).1 = 2 * (phase / (2 * X.pi)) - 1 := by
    intro phase
    unfold getLFOShape
    simp
  have h2pi : (0 : ℚ) < 2 * X.pi := by linarith
  refine ⟨?_, hval, ?_, ?_, ?_⟩
  · intro phase
    unfold getLFOShape
    simp
  · rw [hval]; simp
  · rw [hval, div_self (ne_of_gt h2pi)]; norm_num
  · intro a b hab
    rw [hval, hval]
    have : a / (2 * X.pi) < b / (2 * X.pi) := div_lt_div_of_pos_right hab h2pi
    linarith

/-- C30 at a fresh voice: the Triangle value at phase pi/2 is -1/2, that of a rising
ramp. -/
theorem C30_triangle_is_saw_witness :
    (getLFOShape (freshVoice (some (rampSource 100)) 44100 {}) (stdJuce.pi / 2) 1).1 = -1 / 2 ∧
    getLFOShape (freshVoice (some (rampSource 100)) 44100 {}) (stdJuce.pi / 2) 1 =
      getLFOShape (freshVoice (some (rampSource 100)) 44100 {}) (stdJuce.pi / 2) 3 :=
  ⟨((C30_triangle_is_saw (freshVoice (some (rampSource 100)) 44100 {})
      (by decide!)).2.1 (stdJuce.pi / 2)).trans (by decide!),
    (C30_triangle_is_saw (freshVoice (some (rampSource 100)) 44100 {})
      (by decide!)).1 (stdJuce.pi / 2)⟩

/-! ## C25: glide -/

theorem calculateGrainPosition_glide (v : Voice X) (hg : 1 / 100 < v.parameters.glide) :
    (calculateGrainPosition v).1 =
        v.currentPlayPosition +
          (glideTarget v - v.currentPlayPosition) * (1 - v.parameters.glide * (99 / 100)) ∧
      (calculateGrainPosition v).2.currentPlayPosition = (calculateGrainPosition v).1 := by
  unfold calculateGrainPosition glideTarget
  dsimp only
  rw [if_pos hg]
  exact ⟨rfl, rfl⟩

/-- C25: for a glide `g` with `0.01 < g <= 1`, tracked position `p` and freeze-adjusted
target `t`, `calculateGrainPosition` returns `p' = p + (t - p) * (1 - 0.99 * g)` and
stores it as the tracked position; `|p' - t| = 0.99 * g * |p - t|`, at most `|p - t|`,
with `p'` on the same side of `t` as `p`; and for a larger glide (up to 1) the remaining
distance is at least as large. -/
theorem C25_glide_step (v : Voice X) (hg : 1 / 100 < v.parameters.glide)
    (hg1 : v.parameters.glide ≤ 1) :
    (calculateGrainPosition v).1 =
      v.currentPlayPosition +
        (glideTarget v - v.currentPlayPosition) * (1 - 99 / 100 * v.parameters.glide) ∧
    (calculateGrainPosition v).2.currentPlayPosition = (calculateGrainPosition v).1 ∧
    |(calculateGrainPosition v).1 - glideTarget v| =
      99 / 100 * v.parameters.glide * |v.currentPlayPosition - glideTarget v| ∧
    |(calculateGrainPosition v).1 - glideTarget v| ≤ |v.currentPlayPosition - glideTarget v| ∧
    0 ≤ ((calculateGrainPosition v).1 - glideTarget v) *
      (v.currentPlayPosition - glideTarget v) ∧
    (∀ g2 : ℚ, v.parameters.glide ≤ g2 → g2 ≤ 1 →
      |(calculateGrainPosition v).1 - glideTarget v| ≤
        |(calculateGrainPosition (v.withGlide g2)).1 - glideTarget (v.withGlide g2)|) := by
  obtain ⟨h1, h2⟩ := calculateGrainPosition_glide v hg
  have hdiff : ∀ w : Voice X, 1 / 100 < w.parameters.glide →
      (calculateGrainPosition w).1 - glideTarget w =
        99 / 100 * w.parameters.glide * (w.currentPlayPosition - glideTarget w) := by
    intro w hw
    rw [(calculateGrainPosition_glide w hw).1]
    ring
  have habs : ∀ w : Voice X, 1 / 100 < w.parameters.glide →
      |(calculateGrainPosition w).1 - glideTarget w| =
        99 / 100 * w.parameters.glide * |w.currentPlayPosition - glideTarget w| := by
    intro w hw
    rw [hdiff w hw, abs_mul, abs_of_nonneg (by linarith : (0 : ℚ) ≤ 99 / 100 * w.parameters.glide)]
  refine ⟨by rw [h1]; ring, h2, habs v hg, ?_, ?_, ?_⟩
  · rw [habs v hg]
    have := abs_nonneg (v.currentPlayPosition - glideTarget v)
    nlinarith
  · rw [hdiff v hg]
    nlinarith [mul_self_nonneg (v.currentPlayPosition - glideTarget v)]
  · intro g2 h12 h21
    have hw : 1 / 100 < (v.withGlide g2).parameters.glide := lt_of_lt_of_le hg h12
    rw [habs v hg, habs (v.withGlide g2) hw]
    have hsame : |(v.withGlide g2).currentPlayPosition - glideTarget (v.withGlide g2)| =
        |v.currentPlayPosition - glideTarget v| := rfl
    rw [hsame]
    have := abs_nonneg (v.currentPlayPosition - glideTarget v)
    have hg2 : (v.withGlide g2).parameters.glide = g2 := rfl
    rw [hg2]
    nlinarith

/-- C25 at a fresh voice with glide 1/2, tracked position 0 and live position 1/2: the
call returns 0 + (1/2 - 0) * (1 - 0.495) = 101/400. -/
theorem C25_glide_step_witness :
    (calculateGrainPosition (freshVoice (some (rampSource 100)) 44100 { glide := 1 / 2 })).1 =
      101 / 400 :=
  ((C25_glide_step (freshVoice (some (rampSource 100)) 44100 { glide := 1 / 2 })
    (by decide!) (by decide!)).1).trans (by decide!)

/-! ## C26: linear interpolation -/

theorem jmap5_unit (f s0 s1 : ℚ) : jmap5 f 0 1 s0 s1 = s0 + f * (s1 - s0) := by
  unfold jmap5
  simp only [sub_zero, div_one]
  ring

theorem getInterpolatedSample_eq (src : AudioBuffer) (channel : Nat) (position : ℚ)
    (hch : channel < src.numChannels) (h0 : 0 ≤ position)
    (hN : position < (src.numSamples : ℚ)) :
    getInterpolatedSample (some src) channel position =
      src.getSample channel ⌊position⌋.toNat +
        (position - (⌊position⌋.toNat : ℚ)) *
          (src.getSample channel (min (⌊position⌋.toNat + 1) (src.numSamples - 1)) -
            src.getSample channel ⌊position⌋.toNat) := by
  have hfl0 : 0 ≤ ⌊position⌋ := Int.floor_nonneg.mpr h0
  have hflN : ⌊position⌋ < (src.numSamples : Int) := by
    rw [Int.floor_lt]
    exact_mod_cast hN
  have hNpos : 0 < src.numSamples := by
    have : ((0 : Int) : ℚ) < ((src.numSamples : Int) : ℚ) := by
      push_cast
      exact lt_of_le_of_lt h0 hN
    omega
  have hcast : ((⌊position⌋.toNat : Nat) : Int) = ⌊position⌋ := Int.toNat_of_nonneg hfl0
  have hcastq : ((⌊position⌋.toNat : Nat) : ℚ) = ((⌊position⌋ : Int) : ℚ) :=
    (Int.cast_natCast _).symm.trans (congrArg (fun z : Int => (z : ℚ)) hcast)
  have hidx1 : (jmin (⌊position⌋ + 1) ((src.numSamples : Int) - 1)).toNat =
      min (⌊position⌋.toNat + 1) (src.numSamples - 1) := by
    unfold jmin
    split_ifs with hlt <;> omega
  unfold getInterpolatedSample
  dsimp only
  rw [if_neg (by omega), toInt_of_nonneg position h0, if_neg (by omega), jmap5_unit, hidx1,
    hcastq]

/-- C26 as stated fails: at position -1/2 the conversion to `int` truncates to index 0,
the range test passes, and on the source with samples 0, 1, 2, 3 the function returns
-1/2, not 0. -/
theorem C26_negative_position_not_zero :
    ¬ getInterpolatedSample (some (rampSource 4)) 0 (-1 / 2) = 0 := by
  have h : getInterpolatedSample (some (rampSource 4)) 0 (-1 / 2) = -1 / 2 := by decide!
  rw [h]
  norm_num

/-- C26, amended: for a valid channel and `0 <= position < N` the function returns
`s[i0] + f * (s[i1] - s[i0])` with `i0 = floor (position)`, `i1 = min (i0 + 1, N - 1)`,
`f = position - i0`; hence `s[i]` at an integer position `i`, `s[N - 1]` on `[N - 1, N)`,
and a value between the two samples. It returns 0 for a missing source, an out-of-range
channel, a position `<= -1` and a position `>= N`; for `-1 < position < 0` the truncated
index is 0 and it returns `s[0] + position * (s[i1] - s[0])`. -/
theorem C26_interpolation (src : AudioBuffer) (channel : Nat)
    (hch : channel < src.numChannels) :
    (∀ position : ℚ, 0 ≤ position → position < (src.numSamples : ℚ) →
      getInterpolatedSample (some src) channel position =
        src.getSample channel ⌊position⌋.toNat +
          (position - (⌊position⌋.toNat : ℚ)) *
            (src.getSample channel (min (⌊position⌋.toNat + 1) (src.numSamples - 1)) -
              src.getSample channel ⌊position⌋.toNat)) ∧
    (∀ i : Nat, i < src.numSamples →
      getInterpolatedSample (some src) channel (i : ℚ) = src.getSample channel i) ∧
    (∀ position : ℚ, (src.numSamples : ℚ) - 1 ≤ position → 0 ≤ position →
      position < (src.numSamples : ℚ) →
      getInterpolatedSample (some src) channel position =
        src.getSample channel (src.numSamples - 1)) ∧
    (∀ position : ℚ, 0 ≤ position → position < (src.numSamples : ℚ) →
      min (src.getSample channel ⌊position⌋.toNat)
          (src.getSample channel (min (⌊position⌋.toNat + 1) (src.numSamples - 1))) ≤
        getInterpolatedSample (some src) channel position ∧
      getInterpolatedSample (some src) channel position ≤
        max (src.getSample channel ⌊position⌋.toNat)
          (src.getSample channel (min (⌊position⌋.toNat + 1) (src.numSamples - 1)))) ∧
    (∀ (c : Nat) (position : ℚ), src.numChannels ≤ c →
      getInterpolatedSample (some src) c position = 0) ∧
    (∀ position : ℚ, position ≤ -1 → getInterpolatedSample (some src) channel position = 0) ∧
    (∀ position : ℚ, (src.numSamples : ℚ) ≤ position →
      getInterpolatedSample (some src) channel position = 0) ∧
    (∀ (c : Nat) (position : ℚ), getInterpolatedSample none c position = 0) ∧
    (∀ position : ℚ, -1 < position → position < 0 → 0 < src.numSamples →
      getInterpolatedSample (some src) channel position =
        src.getSample channel 0 +
          position * (src.getSample channel (min 1 (src.numSamples - 1)) -
            src.getSample channel 0)) := by
  refine ⟨fun p h0 hN => getInterpolatedSample_eq src channel p hch h0 hN, ?_, ?_, ?_, ?_, ?_,
    ?_, fun _ _ => rfl, ?_⟩
  · intro i hi
    have h0 : (0 : ℚ) ≤ (i : ℚ) := Nat.cast_nonneg i
    have hN : (i : ℚ) < (src.numSamples : ℚ) := by exact_mod_cast hi
    rw [getInterpolatedSample_eq src channel _ hch h0 hN]
    have hf : ⌊(i : ℚ)⌋.toNat = i := by
      rw [Int.floor_natCast]
      simp
    rw [hf, sub_self, zero_mul, add_zero]
  · intro p hlo h0 hN
    rw [getInterpolatedSample_eq src channel p hch h0 hN]
    have hNpos : (1 : ℚ) ≤ (src.numSamples : ℚ) := by
      have : (0 : ℚ) < (src.numSamples : ℚ) := lt_of_le_of_lt h0 hN
      exact_mod_cast this
    have hfl : ⌊p⌋ = (src.numSamples : Int) - 1 := by
      rw [Int.floor_eq_iff]
      push_cast
      constructor <;> linarith
    have hf : ⌊p⌋.toNat = src.numSamples - 1 := by
      rw [hfl]
      omega
    have hmin : min (src.numSamples - 1 + 1) (src.numSamples - 1) = src.numSamples - 1 := by
      omega
    rw [hf, hmin, sub_self, mul_zero, add_zero]
  · intro p h0 hN
    rw [getInterpolatedSample_eq src channel p hch h0 hN]
    have hfl0 : 0 ≤ ⌊p⌋ := Int.floor_nonneg.mpr h0
    have hcastq : ((⌊p⌋.toNat : Nat) : ℚ) = ((⌊p⌋ : Int) : ℚ) :=
      (Int.cast_natCast _).symm.trans
        (congrArg (fun z : Int => (z : ℚ)) (Int.toNat_of_nonneg hfl0))
    have hf0 : 0 ≤ p - (⌊p⌋.toNat : ℚ) := by
      rw [hcastq]; exact sub_nonneg.mpr (Int.floor_le p)
    have hf1 : p - (⌊p⌋.toNat : ℚ) ≤ 1 := by
      rw [hcastq]; linarith [Int.lt_floor_add_one p]
    generalize src.getSample channel ⌊p⌋.toNat = s0
    generalize src.getSample channel (min (⌊p⌋.toNat + 1) (src.numSamples - 1)) = s1
    generalize p - (⌊p⌋.toNat : ℚ) = f at hf0 hf1
    rcases le_total s0 s1 with h | h
    · rw [min_eq_left h, max_eq_right h]
      constructor <;> nlinarith
    · rw [min_eq_right h, max_eq_left h]
      constructor <;> nlinarith
  · intro c p hc
    unfold getInterpolatedSample
    dsimp only
    rw [if_pos (Or.inl hc)]
  · intro p hp
    unfold getInterpolatedSample
    dsimp only
    split_ifs with h1 h2
    · rfl
    · rfl
    · exfalso
      apply h2
      left
      have hneg : ¬ 0 ≤ p := by linarith
      unfold toInt
      rw [if_neg hneg]
      have : ⌈p⌉ ≤ -1 := by
        rw [Int.ceil_le]
        push_cast
        exact hp
      omega
  · intro p hp
    unfold getInterpolatedSample
    dsimp only
    split_ifs with h1 h2
    · rfl
    · rfl
    · exfalso
      apply h2
      right
      have h0 : 0 ≤ p := le_trans (Nat.cast_nonneg _) hp
      rw [toInt_of_nonneg p h0, Int.le_floor]
      exact_mod_cast hp
  · intro p hlo hhi hNpos
    have hneg : ¬ 0 ≤ p := not_le.mpr hhi
    have hceil : ⌈p⌉ = 0 := by
      rw [Int.ceil_eq_iff]
      push_cast
      constructor <;> linarith
    have hidx1 : (jmin ((0 : Int) + 1) ((src.numSamples : Int) - 1)).toNat =
        min 1 (src.numSamples - 1) := by
      unfold jmin
      split_ifs with hlt <;> omega
    unfold getInterpolatedSample
    dsimp only
    unfold toInt
    rw [if_neg (by omega), if_neg hneg, hceil, if_neg (by omega), jmap5_unit, hidx1]
    simp

/-- C26, amended, on the source with samples 0, 1, 2, 3: the value at position 5/2 is
5/2, halfway between samples 2 and 3. -/
theorem C26_interpolation_witness :
    getInterpolatedSample (some (rampSource 4)) 0 (5 / 2) = 5 / 2 :=
  ((C26_interpolation (rampSource 4) 0 (by decide)).1 (5 / 2) (by norm_num)
    (by norm_num [rampSource])).trans (by decide!)

/-! ## C22: the range of an LFO phase -/

theorem getLFOShape_phases (v : Voice X) (phase : ℚ) (shapeType : Int) :
    (getLFOShape v phase shapeType).2.lfoPhase = v.lfoPhase ∧
      (getLFOShape v phase shapeType).2.lfo2Phase = v.lfo2Phase := by
  unfold getLFOShape
  split_ifs <;> exact ⟨rfl, rfl⟩

theorem generateLFO_phases_zero (v : Voice X) :
    (generateLFO v 0).2.lfoPhase =
        (if v.lfoPhase + lfoPhaseIncrement X v.parameters.lfoRate v.currentSampleRate > 2 * X.pi
          then v.lfoPhase + lfoPhaseIncrement X v.parameters.lfoRate v.currentSampleRate -
            2 * X.pi
          else v.lfoPhase + lfoPhaseIncrement X v.parameters.lfoRate v.currentSampleRate) ∧
      (generateLFO v 0).2.lfo2Phase = v.lfo2Phase := by
  constructor
  · unfold generateLFO lfoPhaseIncrement
    simp only [if_true]
  · unfold generateLFO
    simp only [if_true]
    exact (getLFOShape_phases v _ _).2

theorem generateLFO_phases_one (v : Voice X) :
    (generateLFO v 1).2.lfo2Phase =
        (if v.lfo2Phase + lfoPhaseIncrement X v.parameters.lfo2Rate v.currentSampleRate >
            2 * X.pi
          then v.lfo2Phase + lfoPhaseIncrement X v.parameters.lfo2Rate v.currentSampleRate -
            2 * X.pi
          else v.lfo2Phase + lfoPhaseIncrement X v.parameters.lfo2Rate v.currentSampleRate) ∧
      (generateLFO v 1).2.lfoPhase = v.lfoPhase := by
  constructor
  · unfold generateLFO lfoPhaseIncrement
    simp only [one_ne_zero, if_false]
  · unfold generateLFO
    simp only [one_ne_zero, if_false]
    exact (getLFOShape_phases v _ _).1

theorem lfoPhaseIncrement_range (rate sampleRate : ℚ) (hpi : 0 < X.pi) (h0 : 0 ≤ rate)
    (h1 : rate ≤ 1) (hsr : 20 ≤ sampleRate) :
    0 < lfoPhaseIncrement X rate sampleRate ∧ lfoPhaseIncrement X rate sampleRate ≤ 2 * X.pi := by
  unfold lfoPhaseIncrement jmap
  have hsr0 : (0 : ℚ) < sampleRate := by linarith
  have hr0 : (0 : ℚ) < 1 / 10 + rate * (20 - 1 / 10) := by nlinarith
  have hr1 : 1 / 10 + rate * (20 - 1 / 10) ≤ 20 := by nlinarith
  constructor
  · apply div_pos _ hsr0
    nlinarith
  · rw [div_le_iff₀ hsr0]
    nlinarith

theorem wrapped_phase_range (phase inc twoPi : ℚ) (h0 : 0 ≤ phase) (h1 : phase ≤ twoPi)
    (hi0 : 0 < inc) (hi1 : inc ≤ twoPi) :
    0 < (if phase + inc > twoPi then phase + inc - twoPi else phase + inc) ∧
      (if phase + inc > twoPi then phase + inc - twoPi else phase + inc) ≤ twoPi := by
  split_ifs with h
  · constructor <;> linarith
  · constructor <;> linarith

/-- C22 as stated fails: at a sample rate of 20 Hz and rate parameter 1 (20 Hz) the
increment is `2 * pi`; from phase 0 the sum is exactly `2 * pi`, the wrap test
`phase > 2 * pi` is false, and the phase after the call is `2 * pi`, outside
`[0, 2 * pi)`. -/
theorem C22_phase_reaches_two_pi :
    ¬ ((generateLFO (freshVoice (some (rampSource 100)) 20 { lfoRate := 1 }) 0).2.lfoPhase <
      2 * stdJuce.pi) := by
  have h : (generateLFO (freshVoice (some (rampSource 100)) 20 { lfoRate := 1 }) 0).2.lfoPhase =
      2 * stdJuce.pi := by decide!
  rw [h]
  exact lt_irrefl _

/-- C22, amended: for a positive `pi`, a sample rate of at least 20 Hz and a rate
parameter in `[0, 1]`, a call of `generateLFO` takes a phase in `[0, 2 * pi]` to a phase
in `(0, 2 * pi]`, for LFO 1 and for LFO 2 alike (the phase is the old phase plus the
increment, minus `2 * pi` when the sum is above `2 * pi`, so a sum of exactly `2 * pi`
stays), and leaves the phase of the other LFO unchanged. -/
theorem C22_phase_range (v : Voice X) (hpi : 0 < X.pi) (hsr : 20 ≤ v.currentSampleRate) :
    (0 ≤ v.parameters.lfoRate → v.parameters.lfoRate ≤ 1 →
      0 ≤ v.lfoPhase → v.lfoPhase ≤ 2 * X.pi →
      0 < (generateLFO v 0).2.lfoPhase ∧ (generateLFO v 0).2.lfoPhase ≤ 2 * X.pi) ∧
    (0 ≤ v.parameters.lfo2Rate → v.parameters.lfo2Rate ≤ 1 →
      0 ≤ v.lfo2Phase → v.lfo2Phase ≤ 2 * X.pi →
      0 < (generateLFO v 1).2.lfo2Phase ∧ (generateLFO v 1).2.lfo2Phase ≤ 2 * X.pi) ∧
    (generateLFO v 0).2.lfo2Phase = v.lfo2Phase ∧
    (generateLFO v 1).2.lfoPhase = v.lfoPhase ∧
    (generateLFO v 0).2.lfoPhase =
      (if v.lfoPhase + lfoPhaseIncrement X v.parameters.lfoRate v.currentSampleRate > 2 * X.pi
        then v.lfoPhase + lfoPhaseIncrement X v.parameters.lfoRate v.currentSampleRate - 2 * X.pi
        else v.lfoPhase + lfoPhaseIncrement X v.parameters.lfoRate v.currentSampleRate) ∧
    (generateLFO v 1).2.lfo2Phase =
      (if v.lfo2Phase + lfoPhaseIncrement X v.parameters.lfo2Rate v.currentSampleRate > 2 * X.pi
        then v.lfo2Phase + lfoPhaseIncrement X v.parameters.lfo2Rate v.currentSampleRate -
          2 * X.pi
        else v.lfo2Phase + lfoPhaseIncrement X v.parameters.lfo2Rate v.currentSampleRate) := by
  refine ⟨?_, ?_, (generateLFO_phases_zero v).2, (generateLFO_phases_one v).2,
    (generateLFO_phases_zero v).1, (generateLFO_phases_one v).1⟩
  · intro h0 h1 hp0 hp1
    obtain ⟨hi0, hi1⟩ := lfoPhaseIncrement_range (X := X) _ _ hpi h0 h1 hsr
    rw [(generateLFO_phases_zero v).1]
    exact wrapped_phase_range _ _ _ hp0 hp1 hi0 hi1
  · intro h0 h1 hp0 hp1
    obtain ⟨hi0, hi1⟩ := lfoPhaseIncrement_range (X := X) _ _ hpi h0 h1 hsr
    rw [(generateLFO_phases_one v).1]
    exact wrapped_phase_range _ _ _ hp0 hp1 hi0 hi1

/-- C22, amended, at a fresh voice at 44.1 kHz with the default rates. -/
theorem C22_phase_range_witness :
    (0 < (generateLFO (freshVoice (some (rampSource 100)) 44100 {}) 0).2.lfoPhase ∧
      (generateLFO (freshVoice (some (rampSource 100)) 44100 {}) 0).2.lfoPhase ≤
        2 * stdJuce.pi) ∧
    (generateLFO (freshVoice (some (rampSource 100)) 44100 {}) 0).2.lfo2Phase =
      (freshVoice (some (rampSource 100)) 44100 {}).lfo2Phase :=
  ⟨(C22_phase_range (freshVoice (some (rampSource 100)) 44100 {}) (by decide!)
      (by decide!)).1 (by decide!) (by decide!) (by decide!) (by decide!),
    (C22_phase_range (freshVoice (some (rampSource 100)) 44100 {}) (by decide!)
      (by decide!)).2.2.1⟩


/-! ## The second LFO, the LFO clock and the scan phase -/

/-- C21 (code deviates): `spawnGrain` calls `generateLFO (1)` and drops the value; the
fields `lfo2Target` and `lfo2Amount` are never read. On a 100-sample source at 44.1 kHz
with LFO 2 at full amount and the Square shape, the value of LFO 2 is 1, yet for each of
the targets position (0), pitch (1) and size (2) the main grain has start position 99/2,
increment 1 and 44320 samples, exactly as with both LFOs off; LFO 1 with the same
settings moves the position to 159/2, doubles the increment, and lengthens the grain to
66480 samples. -/
theorem C21_second_lfo_is_ignored :
    (generateLFO (generateLFO (lfo2Voice 1) 0).2 1).1 = 1 ∧
      (spawnMainGrain (rampSource 100) (lfo2Voice 0)).1.summary = (99 / 2, 1, 44320) ∧
      (spawnMainGrain (rampSource 100) (lfo2Voice 1)).1.summary = (99 / 2, 1, 44320) ∧
      (spawnMainGrain (rampSource 100) (lfo2Voice 2)).1.summary = (99 / 2, 1, 44320) ∧
      (spawnMainGrain (rampSource 100) (lfo1Voice 0)).1.summary = (159 / 2, 1, 44320) ∧
      (spawnMainGrain (rampSource 100) (lfo1Voice 1)).1.summary = (99 / 2, 2, 44320) ∧
      (spawnMainGrain (rampSource 100) (lfo1Voice 2)).1.summary = (99 / 2, 1, 66480) := by
  refine ⟨?_, ?_, ?_, ?_, ?_, ?_, ?_⟩ <;> decide!

theorem updateGrainsSample_lfoPhase (src : AudioBuffer) (v : Voice X) :
    (updateGrainsSample src v).1.lfoPhase =
      (spawnStep (v.parameters.density * 50 / v.currentSampleRate) v).lfoPhase := by
  unfold updateGrainsSample processChorus processFilter
  dsimp only
  split_ifs <;> rfl

theorem updateGrainsSample_lfo2Phase (src : AudioBuffer) (v : Voice X) :
    (updateGrainsSample src v).1.lfo2Phase =
      (spawnStep (v.parameters.density * 50 / v.currentSampleRate) v).lfo2Phase := by
  unfold updateGrainsSample processChorus processFilter
  dsimp only
  split_ifs <;> rfl

theorem spawnStep_of_lt (spawnIncrement : ℚ) (v : Voice X)
    (h : v.grainSpawnTimer + spawnIncrement < 1) :
    spawnStep spawnIncrement v = v ∨
      spawnStep spawnIncrement v =
        { v with grainSpawnTimer := v.grainSpawnTimer + spawnIncrement } := by
  unfold spawnStep
  split_ifs with hc
  · exact Or.inr (spawnLoop_of_lt _ _ h)
  · exact Or.inl rfl

/-- C23 (code deviates): `generateLFO` is called from `spawnGrain` only, so the LFO phases
move once per spawned grain and stand still on every tick that spawns nothing. On every
tick whose timer stays below 1 both phases are unchanged; for a sounding voice at
44.1 kHz with the default density (a spawn every 1764 ticks) the per-call increment is
positive, three ticks leave both phases and the two grains alone, and a call of
`spawnGrain` adds exactly the increment to the phase of LFO 1. -/
theorem C23_lfo_advances_per_spawn :
    (∀ (Y : Juce) (src : AudioBuffer) (v : Voice Y),
        v.grainSpawnTimer + v.parameters.density * 50 / v.currentSampleRate < 1 →
        (updateGrainsSample src v).1.lfoPhase = v.lfoPhase ∧
          (updateGrainsSample src v).1.lfo2Phase = v.lfo2Phase) ∧
      0 < lfoPhaseIncrement stdJuce soundingVoice.parameters.lfoRate
        soundingVoice.currentSampleRate ∧
      (ticks (rampSource 100) 3 soundingVoice).lfoPhase = soundingVoice.lfoPhase ∧
      (ticks (rampSource 100) 3 soundingVoice).lfo2Phase = soundingVoice.lfo2Phase ∧
      (ticks (rampSource 100) 3 soundingVoice).activeGrains.length = 2 ∧
      (spawnGrain soundingVoice).lfoPhase =
        soundingVoice.lfoPhase + lfoPhaseIncrement stdJuce soundingVoice.parameters.lfoRate
          soundingVoice.currentSampleRate := by
  refine ⟨?_, ?_, ?_, ?_, ?_, ?_⟩
  · intro Y src v h
    rw [updateGrainsSample_lfoPhase, updateGrainsSample_lfo2Phase]
    rcases spawnStep_of_lt _ v h with he | he <;> rw [he] <;> exact ⟨rfl, rfl⟩
  all_goals decide!

theorem wrapDown_lt_one (fuel : Nat) (x : ℚ) (h : ⌊x⌋.toNat ≤ fuel) : wrapDown fuel x < 1 := by
  induction fuel generalizing x with
  | zero =>
    unfold wrapDown
    by_contra hc
    have h1 : (1 : Int) ≤ ⌊x⌋ := Int.le_floor.mpr (by exact_mod_cast not_lt.mp hc)
    have h2 : ⌊x⌋.toNat = 0 := Nat.le_zero.mp h
    omega
  | succ n ih =>
    unfold wrapDown
    split_ifs with hc
    · apply ih
      have h1 : ⌊x - 1⌋ = ⌊x⌋ - 1 := Int.floor_sub_one _
      have h2 : (1 : Int) ≤ ⌊x⌋ := Int.le_floor.mpr (by exact_mod_cast hc)
      omega
    · exact not_le.mp hc

theorem wrapDown_nonneg (fuel : Nat) (x : ℚ) (h : 0 ≤ x) : 0 ≤ wrapDown fuel x := by
  induction fuel generalizing x with
  | zero => exact h
  | succ n ih =>
    unfold wrapDown
    split_ifs with hc
    · exact ih _ (by linarith)
    · exact h

theorem wrapUp_nonneg (fuel : Nat) (x : ℚ) (h : ⌈-x⌉.toNat ≤ fuel) : 0 ≤ wrapUp fuel x := by
  induction fuel generalizing x with
  | zero =>
    unfold wrapUp
    by_contra hc
    have h1 : (0 : Int) < ⌈-x⌉ := Int.ceil_pos.mpr (by linarith [not_le.mp hc])
    have h2 : ⌈-x⌉.toNat = 0 := Nat.le_zero.mp h
    omega
  | succ n ih =>
    unfold wrapUp
    split_ifs with hc
    · apply ih
      have h1 : ⌈-(x + 1)⌉ = ⌈-x⌉ - 1 := by
        rw [neg_add, ← sub_eq_add_neg, Int.ceil_sub_one]
      have h2 : (0 : Int) < ⌈-x⌉ := Int.ceil_pos.mpr (by linarith)
      omega
    · exact not_lt.mp hc

theorem wrapUp_lt_one (fuel : Nat) (x : ℚ) (h : x < 1) : wrapUp fuel x < 1 := by
  induction fuel generalizing x with
  | zero => exact h
  | succ n ih =>
    unfold wrapUp
    split_ifs with hc
    · exact ih _ (by linarith)
    · exact h

theorem updateScanPosition_wraps (v : Voice X) (hs : v.parameters.scan > 1 / 100)
    (hm : toInt v.parameters.loopMode ≠ 2) :
    0 ≤ (updateScanPosition v).scanPhase ∧ (updateScanPosition v).scanPhase < 1 := by
  unfold updateScanPosition
  rw [if_pos hs]
  dsimp only
  rw [if_neg hm]
  exact ⟨wrapUp_nonneg _ _ (le_refl _), wrapUp_lt_one _ _ (wrapDown_lt_one _ _ (le_refl _))⟩

theorem updateScanPosition_pingPong (v : Voice X) (hs : v.parameters.scan > 1 / 100)
    (hm : toInt v.parameters.loopMode = 2) :
    (updateScanPosition v).scanPhase =
      jlimit 0 1 (v.scanPhase + v.parameters.scan * (1 / 2) / v.currentSampleRate) := by
  unfold updateScanPosition
  rw [if_pos hs]
  dsimp only
  rw [if_pos hm]

/-- C24 (code deviates): in PingPong mode `updateScanPosition` flips `scanDirection` at
the bounds but never reads it: the step `scan * 0.5 / sampleRate` is always added. With
scan 1 at 44.1 kHz, one step below 1, the first update reaches 1 and flips the direction
to -1; the next two updates leave the phase at 1 and only toggle the direction. For
every voice in PingPong mode with scan above 0.01 and a positive sample rate the phase
never decreases from a value of at most 1, and stays at 1 once there. In the other loop
modes the phase after an update lies in [0, 1). -/
theorem C24_ping_pong_sticks_at_one :
    ((updateScanPosition pingPongVoice).scanPhase = 1 ∧
        (updateScanPosition pingPongVoice).scanDirection = -1) ∧
      ((updateScanPosition (updateScanPosition pingPongVoice)).scanPhase = 1 ∧
        (updateScanPosition (updateScanPosition pingPongVoice)).scanDirection = 1) ∧
      ((updateScanPosition (updateScanPosition (updateScanPosition pingPongVoice))).scanPhase = 1 ∧
        (updateScanPosition (updateScanPosition (updateScanPosition pingPongVoice))).scanDirection
          = -1) ∧
      (∀ (Y : Juce) (v : Voice Y), v.parameters.scan > 1 / 100 →
        toInt v.parameters.loopMode = 2 → 0 < v.currentSampleRate →
        (v.scanPhase ≤ 1 → v.scanPhase ≤ (updateScanPosition v).scanPhase) ∧
          (1 ≤ v.scanPhase → (updateScanPosition v).scanPhase = 1)) ∧
      (∀ (Y : Juce) (v : Voice Y), v.parameters.scan > 1 / 100 →
        toInt v.parameters.loopMode ≠ 2 →
        0 ≤ (updateScanPosition v).scanPhase ∧ (updateScanPosition v).scanPhase < 1) := by
  refine ⟨?_, ?_, ?_, ?_, ?_⟩
  · constructor <;> decide!
  · constructor <;> decide!
  · constructor <;> decide!
  · intro Y v hs hm hr
    rw [updateScanPosition_pingPong v hs hm]
    have hstep : 0 < v.parameters.scan * (1 / 2) / v.currentSampleRate := by
      apply div_pos _ hr
      have : (0 : ℚ) < v.parameters.scan := lt_trans (by norm_num) hs
      linarith
    unfold jlimit
    constructor
    · intro h1
      split_ifs <;> linarith
    · intro h1
      split_ifs <;> linarith
  · intro Y v hs hm
    exact updateScanPosition_wraps v hs hm

/-! ## C27: the spawn schedule for a density in [0, 1] -/

theorem startNote_eq (v : Voice X) (n : Int) (vel : ℚ) :
    startNote v n vel = spawnGrain (spawnGrain (startNoteReset v n vel)) := rfl

theorem evictionTaken_eq_false (v : Voice X) (src : AudioBuffer) (hsrc : v.audioSource = some src)
    (h : (spawnAppend src v (spawnMainGrain src v)).1.length ≤ 20) : evictionTaken v = false := by
  unfold evictionTaken
  rw [hsrc]
  simp only [decide_eq_false_iff_not, not_and, not_lt, gt_iff_lt]
  exact fun _ => h

theorem evictionTaken_of_lt (v : Voice X) (src : AudioBuffer) (hsrc : v.audioSource = some src)
    (h : v.activeGrains.length < 20) : evictionTaken v = false := by
  apply evictionTaken_eq_false v src hsrc
  have hle := spawnAppend_length_le src v (spawnMainGrain src v)
  have : max (v.activeGrains.length + 1) 16 ≤ 20 := max_le (by omega) (by omega)
  omega

theorem spawnGrain_length_le_16 (v : Voice X) (src : AudioBuffer)
    (hsrc : v.audioSource = some src) (hn : src.numSamples ≠ 0)
    (h : v.activeGrains.length < 16) : (spawnGrain v).activeGrains.length ≤ 16 := by
  obtain ⟨_, a2, _⟩ := spawnGrain_length_bounds v src hsrc hn (by omega)
  exact le_trans a2 (max_le (by omega) (le_refl _))

theorem spawnGrain_of_nil_length (v : Voice X) (src : AudioBuffer)
    (hsrc : v.audioSource = some src) (hn : src.numSamples ≠ 0) (h0 : v.activeGrains = [])
    (hu : toInt v.parameters.unisonVoices ≤ 15) : (spawnGrain v).activeGrains.length ≤ 15 := by
  obtain ⟨extra, he, hlen, _⟩ := spawnAppend_extra src v (spawnMainGrain src v)
  have hl : (spawnAppend src v (spawnMainGrain src v)).1.length = 1 + extra.length := by
    rw [he, h0]
    simp only [List.nil_append, List.length_cons]
    omega
  have hx : (extra.length : Int) ≤ 14 := le_trans hlen (max_le (by decide) (by omega))
  rw [spawnGrain_eq v src hsrc hn]
  dsimp only
  have h20 : ¬ (spawnAppend src v (spawnMainGrain src v)).1.length > 20 := by omega
  rw [if_neg h20, hl]
  omega

theorem startNote_length_le_16 (v : Voice X) (n : Int) (vel : ℚ) (src : AudioBuffer)
    (hsrc : v.audioSource = some src) (hn : src.numSamples ≠ 0)
    (hu : toInt v.parameters.unisonVoices ≤ 15) :
    (startNote v n vel).activeGrains.length ≤ 16 := by
  rw [startNote_eq]
  have h1 := spawnGrain_of_nil_length (startNoteReset v n vel) src hsrc hn rfl hu
  exact spawnGrain_length_le_16 _ src (by rw [spawnGrain_audioSource]; exact hsrc) hn (by omega)

theorem spawnStep_cases (spawnIncrement : ℚ) (w : Voice X)
    (h1 : spawnIncrement ≤ 1) (ht1 : w.grainSpawnTimer < 1)
    (hact : w.isActive = true) :
    (16 ≤ w.activeGrains.length ∧ spawnStep spawnIncrement w = w) ∨
      (w.grainSpawnTimer + spawnIncrement < 1 ∧
        spawnStep spawnIncrement w = w.advanceTimer spawnIncrement) ∨
      (w.activeGrains.length < 16 ∧ 1 ≤ w.grainSpawnTimer + spawnIncrement ∧
        spawnStep spawnIncrement w = spawnOnce (w.advanceTimer spawnIncrement)) := by
  by_cases hc : w.activeGrains.length < 16
  · by_cases hlt : w.grainSpawnTimer + spawnIncrement < 1
    · refine Or.inr (Or.inl ⟨hlt, ?_⟩)
      unfold spawnStep
      rw [if_pos hc]
      exact spawnLoop_of_lt _ _ hlt
    · refine Or.inr (Or.inr ⟨hc, not_lt.mp hlt, ?_⟩)
      have hfl : ⌊w.grainSpawnTimer + spawnIncrement⌋ = 1 := by
        rw [Int.floor_eq_iff]
        constructor
        · push_cast; exact not_lt.mp hlt
        · push_cast; linarith
      unfold spawnStep
      rw [if_pos hc, hfl]
      show spawnLoop (0 + 1) _ = _
      unfold spawnLoop
      have hcond : 1 ≤ (w.advanceTimer spawnIncrement).grainSpawnTimer ∧
          (w.advanceTimer spawnIncrement).isActive = true := ⟨not_lt.mp hlt, hact⟩
      split_ifs with h2
      · rfl
      · exact absurd hcond h2
  · exact Or.inl ⟨not_lt.mp hc, spawnStep_of_full _ _ (not_lt.mp hc)⟩

theorem spawnIncrement_range (d sr : ℚ) (hd0 : 0 ≤ d) (hd1 : d ≤ 1) (hsr : 50 ≤ sr) :
    0 ≤ d * 50 / sr ∧ d * 50 / sr ≤ 1 := by
  have hpos : (0 : ℚ) < sr := by linarith
  constructor
  · exact div_nonneg (by linarith) (le_of_lt hpos)
  · rw [div_le_one hpos]
    linarith

/-- The invariant of the spawn schedule: the snapshot, the rate and the source of the
voice `v`, the active flag, a timer in [0, 1) and at most 17 grains. -/
theorem ticks_schedule (v : Voice X) (src : AudioBuffer) (n : Int) (vel : ℚ) (k : Nat)
    (hsrc : v.audioSource = some src) (hn : src.numSamples ≠ 0)
    (hd0 : 0 ≤ v.parameters.density) (hd1 : v.parameters.density ≤ 1)
    (hsr : 50 ≤ v.currentSampleRate) :
    (ticks src k (startNote v n vel)).config = (startNote v n vel).config ∧
      (0 ≤ (ticks src k (startNote v n vel)).grainSpawnTimer ∧
        (ticks src k (startNote v n vel)).grainSpawnTimer < 1) ∧
      (ticks src k (startNote v n vel)).activeGrains.length ≤ 17 ∧
      (toInt v.parameters.unisonVoices ≤ 15 →
        (ticks src k (startNote v n vel)).activeGrains.length ≤ 16) := by
  obtain ⟨cp, cs, ca, cact, ct⟩ := startNote_config_of v n vel
  have key : ∀ (k : Nat) (w : Voice X), w.config = (startNote v n vel).config →
      (0 ≤ w.grainSpawnTimer ∧ w.grainSpawnTimer < 1) → w.activeGrains.length ≤ 17 →
      (toInt v.parameters.unisonVoices ≤ 15 → w.activeGrains.length ≤ 16) →
      (ticks src k w).config = (startNote v n vel).config ∧
        (0 ≤ (ticks src k w).grainSpawnTimer ∧ (ticks src k w).grainSpawnTimer < 1) ∧
        (ticks src k w).activeGrains.length ≤ 17 ∧
        (toInt v.parameters.unisonVoices ≤ 15 → (ticks src k w).activeGrains.length ≤ 16) := by
    intro k
    induction k with
    | zero => exact fun w hc ht hl hu => ⟨hc, ht, hl, hu⟩
    | succ m ih =>
      intro w hc ht hl hu
      unfold ticks
      have wp : w.parameters = v.parameters :=
        (congrArg VoiceConfig.parameters hc).trans cp
      have ws : w.currentSampleRate = v.currentSampleRate :=
        (congrArg VoiceConfig.currentSampleRate hc).trans cs
      have wa : w.audioSource = some src :=
        ((congrArg VoiceConfig.audioSource hc).trans ca).trans hsrc
      have wact : w.isActive = true := (congrArg VoiceConfig.isActive hc).trans cact
      obtain ⟨i0, i1⟩ := spawnIncrement_range w.parameters.density w.currentSampleRate
        (by rw [wp]; exact hd0) (by rw [wp]; exact hd1) (by rw [ws]; exact hsr)
      have hlenle := processGrains_length_le (X := X) src
        (spawnStep (w.parameters.density * 50 / w.currentSampleRate) w).activeGrains (0, 0)
      apply ih
      · exact (updateGrainsSample_config src w).trans hc
      · rw [updateGrainsSample_grainSpawnTimer]
        rcases spawnStep_cases _ w i1 ht.2 wact with ⟨_, he⟩ | ⟨hlt, he⟩ | ⟨_, hge, he⟩
        · rw [he]; exact ht
        · rw [he]
          exact ⟨add_nonneg ht.1 i0, hlt⟩
        · rw [he]
          show 0 ≤ (spawnGrain (w.advanceTimer _)).grainSpawnTimer - 1 ∧
            (spawnGrain (w.advanceTimer _)).grainSpawnTimer - 1 < 1
          rw [spawnGrain_grainSpawnTimer]
          show 0 ≤ w.grainSpawnTimer + _ - 1 ∧ w.grainSpawnTimer + _ - 1 < 1
          constructor
          · linarith
          · linarith [ht.2]
      · rw [updateGrainsSample_activeGrains]
        refine le_trans hlenle ?_
        rcases spawnStep_cases _ w i1 ht.2 wact with ⟨_, he⟩ | ⟨hlt, he⟩ | ⟨hc16, _, he⟩
        · rw [he]; exact hl
        · rw [he]; exact hl
        · rw [he]
          exact le_trans (spawnGrain_length_le_16 (w.advanceTimer _) src wa hn hc16) (by decide)
      · intro hu15
        rw [updateGrainsSample_activeGrains]
        refine le_trans hlenle ?_
        rcases spawnStep_cases _ w i1 ht.2 wact with ⟨_, he⟩ | ⟨hlt, he⟩ | ⟨hc16, _, he⟩
        · rw [he]; exact hu hu15
        · rw [he]; exact hu hu15
        · rw [he]
          exact spawnGrain_length_le_16 (w.advanceTimer _) src wa hn hc16
  refine key k _ rfl ⟨by rw [ct], by rw [ct]; exact zero_lt_one⟩ ?_ ?_
  · exact (startNote_length_bounds v n vel src hsrc hn).2.1
  · exact startNote_length_le_16 v n vel src hsrc hn

/-- C27 as stated fails. With 16 unison voices (density 1/2, 44.1 kHz) a note-on leaves
17 grains, and 17 remain after the next tick: the count exceeds 16. With 2 unison voices,
density 1 and a render rate of 50 Hz one tick takes the active set from 4 to 6 grains:
the single `spawnGrain` call of the tick appends the main grain and a unison copy. -/
theorem C27_unison_exceeds_bounds :
    ¬ (wideUnisonVoice.activeGrains.length ≤ 16) ∧
      ¬ ((ticks (rampSource 100) 1 wideUnisonVoice).activeGrains.length ≤ 16) ∧
      fastSpawnVoice.activeGrains.length = 4 ∧
      (ticks (rampSource 100) 1 fastSpawnVoice).activeGrains.length = 6 := by
  have h1 : wideUnisonVoice.activeGrains.length = 17 := by decide!
  have h2 : (ticks (rampSource 100) 1 wideUnisonVoice).activeGrains.length = 17 := by decide!
  refine ⟨?_, ?_, ?_, ?_⟩
  · rw [h1]; decide
  · rw [h2]; decide
  · decide!
  · decide!

/-- C27, amended: with a non-empty source, a density in [0, 1] and a render rate of at
least 50 Hz, after a note-on and any number of ticks the spawn timer lies in [0, 1), at
most 17 grains are active (at most 16 when `unisonVoices` is below 16), and the spawn
block of the next tick either does nothing (16 or more grains), or only advances the
timer, or calls `spawnGrain` exactly once, without eviction and leaving at most 16
grains. Neither of the two `spawnGrain` calls of the note-on evicts. -/
theorem C27_spawn_schedule (v : Voice X) (src : AudioBuffer) (midiNoteNumber : Int)
    (noteVelocity : ℚ) (k : Nat)
    (hsrc : v.audioSource = some src) (hn : src.numSamples ≠ 0)
    (hd0 : 0 ≤ v.parameters.density) (hd1 : v.parameters.density ≤ 1)
    (hsr : 50 ≤ v.currentSampleRate) :
    (0 ≤ (ticks src k (startNote v midiNoteNumber noteVelocity)).grainSpawnTimer ∧
        (ticks src k (startNote v midiNoteNumber noteVelocity)).grainSpawnTimer < 1) ∧
      (ticks src k (startNote v midiNoteNumber noteVelocity)).activeGrains.length ≤ 17 ∧
      (toInt v.parameters.unisonVoices ≤ 15 →
        (ticks src k (startNote v midiNoteNumber noteVelocity)).activeGrains.length ≤ 16) ∧
      (spawnStep (v.parameters.density * 50 / v.currentSampleRate)
            (ticks src k (startNote v midiNoteNumber noteVelocity)) =
          ticks src k (startNote v midiNoteNumber noteVelocity) ∨
        spawnStep (v.parameters.density * 50 / v.currentSampleRate)
            (ticks src k (startNote v midiNoteNumber noteVelocity)) =
          (ticks src k (startNote v midiNoteNumber noteVelocity)).advanceTimer
            (v.parameters.density * 50 / v.currentSampleRate) ∨
        (spawnStep (v.parameters.density * 50 / v.currentSampleRate)
            (ticks src k (startNote v midiNoteNumber noteVelocity)) =
          spawnOnce ((ticks src k (startNote v midiNoteNumber noteVelocity)).advanceTimer
            (v.parameters.density * 50 / v.currentSampleRate)) ∧
          evictionTaken ((ticks src k (startNote v midiNoteNumber noteVelocity)).advanceTimer
            (v.parameters.density * 50 / v.currentSampleRate)) = false ∧
          (spawnStep (v.parameters.density * 50 / v.currentSampleRate)
            (ticks src k (startNote v midiNoteNumber noteVelocity))).activeGrains.length ≤ 16)) ∧
      (ticks src k (startNote v midiNoteNumber noteVelocity)).parameters = v.parameters ∧
      (ticks src k (startNote v midiNoteNumber noteVelocity)).currentSampleRate =
        v.currentSampleRate ∧
      evictionTaken (startNoteReset v midiNoteNumber noteVelocity) = false ∧
      evictionTaken (spawnGrain (startNoteReset v midiNoteNumber noteVelocity)) = false := by
  obtain ⟨hc, ht, hl, hu⟩ := ticks_schedule v src midiNoteNumber noteVelocity k hsrc hn hd0 hd1 hsr
  obtain ⟨cp, cs, ca, cact, _⟩ := startNote_config_of v midiNoteNumber noteVelocity
  have wa : (ticks src k (startNote v midiNoteNumber noteVelocity)).audioSource = some src :=
    ((congrArg VoiceConfig.audioSource hc).trans ca).trans hsrc
  have wact : (ticks src k (startNote v midiNoteNumber noteVelocity)).isActive = true :=
    (congrArg VoiceConfig.isActive hc).trans cact
  obtain ⟨i0, i1⟩ := spawnIncrement_range v.parameters.density v.currentSampleRate hd0 hd1 hsr
  refine ⟨ht, hl, hu, ?_, (congrArg VoiceConfig.parameters hc).trans cp,
    (congrArg VoiceConfig.currentSampleRate hc).trans cs, ?_, ?_⟩
  · rcases spawnStep_cases _ (ticks src k (startNote v midiNoteNumber noteVelocity)) i1
      ht.2 wact with ⟨_, he⟩ | ⟨_, he⟩ | ⟨hc16, _, he⟩
    · exact Or.inl he
    · exact Or.inr (Or.inl he)
    · refine Or.inr (Or.inr ⟨he, ?_, ?_⟩)
      · exact evictionTaken_of_lt _ src wa (lt_trans hc16 (by decide))
      · rw [he]
        exact spawnGrain_length_le_16 _ src wa hn hc16
  · exact evictionTaken_of_lt _ src hsrc (show (0 : Nat) < 20 by decide)
  · have h1 : (spawnGrain (startNoteReset v midiNoteNumber noteVelocity)).activeGrains.length
        ≤ 16 := spawnGrain_length_le_16 _ src hsrc hn (show (0 : Nat) < 16 by decide)
    exact evictionTaken_of_lt _ src (by rw [spawnGrain_audioSource]; exact hsrc) (by omega)

theorem C27_spawn_schedule_witness :
    (0 ≤ (ticks (rampSource 100) 2 fastSpawnVoice).grainSpawnTimer ∧
        (ticks (rampSource 100) 2 fastSpawnVoice).grainSpawnTimer < 1) ∧
      (ticks (rampSource 100) 2 fastSpawnVoice).activeGrains.length ≤ 17 :=
  have h := C27_spawn_schedule
    (freshVoice (some (rampSource 100)) 50 { density := 1, unisonVoices := 2 })
    (rampSource 100) 60 1 2 rfl (by decide) (by decide!) (by decide!) (by decide!)
  ⟨h.1, h.2.1⟩

/-! ## C28: grain positions and the reads of the grain loop -/

theorem inSource_indices (n : Nat) (g : Grain) (h : g.InSource n) :
    (0 ≤ toInt g.position ∧ toInt g.position ≤ (n : Int) - 1) ∧
      (0 ≤ jmin (toInt g.position + 1) ((n : Int) - 1) ∧
        jmin (toInt g.position + 1) ((n : Int) - 1) ≤ (n : Int) - 1) ∧
      ¬ (toInt g.position < 0 ∨ (n : Int) ≤ toInt g.position) := by
  obtain ⟨h0, hN⟩ := h
  have hfl0 : 0 ≤ ⌊g.position⌋ := Int.floor_nonneg.mpr h0
  have hflN : ⌊g.position⌋ < (n : Int) := by
    rw [Int.floor_lt]
    exact_mod_cast hN
  rw [toInt_of_nonneg _ h0]
  refine ⟨⟨hfl0, by omega⟩, ?_, by omega⟩
  unfold jmin
  split_ifs <;> constructor <;> omega

theorem processGrain_wrap (src : AudioBuffer) (g g1 : Grain) (l r : ℚ)
    (h : processGrain X src g = GrainStep.played g1 l r) :
    g1.position =
      (if floatOfInt (src.numSamples : Int) ≤
          (if g.reverse then g.position - g.increment else g.position + g.increment) then 0
        else if (if g.reverse then g.position - g.increment else g.position + g.increment) < 0
          then floatOfInt ((src.numSamples : Int) - 1)
        else (if g.reverse then g.position - g.increment else g.position + g.increment)) := by
  unfold processGrain at h
  dsimp only at h
  by_cases h1 : g.samplesRemaining ≤ 0
  · rw [if_pos h1] at h
    exact GrainStep.noConfusion h
  · rw [if_neg h1] at h
    by_cases h2 : 1 / 2 - 1 / 2 * X.cos (2 * X.pi *
        (1 - (g.samplesRemaining : ℚ) / (g.totalSamples : ℚ))) < 2 / 100
    · rw [if_pos h2] at h
      exact GrainStep.noConfusion h
    · rw [if_neg h2] at h
      injection h with h _ _
      rw [← h]

/-- C28 as stated fails: on a source of N = 16777220 samples, where `(float) (N - 1)`
is N, a note-on with live position 1 leaves both grains at position N, outside
`[0, N)`. The first tick skips them (envelope 0); the grain loop of the second tick
reads each of them at position N, where the truncated index is N, the out-of-range test
of `getInterpolatedSample` is true, and the value read is 0, while the last sample of
the source is 16777219. -/
theorem C28_read_at_source_length :
    ¬ (∀ g ∈ (startNote (longSourceVoice 1) 60 1).activeGrains,
        g.InSource (rampSource 16777220).numSamples) ∧
      (startNote (longSourceVoice 1) 60 1).activeGrains.map (fun g => g.position) =
        [16777220, 16777220] ∧
      (ticks (rampSource 16777220) 1 (startNote (longSourceVoice 1) 60 1)).activeGrains.map
        (fun g => (g.position, (processGrain stdJuce (rampSource 16777220) g).playedL,
          decide (((rampSource 16777220).numSamples : Int) ≤ toInt g.position))) =
        [(16777220, some 0, true), (16777220, some 0, true)] ∧
      getInterpolatedSample (some (rampSource 16777220)) 0 16777220 = 0 ∧
      getInterpolatedSample (some (rampSource 16777220)) 0 16777219 = 16777219 := by
  have h : (startNote (longSourceVoice 1) 60 1).activeGrains.map (fun g => g.position) =
      [16777220, 16777220] := by decide!
  refine ⟨?_, h, by decide!, by decide!, by decide!⟩
  intro hall
  have hm : ∀ x ∈ (startNote (longSourceVoice 1) 60 1).activeGrains.map (fun g => g.position),
      x < ((rampSource 16777220).numSamples : ℚ) := by
    intro x hx
    obtain ⟨g, hg, rfl⟩ := List.mem_map.mp hx
    exact (hall g hg).2
  have h3 := hm 16777220 (by rw [h]; simp)
  norm_num [rampSource] at h3

/-- C28, amended: with a non-empty source of N samples, N at most 2^24 (so that the
conversions of N - 1 and N to `float` are exact), every active grain after a note-on and
any number of ticks has 0 <= position < N, and so has every grain that the grain loop of
the next tick visits (the spawn block has run); for such a grain both indices that
`getInterpolatedSample` computes lie in [0, N - 1], its out-of-range test is false, and
on a channel of the source it returns the interpolated value. A grain that is read moves
by its increment, forward or in reverse; it restarts at exactly 0 when the new position
reaches N and at exactly N - 1 when it falls below 0. -/
theorem C28_reads_stay_in_source (v : Voice X) (src : AudioBuffer) (midiNoteNumber : Int)
    (noteVelocity : ℚ) (k : Nat) (hsrc : v.audioSource = some src) (hN : 0 < src.numSamples)
    (h24 : src.numSamples ≤ 16777216) :
    (∀ g ∈ (ticks src k (startNote v midiNoteNumber noteVelocity)).activeGrains,
        g.InSource src.numSamples) ∧
      (∀ (spawnIncrement : ℚ),
        ∀ g ∈ (spawnStep spawnIncrement
            (ticks src k (startNote v midiNoteNumber noteVelocity))).activeGrains,
          g.InSource src.numSamples ∧
          (0 ≤ toInt g.position ∧ toInt g.position ≤ (src.numSamples : Int) - 1) ∧
          (0 ≤ jmin (toInt g.position + 1) ((src.numSamples : Int) - 1) ∧
            jmin (toInt g.position + 1) ((src.numSamples : Int) - 1) ≤
              (src.numSamples : Int) - 1) ∧
          ¬ (toInt g.position < 0 ∨ (src.numSamples : Int) ≤ toInt g.position) ∧
          ∀ channel : Nat, channel < src.numChannels →
            getInterpolatedSample (some src) channel g.position =
              src.getSample channel ⌊g.position⌋.toNat +
                (g.position - (⌊g.position⌋.toNat : ℚ)) *
                  (src.getSample channel (min (⌊g.position⌋.toNat + 1) (src.numSamples - 1)) -
                    src.getSample channel ⌊g.position⌋.toNat)) ∧
      (∀ (g g1 : Grain) (l r : ℚ), processGrain X src g = GrainStep.played g1 l r →
        (g.reverse = false → (src.numSamples : ℚ) ≤ g.position + g.increment →
          g1.position = 0) ∧
        (g.reverse = true → g.position - g.increment < 0 →
          g1.position = (src.numSamples : ℚ) - 1) ∧
        (g.reverse = false → 0 ≤ g.position + g.increment →
          g.position + g.increment < (src.numSamples : ℚ) →
          g1.position = g.position + g.increment) ∧
        (g.reverse = true → 0 ≤ g.position - g.increment →
          g.position - g.increment < (src.numSamples : ℚ) →
          g1.position = g.position - g.increment)) := by
  obtain ⟨_, _, ca, _, _⟩ := startNote_config_of v midiNoteNumber noteVelocity
  have hsn : (startNote v midiNoteNumber noteVelocity).audioSource = some src := ca.trans hsrc
  have hall := ticks_inSource k (startNote v midiNoteNumber noteVelocity) src hsn hN h24
    (startNote_inSource v midiNoteNumber noteVelocity src hsrc hN h24)
  have hta : (ticks src k (startNote v midiNoteNumber noteVelocity)).audioSource = some src := by
    have hk : ∀ (k : Nat) (w : Voice X), (ticks src k w).audioSource = w.audioSource := by
      intro k
      induction k with
      | zero => exact fun w => rfl
      | succ n ih =>
        intro w
        unfold ticks
        rw [ih]
        exact congrArg VoiceConfig.audioSource (updateGrainsSample_config src w)
    rw [hk]; exact hsn
  have hNq : (0 : ℚ) < (src.numSamples : ℚ) := by exact_mod_cast hN
  refine ⟨hall, ?_, ?_⟩
  · intro spawnIncrement g hg
    have hin := spawnStep_inSource spawnIncrement _ src hta hN h24 hall g hg
    obtain ⟨i0, i1, i2⟩ := inSource_indices src.numSamples g hin
    exact ⟨hin, i0, i1, i2, fun channel hch =>
      getInterpolatedSample_eq src channel g.position hch hin.1 hin.2⟩
  · intro g g1 l r hp
    have hw := processGrain_wrap src g g1 l r hp
    rw [floatOfInt_natCast src.numSamples h24, floatOfInt_pred src.numSamples hN h24] at hw
    refine ⟨?_, ?_, ?_, ?_⟩
    · intro hr hc
      rw [hw, hr]
      simp only [Bool.false_eq_true, if_false]
      rw [if_pos hc]
    · intro hr hc
      rw [hw, hr]
      simp only [if_true]
      have hnot : ¬ ((src.numSamples : ℚ) ≤ g.position - g.increment) := by linarith
      rw [if_neg hnot, if_pos hc]
    · intro hr h0 h1
      rw [hw, hr]
      simp only [Bool.false_eq_true, if_false]
      rw [if_neg (not_le.mpr h1), if_neg (not_lt.mpr h0)]
    · intro hr h0 h1
      rw [hw, hr]
      simp only [if_true]
      rw [if_neg (not_le.mpr h1), if_neg (not_lt.mpr h0)]

/-- C28, amended, at a fresh voice on a 100-sample source. -/
theorem C28_reads_stay_in_source_witness :
    (∀ g ∈ (ticks (rampSource 100) 3
        (startNote (freshVoice (some (rampSource 100)) 44100 {}) 60 1)).activeGrains,
        g.InSource (rampSource 100).numSamples) ∧
      (∀ (g g1 : Grain) (l r : ℚ),
        processGrain stdJuce (rampSource 100) g = GrainStep.played g1 l r →
        g.reverse = false → ((rampSource 100).numSamples : ℚ) ≤ g.position + g.increment →
          g1.position = 0) :=
  have h := C28_reads_stay_in_source (freshVoice (some (rampSource 100)) 44100 {})
    (rampSource 100) 60 1 3 rfl (by decide) (by decide)
  ⟨h.1, fun g g1 l r hp => (h.2.2 g g1 l r hp).1⟩

/-! ## C29: grain scheduling and the envelope -/

theorem getLFOShape_withEffects (x : Effects X) (v : Voice X) (phase : ℚ) (shapeType : Int) :
    getLFOShape (v.withEffects x) phase shapeType =
      ((getLFOShape v phase shapeType).1, (getLFOShape v phase shapeType).2.withEffects x) := by
  unfold getLFOShape
  split_ifs <;> rfl

theorem generateLFO_withEffects (x : Effects X) (v : Voice X) (lfoIndex : Int) :
    generateLFO (v.withEffects x) lfoIndex =
      ((generateLFO v lfoIndex).1, (generateLFO v lfoIndex).2.withEffects x) := by
  unfold generateLFO
  dsimp only
  rw [show (v.withEffects x).lfoPhase = v.lfoPhase from rfl,
    show (v.withEffects x).lfo2Phase = v.lfo2Phase from rfl,
    show (v.withEffects x).parameters = v.parameters from rfl,
    show (v.withEffects x).currentSampleRate = v.currentSampleRate from rfl,
    getLFOShape_withEffects]
  by_cases hi : lfoIndex = 0
  · simp only [hi, if_true]
    rfl
  · simp only [hi, if_false]
    rfl

theorem updateScanPosition_withEffects (x : Effects X) (v : Voice X) :
    updateScanPosition (v.withEffects x) = (updateScanPosition v).withEffects x := by
  unfold updateScanPosition Voice.withEffects
  dsimp only
  split_ifs <;> rfl

theorem nextFloat_withEffects (x : Effects X) (v : Voice X) :
    nextFloat (v.withEffects x) = ((nextFloat v).1, (nextFloat v).2.withEffects x) := rfl

theorem drawIf_withEffects (c : Prop) [Decidable c] (x : Effects X) (v : Voice X) :
    (if c then ((nextFloat v).1, (nextFloat v).2.withEffects x)
      else ((0 : ℚ), v.withEffects x)) =
      ((if c then nextFloat v else ((0 : ℚ), v)).1,
        (if c then nextFloat v else ((0 : ℚ), v)).2.withEffects x) := by
  split_ifs <;> rfl

theorem calculateGrainPosition_withEffects (x : Effects X) (v : Voice X) :
    calculateGrainPosition (v.withEffects x) =
      ((calculateGrainPosition v).1, (calculateGrainPosition v).2.withEffects x) := by
  unfold calculateGrainPosition
  dsimp only
  rw [show (v.withEffects x).parameters = v.parameters from rfl,
    show (v.withEffects x).targetPlayPosition = v.targetPlayPosition from rfl,
    show (v.withEffects x).currentPlayPosition = v.currentPlayPosition from rfl]
  split_ifs <;> rfl

theorem withEffects_parameters (x : Effects X) (v : Voice X) :
    (v.withEffects x).parameters = v.parameters := rfl

theorem withEffects_currentSampleRate (x : Effects X) (v : Voice X) :
    (v.withEffects x).currentSampleRate = v.currentSampleRate := rfl

theorem withEffects_sourceSampleRate (x : Effects X) (v : Voice X) :
    (v.withEffects x).sourceSampleRate = v.sourceSampleRate := rfl

theorem withEffects_midiNote (x : Effects X) (v : Voice X) :
    (v.withEffects x).midiNote = v.midiNote := rfl

theorem withEffects_scanPhase (x : Effects X) (v : Voice X) :
    (v.withEffects x).scanPhase = v.scanPhase := rfl

theorem spawnMainGrain_withEffects (x : Effects X) (src : AudioBuffer) (v : Voice X) :
    spawnMainGrain src (v.withEffects x) =
      ((spawnMainGrain src v).1, (spawnMainGrain src v).2.withEffects x) := by
  unfold spawnMainGrain
  simp only [generateLFO_withEffects, updateScanPosition_withEffects, withEffects_parameters,
    withEffects_currentSampleRate, withEffects_sourceSampleRate, withEffects_midiNote,
    drawIf_withEffects, calculateGrainPosition_withEffects, withEffects_scanPhase,
    nextFloat_withEffects]

theorem spawnGrain_withEffects (x : Effects X) (v : Voice X) :
    spawnGrain (v.withEffects x) = (spawnGrain v).withEffects x := by
  cases hsrc : v.audioSource with
  | none =>
    rw [spawnGrain_of_none v hsrc, spawnGrain_of_none (v.withEffects x) hsrc]
  | some src =>
    by_cases hn : src.numSamples = 0
    · rw [spawnGrain_of_empty v src hsrc hn, spawnGrain_of_empty (v.withEffects x) src hsrc hn]
    · rw [spawnGrain_eq v src hsrc hn, spawnGrain_eq (v.withEffects x) src hsrc hn,
        spawnMainGrain_withEffects x src v]
      rfl

theorem spawnLoop_withEffects (x : Effects X) (fuel : Nat) (v : Voice X) :
    spawnLoop fuel (v.withEffects x) = (spawnLoop fuel v).withEffects x := by
  induction fuel generalizing v with
  | zero => rfl
  | succ n ih =>
    unfold spawnLoop
    rw [show (v.withEffects x).grainSpawnTimer = v.grainSpawnTimer from rfl,
      show (v.withEffects x).isActive = v.isActive from rfl]
    split_ifs with hc
    · rw [spawnGrain_withEffects]
      exact ih { spawnGrain v with grainSpawnTimer := (spawnGrain v).grainSpawnTimer - 1 }
    · rfl

theorem spawnStep_withEffects (x : Effects X) (spawnIncrement : ℚ) (v : Voice X) :
    spawnStep spawnIncrement (v.withEffects x) =
      (spawnStep spawnIncrement v).withEffects x := by
  unfold spawnStep
  rw [show (v.withEffects x).activeGrains = v.activeGrains from rfl,
    show (v.withEffects x).grainSpawnTimer = v.grainSpawnTimer from rfl]
  split_ifs with hc
  · exact spawnLoop_withEffects x _
      { v with grainSpawnTimer := v.grainSpawnTimer + spawnIncrement }
  · rfl

theorem sameSchedule_exists (x : Effects X) (u v : Voice X)
    (h : u.withEffects x = v.withEffects x) : ∃ y : Effects X, u = v.withEffects y := by
  refine ⟨u.effects, ?_⟩
  have h2 : (u.withEffects x).withEffects u.effects = (v.withEffects x).withEffects u.effects := by
    rw [h]
  exact h2

theorem sameSchedule_fields (x : Effects X) (u v : Voice X)
    (h : u.withEffects x = v.withEffects x) :
    u.activeGrains = v.activeGrains ∧ u.grainSpawnTimer = v.grainSpawnTimer ∧
      u.random = v.random ∧ u.isActive = v.isActive := by
  obtain ⟨y, rfl⟩ := sameSchedule_exists x u v h
  exact ⟨rfl, rfl, rfl, rfl⟩

theorem spawnStep_sameSchedule (x : Effects X) (spawnIncrement : ℚ) (u v : Voice X)
    (h : u.withEffects x = v.withEffects x) :
    (spawnStep spawnIncrement u).withEffects x = (spawnStep spawnIncrement v).withEffects x := by
  rw [← spawnStep_withEffects, ← spawnStep_withEffects, h]

theorem processFilter_sameSchedule (x : Effects X) (u v : Voice X) (l r l1 r1 : ℚ)
    (h : u.withEffects x = v.withEffects x) :
    (processFilter u l r).2.withEffects x = (processFilter v l1 r1).2.withEffects x := by
  obtain ⟨y, rfl⟩ := sameSchedule_exists x u v h
  unfold processFilter
  rw [withEffects_parameters]
  split_ifs <;> rfl

theorem processChorus_sameSchedule (x : Effects X) (u v : Voice X) (l r l1 r1 : ℚ)
    (h : u.withEffects x = v.withEffects x) :
    (processChorus u l r).2.withEffects x = (processChorus v l1 r1).2.withEffects x := by
  obtain ⟨y, rfl⟩ := sameSchedule_exists x u v h
  unfold processChorus
  dsimp only
  rw [withEffects_parameters, withEffects_currentSampleRate,
    show (v.withEffects y).chorusLFOPhase = v.chorusLFOPhase from rfl]
  split_ifs <;> rfl

theorem updateGrainsSample_sameSchedule (src : AudioBuffer) (x : Effects X) (u v : Voice X)
    (h : u.withEffects x = v.withEffects x) :
    (updateGrainsSample src u).1.withEffects x = (updateGrainsSample src v).1.withEffects x := by
  obtain ⟨y, rfl⟩ := sameSchedule_exists x u v h
  unfold updateGrainsSample
  dsimp only
  rw [withEffects_parameters, withEffects_currentSampleRate, spawnStep_withEffects]
  apply processChorus_sameSchedule
  apply processFilter_sameSchedule
  rfl

theorem ticks_sameSchedule (src : AudioBuffer) (x : Effects X) (k : Nat) (u v : Voice X)
    (h : u.withEffects x = v.withEffects x) :
    (ticks src k u).withEffects x = (ticks src k v).withEffects x := by
  induction k generalizing u v with
  | zero => exact h
  | succ n ih =>
    unfold ticks
    exact ih _ _ (updateGrainsSample_sameSchedule src x u v h)

/-- C29: grain scheduling does not depend on the envelope. For two voices that differ
only in the envelope, one tick of `updateGrains` leaves the same active grains, spawn
timer and generator, and so does every number of ticks. An instance: a sounding voice
whose envelope has finished (density 1 at 50 Hz, 2 unison voices) still has its active
flag set and goes from 4 grains to 6 and 8 in two ticks, as it does with a running
envelope. -/
theorem C29_scheduling_ignores_envelope :
    (∀ (Y : Juce) (src : AudioBuffer) (v : Voice Y) (e : Y.ADSR),
      (updateGrainsSample src { v with envelope := e }).1.activeGrains =
          (updateGrainsSample src v).1.activeGrains ∧
        (updateGrainsSample src { v with envelope := e }).1.grainSpawnTimer =
          (updateGrainsSample src v).1.grainSpawnTimer ∧
        (updateGrainsSample src { v with envelope := e }).1.random =
          (updateGrainsSample src v).1.random) ∧
      (∀ (Y : Juce) (src : AudioBuffer) (v : Voice Y) (e : Y.ADSR) (k : Nat),
        (ticks src k { v with envelope := e }).activeGrains = (ticks src k v).activeGrains ∧
          (ticks src k { v with envelope := e }).grainSpawnTimer =
            (ticks src k v).grainSpawnTimer ∧
          (ticks src k { v with envelope := e }).random = (ticks src k v).random ∧
          (ticks src k { v with envelope := e }).isActive = (ticks src k v).isActive) ∧
      (stdJuce.adsrIsActive finishedEnvelopeVoice.envelope = false ∧
        stdJuce.adsrIsActive fastSpawnVoice.envelope = true ∧
        finishedEnvelopeVoice.isActive = true ∧
        finishedEnvelopeVoice.activeGrains.length = 4 ∧
        (ticks (rampSource 100) 1 finishedEnvelopeVoice).activeGrains.length = 6 ∧
        (ticks (rampSource 100) 2 finishedEnvelopeVoice).activeGrains.length = 8 ∧
        (ticks (rampSource 100) 2 fastSpawnVoice).activeGrains.length = 8) := by
  have key : ∀ (Y : Juce) (src : AudioBuffer) (v : Voice Y) (e : Y.ADSR) (k : Nat),
      (ticks src k { v with envelope := e }).withEffects v.effects =
        (ticks src k v).withEffects v.effects :=
    fun Y src v e k => ticks_sameSchedule src v.effects k _ v rfl
  refine ⟨?_, ?_, ?_⟩
  · intro Y src v e
    have hy := sameSchedule_fields _ _ _ (key Y src v e 1)
    exact ⟨hy.1, hy.2.1, hy.2.2.1⟩
  · intro Y src v e k
    exact sameSchedule_fields _ _ _ (key Y src v e k)
  · refine ⟨?_, ?_, ?_, ?_, ?_, ?_, ?_⟩ <;> decide!
end GranularSynth
